import Mathlib

/-!
Verification development for the collection data-synchronization and
indexing engine of the Strawberry music player
(`src/collection/collectionbackend.cpp`, which also carries the
`CollectionModel` grouping-index code, and `src/collection/collectionquery.cpp`).

The C++ is shallowly embedded: the relational store is a list of rows, SQL
statements become explicit list transformations, the Qt signal emissions
become the returned delta lists, and the pointer-based model tree becomes an
arena of nodes addressed by indices.  Fallible SQL execution is modelled by
an oracle deciding which statement (counted in execution order) fails, and
the `ScopedTransaction` commit/rollback protocol by an `Except` wrapper.

Qt library primitives that the code calls (QString::toInt, QChar
decomposition, QUrl directory extraction, QMap iteration order) are modelled
explicitly where their behaviour matters and noted in comments; Unicode
tables live in Qt, so character classification is embedded on the ASCII
range and canonical decomposition is a parameter of the model.
-/

/-- One row of the songs table.  Mirrors the fields of the `Song` value
class that `collectionbackend.cpp` reads and writes (`core/song.h` is
outside the excerpt); the numeric statistics of the spec are represented by
`playcount` and `ctime`. -/
structure Song where
  id : Int := -1
  songId : String := ""
  directoryId : Int := 1
  url : String := ""
  title : String := ""
  artist : String := ""
  album : String := ""
  albumartist : String := ""
  albumId : String := ""
  genre : String := ""
  composer : String := ""
  performer : String := ""
  grouping : String := ""
  track : Int := -1
  disc : Int := -1
  year : Int := -1
  originalyear : Int := -1
  samplerate : Int := -1
  bitdepth : Int := -1
  bitrate : Int := -1
  ctime : Int := 0
  playcount : Int := 0
  compilation : Bool := false
  compilationDetected : Bool := false
  compilationOn : Bool := false
  compilationOff : Bool := false
  compilationEffective : Bool := false
  unavailable : Bool := false
  deriving DecidableEq, Repr

/-- Modelled from the spec: `Song::effective_albumartist` lives in
`core/song.h` outside the excerpt; the glossary defines the effective
artist as the album-artist field if present, otherwise the track artist. -/
def Song.effectiveAlbumartist (s : Song) : String :=
  if s.albumartist = "" then s.artist else s.albumartist

/-- Modelled from the spec: `Song::is_compilation` lives in `core/song.h`
outside the excerpt; the spec states the effective-compilation formula
`(compilation OR compilation_detected OR compilation_on) AND NOT
compilation_off`. -/
def Song.isCompilation (s : Song) : Bool :=
  (s.compilation || s.compilationDetected || s.compilationOn) && !s.compilationOff

/-- Modelled from the spec: `Song::IsMetadataEqual` lives in `core/song.cpp`
outside the excerpt; the spec says matched candidates are compared on
"every user-visible field, excluding statistics", so every field except the
internal id and the statistics (`playcount`, `ctime`) takes part. -/
def Song.isMetadataEqual (a b : Song) : Bool :=
  a.songId == b.songId && a.directoryId == b.directoryId && a.url == b.url &&
  a.title == b.title && a.artist == b.artist && a.album == b.album &&
  a.albumartist == b.albumartist && a.albumId == b.albumId &&
  a.genre == b.genre && a.composer == b.composer && a.performer == b.performer &&
  a.grouping == b.grouping && a.track == b.track && a.disc == b.disc &&
  a.year == b.year && a.originalyear == b.originalyear &&
  a.samplerate == b.samplerate && a.bitdepth == b.bitdepth && a.bitrate == b.bitrate &&
  a.compilation == b.compilation && a.compilationDetected == b.compilationDetected &&
  a.compilationOn == b.compilationOn && a.compilationOff == b.compilationOff &&
  a.compilationEffective == b.compilationEffective && a.unavailable == b.unavailable

/-- The songs table.  `rows` holds the persisted rows; `nextId` models the
ROWID that SQLite will assign to the next inserted row
(`q.lastInsertId()` in the source). -/
structure DB where
  rows : List Song := []
  nextId : Int := 1
  deriving DecidableEq, Repr

/-- `SELECT ... WHERE ROWID = id` returning the first row, as
`CollectionBackend::GetSongById` does (no availability filter). -/
def DB.findById (db : DB) (id : Int) : Option Song :=
  db.rows.find? (fun r => r.id == id)

/-- `SELECT ... WHERE SONG_ID IN (...)` returning the first row, as
`CollectionBackend::GetSongBySongId` does (no availability filter). -/
def DB.findBySongId (db : DB) (sid : String) : Option Song :=
  db.rows.find? (fun r => r.songId == sid)

/-- `UPDATE songs SET <kUpdateSpec> WHERE ROWID = rowid`.  `kUpdateSpec`
(`core/song.cpp`, outside the excerpt) assigns every column except the
ROWID, so the row becomes `s` with its original internal id kept. -/
def DB.updateRow (db : DB) (rowid : Int) (s : Song) : DB :=
  { db with rows := db.rows.map (fun r => if r.id == rowid then { s with id := r.id } else r) }

/-- `INSERT INTO songs (<kColumnSpec>) VALUES (...)` followed by
`lastInsertId()`: the new row receives the next ROWID. -/
def DB.insertRow (db : DB) (s : Song) : DB × Int :=
  ({ rows := db.rows ++ [{ s with id := db.nextId }], nextId := db.nextId + 1 }, db.nextId)

/-- `DELETE FROM songs WHERE ROWID = rowid`. -/
def DB.deleteRow (db : DB) (rowid : Int) : DB :=
  { db with rows := db.rows.filter (fun r => !(r.id == rowid)) }

/-- Rows visible to a default `CollectionQuery`: `CollectionQuery::Exec`
always appends `unavailable = 0` unless `include_unavailable_` is set. -/
def DB.availRows (db : DB) : List Song :=
  db.rows.filter (fun r => !r.unavailable)

/-- Failure oracle for SQL statements: statement number `n` (counted in
execution order within one backend call) fails iff `oracle n = true`. -/
def Oracle : Type := Nat → Bool

/-- The always-succeeding oracle (every statement executes normally). -/
def noFailures : Oracle := fun _ => false

/-- State threaded through the body of a reconciliation call: the working
database of the open transaction, the statement counter, and the two
snapshot lists accumulated for the `SongsDeleted` / `SongsDiscovered`
emissions. -/
structure RecState where
  db : DB
  ctr : Nat := 0
  deleted : List Song := []
  added : List Song := []
  deriving Repr

/-- Result of one backend reconciliation call after the transaction wrapper:
the committed (or rolled-back) database, whether the call succeeded, and the
emitted delta (empty lists when nothing is emitted). -/
structure ReconcileResult where
  db : DB
  ok : Bool
  discovered : List Song := []
  deleted : List Song := []
  deriving Repr

/-- The "create new song" tail of the `AddOrUpdateSongs` loop body (source
lines 632-652): INSERT the candidate, read the assigned ROWID, and append
the snapshot carrying the new id. -/
def insertNewSong (oracle : Oracle) (st : RecState) (song : Song) (c : Nat) :
    Except Unit RecState :=
  if oracle c then Except.error ()
  else if (st.db.insertRow song).2 == -1 then Except.error ()
  else Except.ok { db := (st.db.insertRow song).1, ctr := c + 1, deleted := st.deleted,
                   added := st.added ++ [{ song with id := (st.db.insertRow song).2 }] }

/-- The match-and-write part of the `AddOrUpdateSongs` loop body (source
lines 566-652), entered once the directory check passed: a candidate with a
valid internal id is matched by id (and silently skipped when no such row
exists); only a candidate without an internal id is matched by its
non-empty `song_id`; with no match the candidate is inserted. -/
def addOrUpdateCore (oracle : Oracle) (st : RecState) (song : Song) (c1 : Nat) :
    Except Unit RecState :=
  if song.id != -1 then
    match st.db.findById song.id with
    | none => Except.ok { st with ctr := c1 }
    | some oldSong =>
      if oracle c1 then Except.error ()
      else if oracle (c1 + 1) then Except.error ()  -- FTS shadow-table update
      else Except.ok { db := st.db.updateRow song.id song, ctr := c1 + 2,
                       deleted := st.deleted ++ [oldSong],
                       added := st.added ++ [song] }
  else if song.songId != "" then
    match st.db.findBySongId song.songId with
    | some oldSong =>
      if oldSong.id != -1 then
        if oracle c1 then Except.error ()
        else Except.ok { db := st.db.updateRow oldSong.id song, ctr := c1 + 1,
                         deleted := st.deleted ++ [oldSong],
                         added := st.added ++ [{ song with id := oldSong.id }] }
      else insertNewSong oracle st song c1
    | none => insertNewSong oracle st song c1
  else insertNewSong oracle st song c1

/-- Loop body of `CollectionBackend::AddOrUpdateSongs` for one candidate
song (source lines 549-653).  `dirs = none` models an empty `dirs_table_`
(no sanity check); `dirs = some ds` models the directory table: a candidate
whose directory vanished is silently skipped.  Every SQL statement consumes
one oracle tick; a failing write raises the error that makes the wrapper
roll back (the `GetSongById` / `GetSongBySongId` SELECT failures are
converted by the source into an absent song and need no tick of their
own in the embedding). -/
def addOrUpdateStep (oracle : Oracle) (dirs : Option (List Int)) (st : RecState)
    (song : Song) : Except Unit RecState :=
  match dirs with
  | none => addOrUpdateCore oracle st song st.ctr
  | some ds =>
    if oracle st.ctr then Except.error ()
    else if !ds.contains song.directoryId then Except.ok { st with ctr := st.ctr + 1 }
    else addOrUpdateCore oracle st song (st.ctr + 1)

/-- `CollectionBackend::AddOrUpdateSongs` (source lines 539-664): the loop
over the batch inside a `ScopedTransaction`.  On success the transaction
commits and the two deltas are emitted (after the commit); on any failing
statement the body returns early, the transaction destructor rolls the
database back, and nothing is emitted. -/
def addOrUpdateSongs (oracle : Oracle) (dirs : Option (List Int)) (db : DB)
    (songs : List Song) : ReconcileResult :=
  match songs.foldl (fun acc song => acc.bind (fun st => addOrUpdateStep oracle dirs st song))
      (Except.ok { db := db }) with
  | Except.ok st => { db := st.db, ok := true, discovered := st.added, deleted := st.deleted }
  | Except.error _ => { db := db, ok := false }

/-- Association-list upsert used to model `QMap<QString, T>` contents.
`QMap` iterates in key order; the embedding keeps first-insertion order
instead, which only affects the order of the emitted snapshot lists and no
verified property. -/
def upsert {α : Type} (m : List (String × α)) (k : String) (dflt : α) (f : α → α) :
    List (String × α) :=
  if m.any (fun p => p.1 == k) then
    m.map (fun p => if p.1 == k then (p.1, f p.2) else p)
  else m ++ [(k, f dflt)]

/-- The `SongMap old_songs` of `CollectionBackend::UpdateSongsBySongID`:
every available row keyed by its `song_id` (later rows overwrite earlier
ones, as `QMap::insert` replaces). -/
def buildOldSongs (db : DB) : List (String × Song) :=
  db.availRows.foldl (fun m r => upsert m r.songId r (fun _ => r)) []

/-- Phase 1 of `CollectionBackend::UpdateSongsBySongID` for one incoming
song (source lines 691-758): update the matched row only when the metadata
differ, otherwise insert a fresh row. -/
def updateBySongIdStep (oracle : Oracle) (oldSongs : List (String × Song))
    (st : RecState) (song : Song) : Except Unit RecState :=
  match List.lookup song.songId oldSongs with
  | some oldSong =>
    if !(song.isMetadataEqual oldSong) then
      if oracle st.ctr then Except.error ()
      else if oracle (st.ctr + 1) then Except.error ()  -- FTS shadow-table update
      else Except.ok { db := st.db.updateRow oldSong.id song, ctr := st.ctr + 2,
                       deleted := st.deleted ++ [oldSong],
                       added := st.added ++ [{ song with id := oldSong.id }] }
    else Except.ok st
  | none =>
    if oracle st.ctr then Except.error ()
    else if (st.db.insertRow song).2 == -1 then Except.error ()
    else if oracle (st.ctr + 1) then Except.error ()  -- FTS shadow-table insert
    else Except.ok { db := (st.db.insertRow song).1, ctr := st.ctr + 2, deleted := st.deleted,
                     added := st.added ++ [{ song with id := (st.db.insertRow song).2 }] }

/-- Phase 2 of `CollectionBackend::UpdateSongsBySongID` for one previously
persisted song (source lines 761-783): delete it when no incoming song
carries its `song_id`. -/
def deleteGoneStep (oracle : Oracle) (newSongs : List Song) (st : RecState)
    (oldSong : Song) : Except Unit RecState :=
  if newSongs.any (fun s => s.songId == oldSong.songId) then Except.ok st
  else
    if oracle st.ctr then Except.error ()
    else if oracle (st.ctr + 1) then Except.error ()  -- FTS shadow-table delete
    else Except.ok { db := st.db.deleteRow oldSong.id, ctr := st.ctr + 2,
                     deleted := st.deleted ++ [oldSong], added := st.added }

/-- `CollectionBackend::UpdateSongsBySongID` (source lines 670-794): read
the `song_id`-keyed map of available rows, add or update each incoming
song, delete the rows whose `song_id` vanished, all inside one
`ScopedTransaction`; emit the delta only after the commit. -/
def updateSongsBySongID (oracle : Oracle) (db : DB) (newSongs : List Song) :
    ReconcileResult :=
  let body : Except Unit RecState :=
    if oracle 0 then Except.error ()  -- the old_songs collection query itself
    else
      let oldSongs := buildOldSongs db
      (newSongs.foldl (fun acc s => acc.bind (fun st => updateBySongIdStep oracle oldSongs st s))
          (Except.ok { db := db, ctr := 1 })).bind
        (fun st1 =>
          (oldSongs.map Prod.snd).foldl
            (fun acc oldSong => acc.bind (fun st => deleteGoneStep oracle newSongs st oldSong))
            (Except.ok st1))
  match body with
  | Except.ok st => { db := st.db, ok := true, discovered := st.added, deleted := st.deleted }
  | Except.error _ => { db := db, ok := false }

/-- Character-level helper for `dirOf`: keep every character up to and
including the last slash, drop the rest. -/
def dirOfList : List Char → List Char
  | [] => []
  | c :: cs =>
    if cs.contains '/' then c :: dirOfList cs
    else if c = '/' then ['/'] else []

/-- The directory containing a location URL:
`url.toString(QUrl::PreferLocalFile | QUrl::RemoveFilename)` in
`CollectionBackend::CompilationsNeedUpdating`.  QUrl drops everything after
the last path separator; the embedding keeps everything up to and including
the last slash of the location string. -/
def dirOf (url : String) : String :=
  ⟨dirOfList url.data⟩

/-- Per-(directory, album) aggregate of `CollectionBackend::CompilationsNeedUpdating`
(the `CompilationInfo` struct): member urls in row order, the distinct
effective album artists in first-appearance order, and the counts of members
whose `compilation_detected` flag is currently set / unset. -/
structure CompilationInfo where
  urls : List String := []
  artists : List String := []
  hasCompilationDetected : Nat := 0
  hasNotCompilationDetected : Nat := 0
  deriving DecidableEq, Repr

/-- Folding one selected row into its group aggregate (source lines
1325-1331). -/
def infoAdd (i : CompilationInfo) (artist url : String) (cd : Bool) : CompilationInfo :=
  { urls := i.urls ++ [url],
    artists := if i.artists.contains artist then i.artists else i.artists ++ [artist],
    hasCompilationDetected := i.hasCompilationDetected + (if cd then 1 else 0),
    hasNotCompilationDetected := i.hasNotCompilationDetected + (if cd then 0 else 1) }

/-- The grouping key of one row: directory-of-location concatenated with the
album name (`compilation_info[directory + album]`). -/
def Song.groupKey (r : Song) : String := dirOf r.url ++ r.album

/-- First pass of `CompilationsNeedUpdating` (source lines 1312-1332): group
the selected rows by (directory, album), skipping rows with an empty album. -/
def buildCompilationInfo (rows : List Song) : List (String × CompilationInfo) :=
  rows.foldl
    (fun m r =>
      if r.album = "" then m
      else upsert m r.groupKey {} (fun i => infoAdd i r.effectiveAlbumartist r.url r.compilationDetected))
    []

/-- Stable insertion preserving the relative order of rows with equal
albums: a row sinks below every row whose album is not greater. -/
def insertByAlbum (r : Song) : List Song → List Song
  | [] => [r]
  | x :: xs =>
    if compare r.album x.album ≠ Ordering.lt then x :: insertByAlbum r xs
    else r :: x :: xs

/-- The `ORDER BY album` of the selection query (source line 1306), as a
stable insertion sort (SQLite leaves the order of equal keys open; the
embedding keeps row order for ties). -/
def sortByAlbum (rows : List Song) : List Song :=
  rows.foldl (fun acc r => insertByAlbum r acc) []

/-- `CollectionBackend::UpdateCompilations` (source lines 1369-1408) without
its delta side channel: the UPDATE statement sets `compilation_detected`
and recomputes `compilation_effective = ((compilation OR
:compilation_detected OR compilation_on) AND NOT compilation_off)` for
every available row at the given url. -/
def updateCompilationsRows (db : DB) (url : String) (cd : Bool) : DB :=
  { db with rows := db.rows.map (fun r =>
      if r.url == url && !r.unavailable then
        { r with compilationDetected := cd,
                 compilationEffective := (r.compilation || cd || r.compilationOn) && !r.compilationOff }
      else r) }

/-- The snapshots `UpdateCompilations` appends before running its UPDATE:
the old rows into `deleted_songs` and, into `added_songs`, copies with only
`compilation_detected` flipped (`song.set_compilation_detected(...)` does
not recompute the snapshot's `compilation_effective`). -/
def updateCompilationsSnapshots (db : DB) (url : String) (cd : Bool) :
    List Song × List Song :=
  let touched := db.rows.filter (fun r => r.url == url && !r.unavailable)
  (touched, touched.map (fun r => { r with compilationDetected := cd }))

/-- The per-url update decisions that the second pass of
`CompilationsNeedUpdating` (source lines 1340-1358) issues, in group order:
every member url is driven to `true` when the group has more than one
distinct effective artist and at least one member is not yet marked, and to
`false` when the group has at most one distinct effective artist and at
least one member is still marked. -/
def classifierUpdates (infos : List (String × CompilationInfo)) : List (String × Bool) :=
  infos.flatMap (fun p =>
    if p.2.artists.length > 1 then
      if p.2.hasNotCompilationDetected > 0 then p.2.urls.map (fun u => (u, true)) else []
    else
      if p.2.hasCompilationDetected > 0 then p.2.urls.map (fun u => (u, false)) else [])

/-- One `UpdateCompilations` call threaded through the accumulating state. -/
def classifierStep (acc : DB × List Song × List Song) (uv : String × Bool) :
    DB × List Song × List Song :=
  let (snapDel, snapAdd) := updateCompilationsSnapshots acc.1 uv.1 uv.2
  (updateCompilationsRows acc.1 uv.1 uv.2, acc.2.1 ++ snapDel, acc.2.2 ++ snapAdd)

/-- `CollectionBackend::CompilationsNeedUpdating` (source lines 1298-1367)
on the successful path (its SQL failure branches only skip work and are not
exercised by the verified properties): select the available rows ordered by
album, aggregate them by (directory, album), then run the per-url updates.
The source emits the two snapshot lists only when `deleted_songs` is
non-empty; the embedding returns the lists themselves. -/
def compilationsNeedUpdating (db : DB) : DB × List Song × List Song :=
  let rows := sortByAlbum (db.rows.filter (fun r => !r.unavailable))
  let infos := buildCompilationInfo rows
  (classifierUpdates infos).foldl classifierStep (db, [], [])

/-- `CollectionBackend::ForceCompilation` (source lines 1652-1710) on the
successful path: for each artist filter, snapshot the matching available
rows, set the two manual override flags, and recompute
`compilation_effective = ((compilation OR compilation_detected OR
:compilation_on) AND NOT :compilation_off)` with the newly bound override
values; the added snapshots re-read the updated rows. -/
def forceCompilation (db : DB) (album : String) (artists : List String) (onFlag : Bool) :
    DB × List Song × List Song :=
  artists.foldl
    (fun acc artist =>
      let sel : Song → Bool := fun r =>
        r.album == album && (artist == "" || r.artist == artist) && !r.unavailable
      let onB : Bool := onFlag
      let offB : Bool := !onFlag
      let pre := acc.1.rows.filter sel
      let db2 : DB := { acc.1 with rows := acc.1.rows.map (fun r =>
        if sel r then
          { r with compilationOn := onB, compilationOff := offB,
                   compilationEffective := (r.compilation || r.compilationDetected || onB) && !offB }
        else r) }
      let post := db2.rows.filter sel
      (db2, acc.2.1 ++ pre, acc.2.2 ++ post))
    (db, [], [])

/-- The compilation-flag invariant of the spec:
`compilation_effective = (compilation OR compilation_detected OR
compilation_on) AND NOT compilation_off`. -/
def ceInvariant (r : Song) : Prop :=
  r.compilationEffective =
    ((r.compilation || r.compilationDetected || r.compilationOn) && !r.compilationOff)

instance (r : Song) : Decidable (ceInvariant r) := by
  unfold ceInvariant; infer_instance

/-- Grouping dimensions (`CollectionModel::GroupBy`).  The embedding covers
the constructors the verified properties touch; the year-album combinations
and the file-type/format dimensions (whose keys go through the filetype
name table and floating-point formatting) are omitted. -/
inductive GroupBy where
  | none
  | albumArtist
  | artist
  | album
  | disc
  | year
  | originalYear
  | genre
  | composer
  | performer
  | grouping
  | samplerate
  | bitdepth
  | bitrate
  deriving DecidableEq, Repr

/-- Modelled from the spec: `CollectionModel::IsArtistGroupBy` lives in
`collectionmodel.h` outside the excerpt; the spec calls the artist and
album-artist dimensions "artist-like". -/
def isArtistGroupBy (t : GroupBy) : Bool :=
  t == GroupBy.albumArtist || t == GroupBy.artist

/-- Modelled from the spec: `CollectionModel::IsAlbumGroupBy` lives in
`collectionmodel.h` outside the excerpt; the album dimension (plus the
album-disc and year-album variants omitted from the embedding) is
album-like. -/
def isAlbumGroupBy (t : GroupBy) : Bool :=
  t == GroupBy.album

/-- `CollectionModel::TextOrUnknown`. -/
def textOrUnknown (text : String) : String :=
  if text = "" then "Unknown" else text

/-- The character class of the `[^\w ]` removal regex in
`CollectionModel::SortText`.  Qt evaluates `\w` with Unicode tables; the
embedding covers the ASCII range, which is all the verified inputs use. -/
def isWordChar (c : Char) : Bool :=
  c.isAlphanum || c == '_'

/-- `CollectionModel::SortText` (source lines 3269-3281): lower-case the
text (or substitute a leading-space "unknown" for the empty string) and
strip every character that is neither a word character nor a space. -/
def sortTextBase (text : String) : String :=
  let t := if text = "" then " unknown".toList else (text.toList.map Char.toLower)
  String.mk (t.filter (fun c => isWordChar c || c == ' '))

/-- Modelled from the spec: `Song::kArticles` lives in `core/song.cpp`
outside the excerpt; the conventional leading-article list of the player
("the ", "a ", "an ") feeds the sortable text key of artist-like
dimensions.  No verified input starts with an article. -/
def kArticles : List String := ["the ", "a ", "an "]

/-- `CollectionModel::SortTextForArtist` (source lines 3283-3297): move a
leading article to the back ("the beatles" becomes "beatles, the"). -/
def sortTextForArtist (artist : String) : String :=
  let a := (sortTextBase artist).toList
  match kArticles.find? (fun i => i.toList.isPrefixOf a) with
  | some i => String.mk (a.drop i.length ++ (", ").toList ++ i.toList.dropLast)
  | none => String.mk a

/-- The decimal digit character for a value below ten. -/
def digitChar (d : Nat) : Char :=
  match d with
  | 0 => '0' | 1 => '1' | 2 => '2' | 3 => '3' | 4 => '4'
  | 5 => '5' | 6 => '6' | 7 => '7' | 8 => '8' | _ => '9'

/-- Fuel-driven digit expansion (the fuel, always at least the number
itself plus one, only bounds the recursion depth). -/
def natDigitsF : Nat → Nat → List Char
  | 0, n => [digitChar n]
  | fuel + 1, n =>
    if n < 10 then [digitChar n] else natDigitsF fuel (n / 10) ++ [digitChar (n % 10)]

/-- Decimal digits of a natural number, most significant first. -/
def natDigits (n : Nat) : List Char := natDigitsF (n + 1) n

theorem natDigitsF_irrel (n : Nat) : ∀ (f : Nat), n < f → natDigitsF f n = natDigitsF (n + 1) n := by
  induction n using Nat.strong_induction_on with
  | _ n ih =>
    intro f hf
    by_cases h10 : n < 10
    · cases f with
      | zero => omega
      | succ f' => simp [natDigitsF, h10]
    · cases f with
      | zero => omega
      | succ f' =>
        show (if n < 10 then [digitChar n] else natDigitsF f' (n / 10) ++ [digitChar (n % 10)]) = _
        rw [if_neg h10]
        show _ = (if n < 10 then [digitChar n] else natDigitsF n (n / 10) ++ [digitChar (n % 10)])
        rw [if_neg h10]
        have hlt : n / 10 < n := Nat.div_lt_self (by omega) (by omega)
        rw [ih (n / 10) hlt f' (by omega), ih (n / 10) hlt n (by omega)]

theorem natDigits_eq (n : Nat) : natDigits n =
    if n < 10 then [digitChar n] else natDigits (n / 10) ++ [digitChar (n % 10)] := by
  show natDigitsF (n + 1) n = _
  by_cases h10 : n < 10
  · simp [natDigitsF, h10]
  · show (if n < 10 then [digitChar n] else natDigitsF n (n / 10) ++ [digitChar (n % 10)]) = _
    rw [if_neg h10, if_neg h10]
    have hlt : n / 10 < n := Nat.div_lt_self (by omega) (by omega)
    rw [natDigitsF_irrel (n / 10) n hlt]
    rfl

/-- Decimal rendering of an integer (QString::number). -/
def intStr (i : Int) : String :=
  if i < 0 then String.mk ('-' :: natDigits i.natAbs) else String.mk (natDigits i.toNat)

/-- `CollectionModel::SortTextForNumber`:
`QString("%1").arg(number, 4, 10, QChar('0'))` pads the decimal rendering
on the left with zeros to a field width of four. -/
def sortTextForNumber (i : Int) : String :=
  let s := intStr i
  String.mk (List.replicate (4 - s.length) '0' ++ s.toList)

/-- `CollectionModel::SortTextForSong` (source lines 3318-3325): a
six-zero-padded disc/track number followed by the location string. -/
def sortTextForSong (s : Song) : String :=
  let n := intStr (max 0 s.disc * 1000 + max 0 s.track)
  String.mk (List.replicate (6 - n.length) '0' ++ n.toList) ++ s.url

/-- Digit-fold step for the integer parser. -/
def parseDigitsStep (acc : Option Nat) (c : Char) : Option Nat :=
  match acc with
  | none => none
  | some a => if c.isDigit then some (10 * a + (c.toNat - 48)) else none

/-- All-digit parse of a character list (`none` on any non-digit). -/
def parseDigits (cs : List Char) : Option Nat :=
  cs.foldl parseDigitsStep (some 0)

/-- `QString::toInt`: leading and trailing whitespace is ignored, an
optional sign is followed by decimal digits, and any other content makes
the conversion fail and return 0. -/
def qToInt (s : String) : Int :=
  let t := ((s.toList.dropWhile Char.isWhitespace).reverse.dropWhile Char.isWhitespace).reverse
  match t with
  | [] => 0
  | '-' :: body => match body, parseDigits body with
    | _ :: _, some n => -(n : Int)
    | _, _ => 0
  | '+' :: body => match body, parseDigits body with
    | _ :: _, some n => (n : Int)
    | _, _ => 0
  | body => match parseDigits body with
    | some n => (n : Int)
    | none => 0

/-- Node kinds of the model tree (`CollectionItem::Type`). -/
inductive ItemType where
  | root
  | container
  | song
  | divider
  | loading
  deriving DecidableEq, Repr

/-- One tree node (`CollectionItem`).  The pointer graph of the source
becomes arena indices: `parent` is the non-owning back-reference, and
`children` the ordered child list that `CollectionItem::Delete(row)`
shrinks. -/
structure Item where
  typ : ItemType := ItemType.container
  key : String := ""
  displayText : String := ""
  sortText : String := ""
  containerLevel : Int := -1
  parent : Option Nat := none
  children : List Nat := []
  compilationArtistNode : Option Nat := none
  metadata : Song := {}
  deriving DecidableEq, Repr

/-- The in-memory index state of `CollectionModel`: the node arena (index 0
is the root), the three per-level key maps, the song-node map and the
divider map.  The QMap/QHash containers become association lists in
insertion order. -/
structure ModelState where
  items : List Item := [{ typ := ItemType.root }]
  containerNodes0 : List (String × Nat) := []
  containerNodes1 : List (String × Nat) := []
  containerNodes2 : List (String × Nat) := []
  songNodes : List (Int × Nat) := []
  dividerNodes : List (String × Nat) := []
  deriving DecidableEq, Repr

/-- Model configuration: the three grouping slots (`group_by_`), the
divider toggle (`show_dividers_`), the `QueryOptions::Matches` filter
(whose recency window reads the wall clock, so it stays an opaque
predicate), and the head of the Qt canonical decomposition of a character
(`QChar::decomposition`, Unicode tables live in Qt). -/
structure ModelConfig where
  groupBy0 : GroupBy := GroupBy.albumArtist
  groupBy1 : GroupBy := GroupBy.none
  groupBy2 : GroupBy := GroupBy.none
  showDividers : Bool := true
  queryMatches : Song → Bool := fun _ => true
  decomp : Char → Option Char := fun _ => none

/-- The grouping slot for a level (`group_by_[i]`). -/
def ModelConfig.groupAt (cfg : ModelConfig) (i : Nat) : GroupBy :=
  match i with
  | 0 => cfg.groupBy0
  | 1 => cfg.groupBy1
  | _ => cfg.groupBy2

/-- Total arena access (out-of-range indices yield a default node; the
source never dereferences a dangling index on the verified paths). -/
def ModelState.item (st : ModelState) (i : Nat) : Item :=
  st.items.getD i {}

/-- Arena write. -/
def ModelState.setItem (st : ModelState) (i : Nat) (it : Item) : ModelState :=
  { st with items := st.items.set i it }

/-- The per-level container key map (`container_nodes_[i]`). -/
def ModelState.containerNodesAt (st : ModelState) (i : Nat) : List (String × Nat) :=
  match i with
  | 0 => st.containerNodes0
  | 1 => st.containerNodes1
  | _ => st.containerNodes2

/-- Register a container in the level key map
(`container_nodes_[i].insert(key, container)`; the key is fresh). -/
def ModelState.insertContainerNode (st : ModelState) (i : Nat) (k : String) (n : Nat) :
    ModelState :=
  match i with
  | 0 => { st with containerNodes0 := st.containerNodes0 ++ [(k, n)] }
  | 1 => { st with containerNodes1 := st.containerNodes1 ++ [(k, n)] }
  | _ => { st with containerNodes2 := st.containerNodes2 ++ [(k, n)] }

/-- Remove a key from the level key map (`container_nodes_[i].remove(key)`). -/
def ModelState.removeContainerNode (st : ModelState) (i : Int) (k : String) : ModelState :=
  if i == 0 then { st with containerNodes0 := st.containerNodes0.filter (fun p => !(p.1 == k)) }
  else if i == 1 then { st with containerNodes1 := st.containerNodes1.filter (fun p => !(p.1 == k)) }
  else if i == 2 then { st with containerNodes2 := st.containerNodes2.filter (fun p => !(p.1 == k)) }
  else st

/-- `new CollectionItem(type, parent)`: allocate a node of the given type
whose constructor appends it to the parent's child list; `InitItem` then
sets the container level. -/
def ModelState.newChild (st : ModelState) (typ : ItemType) (parentId : Nat) (level : Int) :
    ModelState × Nat :=
  let nid := st.items.length
  let st1 : ModelState := { st with items := st.items ++
    [{ typ := typ, parent := some parentId, containerLevel := level }] }
  let p := st1.item parentId
  (st1.setItem parentId { p with children := p.children ++ [nid] }, nid)

/-- Modelled from the spec: `Song::effective_originalyear` lives in
`core/song.h` outside the excerpt; the original year falls back to the
release year when unset. -/
def Song.effectiveOriginalyear (s : Song) : Int :=
  if s.originalyear ≤ 0 then s.year else s.originalyear

/-- `CollectionModel::PrettyDisc`. -/
def prettyDisc (disc : Int) : String :=
  "Disc " ++ intStr (max 1 disc)

/-- Modelled from the spec: `Song::TitleWithCompilationArtist` lives in
`core/song.cpp` outside the excerpt; the display text of a compilation
track leads with its artist.  Only display text, never compared. -/
def titleWithCompilationArtist (s : Song) : String :=
  if s.isCompilation && s.artist ≠ "" then s.artist ++ " - " ++ s.title else s.title

/-- `CollectionModel::ContainerKey` (source lines 2312-2401) on the
embedded dimensions. -/
def containerKey (t : GroupBy) (s : Song) : String :=
  match t with
  | GroupBy.none => ""
  | GroupBy.albumArtist => textOrUnknown s.effectiveAlbumartist
  | GroupBy.artist => textOrUnknown s.artist
  | GroupBy.album =>
    textOrUnknown s.album ++ (if s.albumId ≠ "" then "-" ++ s.albumId else "")
  | GroupBy.disc => prettyDisc s.disc
  | GroupBy.year => intStr (max 0 s.year)
  | GroupBy.originalYear => intStr (max 0 s.effectiveOriginalyear)
  | GroupBy.genre => textOrUnknown s.genre
  | GroupBy.composer => textOrUnknown s.composer
  | GroupBy.performer => textOrUnknown s.performer
  | GroupBy.grouping => textOrUnknown s.grouping
  | GroupBy.samplerate => intStr (max 0 s.samplerate)
  | GroupBy.bitdepth => intStr (max 0 s.bitdepth)
  | GroupBy.bitrate => intStr (max 0 s.bitrate)

/-- `CollectionModel::DividerKey` (source lines 2403-2459): for text-like
dimensions the first character of the sort text, with digits folded to the
"0" bucket, a leading space producing no divider, and a decomposable
character folded to the head of its canonical decomposition; for the
numeric dimensions the zero-padded bucket value (the decade for years, via
`sort_text.toInt() / 10 * 10` with C++ truncating division; the raw
metadata value for sample rate, bit depth and bit rate). -/
def dividerKey (decomp : Char → Option Char) (t : GroupBy) (it : Item) : String :=
  match it.sortText.toList with
  | [] => ""
  | c :: _ =>
    match t with
    | GroupBy.albumArtist | GroupBy.artist | GroupBy.album | GroupBy.composer
    | GroupBy.performer | GroupBy.grouping | GroupBy.disc | GroupBy.genre =>
      if c.isDigit then "0"
      else if c = ' ' then ""
      else match decomp c with
        | some b => String.mk [b]
        | none => String.mk [c]
    | GroupBy.year | GroupBy.originalYear =>
      sortTextForNumber ((qToInt it.sortText).tdiv 10 * 10)
    | GroupBy.samplerate => sortTextForNumber it.metadata.samplerate
    | GroupBy.bitdepth => sortTextForNumber it.metadata.bitdepth
    | GroupBy.bitrate => sortTextForNumber it.metadata.bitrate
    | GroupBy.none => ""

/-- `CollectionModel::DividerDisplayText` (source lines 2461-2512): a pure
function of the divider key and the dimension. -/
def dividerDisplayText (t : GroupBy) (key : String) : String :=
  match t with
  | GroupBy.albumArtist | GroupBy.artist | GroupBy.album | GroupBy.composer
  | GroupBy.performer | GroupBy.disc | GroupBy.grouping | GroupBy.genre =>
    if key == "0" then "0-9" else key.toUpper
  | GroupBy.year | GroupBy.originalYear =>
    if key == "0000" then "Unknown" else intStr (qToInt key)
  | GroupBy.samplerate | GroupBy.bitdepth | GroupBy.bitrate =>
    if key == "000" then "Unknown" else intStr (qToInt key)
  | GroupBy.none => ""

/-- `CollectionModel::CreateCompilationArtistNode` (source lines
2292-2310): allocate the single "Various artists" container under the
parent, give it the fixed display text and the fixed `" various"` sort
text, and store it in the parent's one-slot reference.  No divider is ever
created on this path. -/
def createCompilationArtistNode (st : ModelState) (parentId : Nat) : ModelState × Nat :=
  let st1 := (st.newChild ItemType.container parentId
    ((st.item parentId).containerLevel + 1)).1
  let nid := (st.newChild ItemType.container parentId
    ((st.item parentId).containerLevel + 1)).2
  let baseKey := if parentId ≠ 0 && (st.item parentId).key ≠ "" then (st.item parentId).key else ""
  let st2 := st1.setItem nid { st1.item nid with
    key := baseKey ++ "Various artists",
    displayText := "Various artists",
    sortText := " various",
    compilationArtistNode := none }
  (st2.setItem parentId { st2.item parentId with compilationArtistNode := some nid }, nid)

/-- `CollectionModel::FinishItem` (source lines 3196-3227): for a top-level
item with dividers enabled, derive the divider key, prepend it to the sort
text when non-empty, and lazily create the divider node (a child of the
root) when no divider with that key exists yet. -/
def finishItem (cfg : ModelConfig) (t : GroupBy) (createDivider : Bool) (itemId : Nat)
    (st : ModelState) : ModelState :=
  if createDivider && cfg.showDividers then
    let it := st.item itemId
    let dk := dividerKey cfg.decomp t it
    let st1 := if dk ≠ "" then st.setItem itemId { it with sortText := dk ++ " " ++ it.sortText }
               else st
    if dk ≠ "" && !(List.lookup dk st1.dividerNodes).isSome then
      let st2 := (st1.newChild ItemType.divider 0 (-1)).1
      let did := (st1.newChild ItemType.divider 0 (-1)).2
      let st3 := st2.setItem did { st2.item did with
        key := dk, displayText := dividerDisplayText t dk, sortText := dk ++ "  " }
      { st3 with dividerNodes := st3.dividerNodes ++ [(dk, did)] }
    else st1
  else st

/-- `CollectionModel::ItemFromSong` (source lines 2999-3194) on the
embedded dimensions: allocate the node under its parent, fill key, display
text, sort text and the cached metadata summary for the dimension, then run
`FinishItem`. -/
def itemFromSong (cfg : ModelConfig) (t : GroupBy) (createDivider : Bool) (parentId : Nat)
    (s : Song) (level : Int) (st : ModelState) : ModelState × Nat :=
  let st1 := (st.newChild (if t == GroupBy.none then ItemType.song else ItemType.container)
    parentId level).1
  let nid := (st.newChild (if t == GroupBy.none then ItemType.song else ItemType.container)
    parentId level).2
  let base := if parentId ≠ 0 && (st.item parentId).key ≠ "" then (st.item parentId).key ++ "-"
              else ""
  let it0 := st1.item nid
  let it1 : Item :=
    match t with
    | GroupBy.albumArtist =>
      { it0 with metadata := { it0.metadata with albumartist := s.effectiveAlbumartist },
                 key := base ++ containerKey t s,
                 displayText := textOrUnknown s.effectiveAlbumartist,
                 sortText := sortTextForArtist s.effectiveAlbumartist }
    | GroupBy.artist =>
      { it0 with metadata := { it0.metadata with artist := s.artist },
                 key := base ++ containerKey t s,
                 displayText := textOrUnknown s.artist,
                 sortText := sortTextForArtist s.artist }
    | GroupBy.album =>
      { it0 with metadata := { it0.metadata with album := s.album, albumId := s.albumId },
                 key := base ++ containerKey t s,
                 displayText := textOrUnknown s.album,
                 sortText := sortTextForArtist s.album }
    | GroupBy.disc =>
      { it0 with metadata := { it0.metadata with disc := s.disc },
                 key := base ++ containerKey t s,
                 displayText := prettyDisc (max 0 s.disc),
                 sortText := sortTextForNumber (max 0 s.disc) }
    | GroupBy.year =>
      { it0 with metadata := { it0.metadata with year := s.year },
                 key := base ++ containerKey t s,
                 displayText := intStr (max 0 s.year),
                 sortText := sortTextForNumber (max 0 s.year) ++ " " }
    | GroupBy.originalYear =>
      { it0 with metadata := { it0.metadata with originalyear := s.effectiveOriginalyear },
                 key := base ++ containerKey t s,
                 displayText := intStr (max 0 s.effectiveOriginalyear),
                 sortText := sortTextForNumber (max 0 s.effectiveOriginalyear) ++ " " }
    | GroupBy.genre =>
      { it0 with metadata := { it0.metadata with genre := s.genre },
                 key := base ++ containerKey t s,
                 displayText := textOrUnknown s.genre,
                 sortText := sortTextForArtist s.genre }
    | GroupBy.composer =>
      { it0 with metadata := { it0.metadata with composer := s.composer },
                 key := base ++ containerKey t s,
                 displayText := textOrUnknown s.composer,
                 sortText := sortTextForArtist s.composer }
    | GroupBy.performer =>
      { it0 with metadata := { it0.metadata with performer := s.performer },
                 key := base ++ containerKey t s,
                 displayText := textOrUnknown s.performer,
                 sortText := sortTextForArtist s.performer }
    | GroupBy.grouping =>
      { it0 with metadata := { it0.metadata with grouping := s.grouping },
                 key := base ++ containerKey t s,
                 displayText := textOrUnknown s.grouping,
                 sortText := sortTextForArtist s.grouping }
    | GroupBy.samplerate =>
      { it0 with metadata := { it0.metadata with samplerate := s.samplerate },
                 key := base ++ containerKey t s,
                 displayText := intStr (max 0 s.samplerate),
                 sortText := sortTextForNumber (max 0 s.samplerate) ++ " " }
    | GroupBy.bitdepth =>
      { it0 with metadata := { it0.metadata with bitdepth := s.bitdepth },
                 key := base ++ containerKey t s,
                 displayText := intStr (max 0 s.bitdepth),
                 sortText := sortTextForNumber (max 0 s.bitdepth) ++ " " }
    | GroupBy.bitrate =>
      { it0 with metadata := { it0.metadata with bitrate := s.bitrate },
                 key := base ++ containerKey t s,
                 displayText := intStr (max 0 s.bitrate),
                 sortText := sortTextForNumber (max 0 s.bitrate) ++ " " }
    | GroupBy.none =>
      { it0 with metadata := s,
                 key := base ++ textOrUnknown s.title,
                 displayText := titleWithCompilationArtist s,
                 sortText := if level == 1 && !isAlbumGroupBy cfg.groupBy0
                             then sortTextBase s.title else sortTextForSong s }
  let st2 := st1.setItem nid it1
  (finishItem cfg t createDivider nid st2, nid)

/-- One level of the container walk of `CollectionModel::SongsDiscovered`
(source lines 2242-2272): stop at an unconfigured slot; redirect a
compilation record at an artist-like level to the lazily created "Various
artists" container; otherwise resolve (or create and register) the normal
container for the accumulated key. -/
def discoverLevelStep (cfg : ModelConfig) (song : Song)
    (acc : ModelState × Nat × String × Bool) (lg : Nat × GroupBy) :
    ModelState × Nat × String × Bool :=
  let (st, container, key, stopped) := acc
  if stopped then acc
  else if lg.2 == GroupBy.none then (st, container, key, true)
  else
    let key1 := if key ≠ "" then key ++ "-" else key
    if isArtistGroupBy lg.2 && song.isCompilation then
      match (st.item container).compilationArtistNode with
      | some va => (st, va, (st.item va).key, false)
      | none =>
        let st2 := (createCompilationArtistNode st container).1
        let va := (createCompilationArtistNode st container).2
        (st2, va, (st2.item va).key, false)
    else
      let key2 := key1 ++ containerKey lg.2 song
      match List.lookup key2 (st.containerNodesAt lg.1) with
      | some c => (st, c, key2, false)
      | none =>
        let st2 := (itemFromSong cfg lg.2 (lg.1 == 0) container song (Int.ofNat lg.1) st).1
        let c := (itemFromSong cfg lg.2 (lg.1 == 0) container song (Int.ofNat lg.1) st).2
        (st2.insertContainerNode lg.1 key2 c, c, key2, false)

/-- `CollectionModel::SongsDiscovered` for one song (source lines
2227-2276): skip filtered or already registered records, walk the three
grouping levels from the root, then create the terminal song node in the
resolved container and register it by record id. -/
def songsDiscoveredOne (cfg : ModelConfig) (st : ModelState) (song : Song) : ModelState :=
  if !cfg.queryMatches song then st
  else if (List.lookup song.id st.songNodes).isSome then st
  else
    let walk := [(0, cfg.groupBy0), (1, cfg.groupBy1), (2, cfg.groupBy2)].foldl
      (discoverLevelStep cfg song) (st, 0, "", false)
    let st2 := (itemFromSong cfg GroupBy.none false walk.2.1 song (-1) walk.1).1
    let sid := (itemFromSong cfg GroupBy.none false walk.2.1 song (-1) walk.1).2
    { st2 with songNodes := st2.songNodes ++ [(song.id, sid)] }

/-- `CollectionModel::SongsDiscovered` over a batch. -/
def songsDiscovered (cfg : ModelConfig) (st : ModelState) (songs : List Song) : ModelState :=
  songs.foldl (songsDiscoveredOne cfg) st

/-- Detach a node from its parent
(`node->parent->Delete(node->row)`): the child entry disappears, the node
itself stays in the arena as garbage, exactly like the freed C++ object. -/
def detach (st : ModelState) (nid : Nat) : ModelState :=
  match (st.item nid).parent with
  | none => st
  | some p => st.setItem p { st.item p with children := (st.item p).children.erase nid }

/-- Modelled from the spec: `CollectionModel::IsCompilationArtistNode`
lives in `collectionmodel.h` outside the excerpt; a node is the
special-cased "various artists" container iff its parent's one-slot
reference points at it. -/
def isCompilationArtistNodeB (st : ModelState) (n : Nat) : Bool :=
  (st.item ((st.item n).parent.getD 0)).compilationArtistNode == some n

/-- The song-removal loop of `CollectionModel::SongsDeleted` (source lines
2518-2531): a record whose id has no registered song node is skipped
entirely; otherwise the node is detached, unregistered, and its parent
(when not the root) queued for the pruning pass. -/
def removeSongNode (acc : ModelState × List Nat) (song : Song) : ModelState × List Nat :=
  let (st, parents) := acc
  match List.lookup song.id st.songNodes with
  | none => (st, parents)
  | some nid =>
    let p := (st.item nid).parent.getD 0
    let parents2 := if p ≠ 0 && !(parents.contains p) then parents ++ [p] else parents
    let st2 := detach st nid
    ({ st2 with songNodes := st2.songNodes.filter (fun q => !(q.1 == song.id)) }, parents2)

/-- The empty-parent pruning loop of `CollectionModel::SongsDeleted`
(source lines 2535-2582).  The C++ iterates a shrinking `QSet`, re-scanning
until it is empty; the embedding processes an explicit worklist (appending
newly queued parents, deduplicated like the set) under a fuel bound that
the caller supplies above the number of possible deletions.  A container
with remaining children is left alone; an empty one records its divider key
(top level only, into a deduplicated key set), clears the parent's
"various artists" slot or its own key-map entry, is detached, and queues
its parent (the root is never queued). -/
def pruneLoop (cfg : ModelConfig) :
    Nat → ModelState → List Nat → List String → ModelState × List String
  | 0, st, _, dks => (st, dks)
  | _ + 1, st, [], dks => (st, dks)
  | fuel + 1, st, n :: rest, dks =>
    if (st.item n).children.length ≠ 0 then pruneLoop cfg fuel st rest dks
    else
      let nd := st.item n
      let p := nd.parent.getD 0
      let rest2 := if p ≠ 0 && !(rest.contains p) then rest ++ [p] else rest
      let dks2 :=
        if nd.containerLevel == 0 then
          let k := dividerKey cfg.decomp cfg.groupBy0 nd
          if dks.contains k then dks else dks ++ [k]
        else dks
      let st2 :=
        if isCompilationArtistNodeB st n then
          st.setItem p { st.item p with compilationArtistNode := none }
        else st.removeContainerNode nd.containerLevel nd.key
      pruneLoop cfg fuel (detach st2 n) rest2 dks2

/-- The divider sweep of `CollectionModel::SongsDeleted` (source lines
2584-2600): a recorded divider key whose divider node exists is deleted
only when no surviving top-level container recomputes to the same divider
key. -/
def dividerSweep (cfg : ModelConfig) (st : ModelState) (dks : List String) : ModelState :=
  dks.foldl
    (fun st dk =>
      match List.lookup dk st.dividerNodes with
      | none => st
      | some did =>
        if (st.containerNodesAt 0).any
            (fun q => dividerKey cfg.decomp cfg.groupBy0 (st.item q.2) == dk) then st
        else
          let st2 := detach st did
          { st2 with dividerNodes := st2.dividerNodes.filter (fun q => !(q.1 == dk)) })
    st

/-- `CollectionModel::SongsDeleted` (source lines 2514-2602): remove the
song nodes, prune newly empty ancestors, then reconsider the recorded
divider keys. -/
def songsDeleted (cfg : ModelConfig) (st : ModelState) (songs : List Song) : ModelState :=
  let (st1, parents) := songs.foldl removeSongNode (st, [])
  let (st2, dks) := pruneLoop cfg (st1.items.length + parents.length + 1) st1 parents []
  dividerSweep cfg st2 dks

/-! ## General helper lemmas -/

theorem foldl_bind_error {α β : Type} (f : β → α → Except Unit β) (l : List α) :
    l.foldl (fun acc x => acc.bind (fun st => f st x)) (Except.error ()) = Except.error () := by
  induction l with
  | nil => rfl
  | cons x xs ih => simpa [Except.bind] using ih

/-! ## Claim C9 -/

/-- Claim C9: applying a removal for a record id that has no song node
registered in the grouping index is a no-op: the record contributes nothing
to the removal pass, and a batch consisting only of such a record leaves
the whole index state (tree, key maps, song-node map, divider map)
unchanged, so the index remains usable afterwards. -/
theorem c9_removal_of_unregistered_id_is_noop (cfg : ModelConfig) (st : ModelState)
    (song : Song) (rest : List Song) (h : List.lookup song.id st.songNodes = none) :
    songsDeleted cfg st (song :: rest) = songsDeleted cfg st rest ∧
    songsDeleted cfg st [song] = st := by
  have hstep : removeSongNode (st, []) song = (st, []) := by
    simp [removeSongNode, h]
  constructor
  · simp only [songsDeleted, List.foldl_cons, hstep]
  · simp only [songsDeleted, List.foldl_cons, List.foldl_nil, hstep]
    simp [pruneLoop, dividerSweep]

/-- Witness for C9 at a concrete state: deleting an id that was never
inserted leaves the two-song index untouched. -/
theorem c9_removal_of_unregistered_id_is_noop_witness :
    List.lookup (99 : Int) (songsDiscovered {} {}
      [{ id := 1, albumartist := "A" }, { id := 2, albumartist := "B" }]).songNodes = none ∧
    songsDeleted {} (songsDiscovered {} {}
      [{ id := 1, albumartist := "A" }, { id := 2, albumartist := "B" }]) [{ id := 99 }] =
      songsDiscovered {} {} [{ id := 1, albumartist := "A" }, { id := 2, albumartist := "B" }] := by
  refine ⟨by decide, ?_⟩
  exact (c9_removal_of_unregistered_id_is_noop {} _ { id := 99 } [] (by decide)).2

/-! ## Claim C3 -/

/-- Claim C3: all row mutations of one reconciliation call happen inside a
single transaction: whenever `AddOrUpdateSongs` or `UpdateSongsBySongID`
reports failure (some statement of the call failed), the returned database
is the unchanged input (the transaction rolled back before commit) and no
`SongsDiscovered` / `SongsDeleted` delta is emitted, so callers never
observe a partially applied batch. -/
theorem c3_failure_rolls_back_and_emits_nothing (oracle : Oracle)
    (dirs : Option (List Int)) (db : DB) (songs newSongs : List Song) :
    ((addOrUpdateSongs oracle dirs db songs).ok = false →
      (addOrUpdateSongs oracle dirs db songs).db = db ∧
      (addOrUpdateSongs oracle dirs db songs).discovered = [] ∧
      (addOrUpdateSongs oracle dirs db songs).deleted = []) ∧
    ((updateSongsBySongID oracle db newSongs).ok = false →
      (updateSongsBySongID oracle db newSongs).db = db ∧
      (updateSongsBySongID oracle db newSongs).discovered = [] ∧
      (updateSongsBySongID oracle db newSongs).deleted = []) := by
  constructor
  · intro hok
    unfold addOrUpdateSongs at *
    rcases hfold : songs.foldl
        (fun acc song => acc.bind (fun st => addOrUpdateStep oracle dirs st song))
        (Except.ok { db := db }) with e | st
    · simp [hfold]
    · rw [hfold] at hok
      simp at hok
  · intro hok
    unfold updateSongsBySongID at *
    rcases hbody : (if oracle 0 then Except.error ()
      else
        let oldSongs := buildOldSongs db
        ((newSongs.foldl (fun acc s => acc.bind (fun st => updateBySongIdStep oracle oldSongs st s))
            (Except.ok { db := db, ctr := 1 })).bind
          (fun st1 =>
            (oldSongs.map Prod.snd).foldl
              (fun acc oldSong => acc.bind (fun st => deleteGoneStep oracle newSongs st oldSong))
              (Except.ok st1)))) with e | st
    · simp [hbody]
    · rw [hbody] at hok
      simp at hok

/-- Witness for C3: a concrete run in which every statement fails reports
failure, and the theorem yields the rolled-back database and empty delta. -/
theorem c3_failure_rolls_back_and_emits_nothing_witness :
    ((addOrUpdateSongs (fun _ => true) (some [1]) { rows := [{ id := 1 }], nextId := 2 }
        [{ id := 1 }]).ok = false →
      (addOrUpdateSongs (fun _ => true) (some [1]) { rows := [{ id := 1 }], nextId := 2 }
        [{ id := 1 }]).db = { rows := [{ id := 1 }], nextId := 2 } ∧
      (addOrUpdateSongs (fun _ => true) (some [1]) { rows := [{ id := 1 }], nextId := 2 }
        [{ id := 1 }]).discovered = [] ∧
      (addOrUpdateSongs (fun _ => true) (some [1]) { rows := [{ id := 1 }], nextId := 2 }
        [{ id := 1 }]).deleted = []) ∧
    (addOrUpdateSongs (fun _ => true) (some [1]) { rows := [{ id := 1 }], nextId := 2 }
      [{ id := 1 }]).ok = false := by
  refine ⟨(c3_failure_rolls_back_and_emits_nothing (fun _ => true) (some [1])
    { rows := [{ id := 1 }], nextId := 2 } [{ id := 1 }] []).1, by decide⟩



theorem foldl_bind_cons {α β : Type} (f : β → α → Except Unit β) (x : α) (xs : List α)
    (st : β) :
    (x :: xs).foldl (fun acc y => acc.bind (fun s => f s y)) (Except.ok st) =
      match f st x with
      | Except.ok st1 => xs.foldl (fun acc y => acc.bind (fun s => f s y)) (Except.ok st1)
      | Except.error _ => Except.error () := by
  rw [List.foldl_cons]
  have hinit : (Except.ok st).bind (fun s => f s x) = f st x := rfl
  rw [hinit]
  rcases hx : f st x with e | st1
  · cases e
    exact foldl_bind_error f xs
  · rfl

theorem insertNewSong_ok {oracle : Oracle} {st st' : RecState} {song : Song} {c : Nat}
    (h : insertNewSong oracle st song c = Except.ok st') :
    st'.db = (st.db.insertRow song).1 ∧
    st'.added = st.added ++ [{ song with id := (st.db.insertRow song).2 }] ∧
    st'.deleted = st.deleted := by
  unfold insertNewSong at h
  by_cases h1 : oracle c = true
  · simp [h1] at h
  · by_cases h2 : ((st.db.insertRow song).2 == -1) = true
    · simp [h1, h2] at h
    · simp only [h1, h2, if_false, Bool.false_eq_true, Except.ok.injEq] at h
      subst h
      exact ⟨rfl, rfl, rfl⟩

theorem addOrUpdateCore_ok_cases {oracle : Oracle} {st st' : RecState} {song : Song}
    {c1 : Nat} (h : addOrUpdateCore oracle st song c1 = Except.ok st') :
    st'.db = st.db ∨ (∃ rid, st'.db = st.db.updateRow rid song) ∨
      st'.db = (st.db.insertRow song).1 := by
  unfold addOrUpdateCore at h
  by_cases hid : (song.id != -1) = true
  · simp only [hid, if_true] at h
    rcases hfind : st.db.findById song.id with _ | oldSong
    · simp only [hfind, Except.ok.injEq] at h
      subst h; left; rfl
    · simp only [hfind] at h
      by_cases h1 : oracle c1 = true
      · simp [h1] at h
      · by_cases h2 : oracle (c1 + 1) = true
        · simp [h1, h2] at h
        · simp only [h1, h2, if_false, Bool.false_eq_true, Except.ok.injEq] at h
          subst h
          right; left; exact ⟨song.id, rfl⟩
  · simp only [hid, if_false, Bool.false_eq_true] at h
    by_cases hsid : (song.songId != "") = true
    · simp only [hsid, if_true] at h
      rcases hfind : st.db.findBySongId song.songId with _ | oldSong
      · simp only [hfind] at h
        exact Or.inr (Or.inr (insertNewSong_ok h).1)
      · simp only [hfind] at h
        by_cases hold : (oldSong.id != -1) = true
        · simp only [hold, if_true] at h
          by_cases h1 : oracle c1 = true
          · simp [h1] at h
          · simp only [h1, if_false, Bool.false_eq_true, Except.ok.injEq] at h
            subst h
            right; left; exact ⟨oldSong.id, rfl⟩
        · simp only [hold, if_false, Bool.false_eq_true] at h
          exact Or.inr (Or.inr (insertNewSong_ok h).1)
    · simp only [hsid, if_false, Bool.false_eq_true] at h
      exact Or.inr (Or.inr (insertNewSong_ok h).1)

theorem addOrUpdateStep_ok_cases {oracle : Oracle} {dirs : Option (List Int)}
    {st st' : RecState} {song : Song}
    (h : addOrUpdateStep oracle dirs st song = Except.ok st') :
    st'.db = st.db ∨ (∃ rid, st'.db = st.db.updateRow rid song) ∨
      st'.db = (st.db.insertRow song).1 := by
  unfold addOrUpdateStep at h
  rcases dirs with _ | ds
  · exact addOrUpdateCore_ok_cases h
  · simp only at h
    by_cases h1 : oracle st.ctr = true
    · simp [h1] at h
    · simp only [h1, if_false, Bool.false_eq_true] at h
      by_cases h2 : (!ds.contains song.directoryId) = true
      · simp only [h2, if_true, Except.ok.injEq] at h
        subst h; left; rfl
      · simp only [h2, if_false, Bool.false_eq_true] at h
        exact addOrUpdateCore_ok_cases h

/-! ## Claim C5 -/

theorem ceInvariant_of_copy (s : Song) (i : Int) (hs : ceInvariant s) :
    ceInvariant { s with id := i } := by
  simpa [ceInvariant] using hs

theorem ceInvariant_updateRow {db : DB} (hdb : ∀ r ∈ db.rows, ceInvariant r)
    {s : Song} (hs : ceInvariant s) (rid : Int) :
    ∀ r ∈ (db.updateRow rid s).rows, ceInvariant r := by
  intro r hr
  simp only [DB.updateRow, List.mem_map] at hr
  obtain ⟨r0, hr0, hEq⟩ := hr
  subst hEq
  by_cases hc : (r0.id == rid) = true
  · simp only [hc, if_true]
    exact ceInvariant_of_copy s r0.id hs
  · simpa [hc] using hdb r0 hr0

theorem ceInvariant_insertRow {db : DB} (hdb : ∀ r ∈ db.rows, ceInvariant r)
    {s : Song} (hs : ceInvariant s) :
    ∀ r ∈ (db.insertRow s).1.rows, ceInvariant r := by
  intro r hr
  simp only [DB.insertRow, List.mem_append, List.mem_singleton] at hr
  rcases hr with hr | hr
  · exact hdb r hr
  · subst hr
    exact ceInvariant_of_copy s db.nextId hs

theorem ceInvariant_updateCompilationsRows {db : DB} (hdb : ∀ r ∈ db.rows, ceInvariant r)
    (url : String) (cd : Bool) :
    ∀ r ∈ (updateCompilationsRows db url cd).rows, ceInvariant r := by
  intro r hr
  simp only [updateCompilationsRows, List.mem_map] at hr
  obtain ⟨r0, hr0, hEq⟩ := hr
  subst hEq
  by_cases hc : (r0.url == url && !r0.unavailable) = true
  · simp [hc, ceInvariant]
  · simpa [hc] using hdb r0 hr0

theorem ceInvariant_classifierFold {ups : List (String × Bool)} :
    ∀ {db : DB} {dl al : List Song}, (∀ r ∈ db.rows, ceInvariant r) →
    ∀ r ∈ (ups.foldl classifierStep (db, dl, al)).1.rows, ceInvariant r := by
  induction ups with
  | nil => intro db dl al hdb; simpa using hdb
  | cons uv us ih =>
    intro db dl al hdb
    simp only [List.foldl_cons]
    exact ih (ceInvariant_updateCompilationsRows hdb uv.1 uv.2)

theorem ceInvariant_compilationsNeedUpdating {db : DB} (hdb : ∀ r ∈ db.rows, ceInvariant r) :
    ∀ r ∈ (compilationsNeedUpdating db).1.rows, ceInvariant r := by
  unfold compilationsNeedUpdating
  exact ceInvariant_classifierFold hdb

theorem ceInvariant_forceCompilation {db : DB} (hdb : ∀ r ∈ db.rows, ceInvariant r)
    (album : String) (artists : List String) (onFlag : Bool) :
    ∀ r ∈ (forceCompilation db album artists onFlag).1.rows, ceInvariant r := by
  unfold forceCompilation
  suffices h : ∀ (l : List String) (acc : DB × List Song × List Song),
      (∀ r ∈ acc.1.rows, ceInvariant r) →
      ∀ r ∈ (l.foldl (fun acc artist =>
        let sel : Song → Bool := fun r =>
          r.album == album && (artist == "" || r.artist == artist) && !r.unavailable
        let onB : Bool := onFlag
        let offB : Bool := !onFlag
        let pre := acc.1.rows.filter sel
        let db2 : DB := { acc.1 with rows := acc.1.rows.map (fun r =>
          if sel r then
            { r with compilationOn := onB, compilationOff := offB,
                     compilationEffective := (r.compilation || r.compilationDetected || onB) && !offB }
          else r) }
        let post := db2.rows.filter sel
        (db2, acc.2.1 ++ pre, acc.2.2 ++ post)) acc).1.rows, ceInvariant r by
    exact h artists (db, [], []) hdb
  intro l
  induction l with
  | nil => intro acc hacc; simpa using hacc
  | cons a as ih =>
    intro acc hacc
    simp only [List.foldl_cons]
    apply ih
    intro r hr
    simp only [List.mem_map] at hr
    obtain ⟨r0, hr0, hEq⟩ := hr
    subst hEq
    by_cases hc : (r0.album == album && (a == "" || r0.artist == a) && !r0.unavailable) = true
    · simp [hc, ceInvariant]
    · simpa [hc] using hacc r0 hr0

theorem ceInvariant_addOrUpdateSongs {oracle : Oracle} {dirs : Option (List Int)}
    {db : DB} {songs : List Song} (hdb : ∀ r ∈ db.rows, ceInvariant r)
    (hs : ∀ s ∈ songs, ceInvariant s) :
    ∀ r ∈ (addOrUpdateSongs oracle dirs db songs).db.rows, ceInvariant r := by
  suffices h : ∀ (l : List Song) (st : RecState), (∀ r ∈ st.db.rows, ceInvariant r) →
      (∀ s ∈ l, ceInvariant s) →
      ∀ (st' : RecState),
        l.foldl (fun acc song => acc.bind (fun s => addOrUpdateStep oracle dirs s song))
          (Except.ok st) = Except.ok st' →
        ∀ r ∈ st'.db.rows, ceInvariant r by
    unfold addOrUpdateSongs
    rcases hfold : songs.foldl
        (fun acc song => acc.bind (fun s => addOrUpdateStep oracle dirs s song))
        (Except.ok { db := db }) with e | st
    · rw [hfold]; exact hdb
    · rw [hfold]; exact h songs { db := db } hdb hs st hfold
  intro l
  induction l with
  | nil =>
    intro st h1 _ st' hf
    simp only [List.foldl_nil, Except.ok.injEq] at hf
    subst hf; exact h1
  | cons s ss ih =>
    intro st h1 h2 st' hf
    rw [foldl_bind_cons] at hf
    rcases hstep : addOrUpdateStep oracle dirs st s with e | st1 <;> rw [hstep] at hf
    · exact absurd hf (by simp)
    · have hs1 : ceInvariant s := h2 s (by simp)
      have hinv1 : ∀ r ∈ st1.db.rows, ceInvariant r := by
        rcases addOrUpdateStep_ok_cases hstep with hc | ⟨rid, hc⟩ | hc <;> rw [hc]
        · exact h1
        · exact ceInvariant_updateRow h1 hs1 rid
        · exact ceInvariant_insertRow h1 hs1
      exact ih st1 hinv1 (fun x hx => h2 x (by simp [hx])) st' hf

/-- Claim C5: every operation that writes a compilation flag preserves the
invariant `compilation_effective = (compilation OR compilation_detected OR
compilation_on) AND NOT compilation_off`: the classifier recomputes it by
exactly this formula for every row it touches, the manual override update
recomputes it with the newly bound override flags, and a reconciliation
that persists invariant-satisfying candidates yields only
invariant-satisfying rows, so the invariant holds immediately after a
record is persisted and after any subsequent classifier pass. -/
theorem c5_compilation_effective_invariant_preserved (db : DB)
    (hdb : ∀ r ∈ db.rows, ceInvariant r) :
    (∀ url cd, ∀ r ∈ (updateCompilationsRows db url cd).rows, ceInvariant r) ∧
    (∀ r ∈ (compilationsNeedUpdating db).1.rows, ceInvariant r) ∧
    (∀ album artists onFlag, ∀ r ∈ (forceCompilation db album artists onFlag).1.rows,
      ceInvariant r) ∧
    (∀ oracle dirs songs, (∀ s ∈ songs, ceInvariant s) →
      ∀ r ∈ (addOrUpdateSongs oracle dirs db songs).db.rows, ceInvariant r) := by
  refine ⟨fun url cd => ceInvariant_updateCompilationsRows hdb url cd,
    ceInvariant_compilationsNeedUpdating hdb,
    fun album artists onFlag => ceInvariant_forceCompilation hdb album artists onFlag,
    fun oracle dirs songs hs => ceInvariant_addOrUpdateSongs hdb hs⟩

/-- The two-row store used by the C5 witness. -/
def c5WitnessDB : DB :=
  { rows := [{ id := 1, album := "X", compilationOn := true, compilationEffective := true },
             { id := 2, album := "X" }], nextId := 3 }

/-- Witness for C5: a concrete two-row store satisfying the invariant keeps
it through a classifier pass. -/
theorem c5_compilation_effective_invariant_preserved_witness :
    (∀ r ∈ c5WitnessDB.rows, ceInvariant r) ∧
    (∀ r ∈ (compilationsNeedUpdating c5WitnessDB).1.rows, ceInvariant r) := by
  exact ⟨by decide, (c5_compilation_effective_invariant_preserved c5WitnessDB (by decide)).2.1⟩

/-! ## Claim C1 -/

/-- Persisted rows of the C1 counterexample store: row 1 and row 2, where
row 2 carries the external id "abc". -/
def c1DB : DB :=
  { rows := [{ id := 1, songId := "xyz", album := "Old1", directoryId := 1 },
             { id := 2, songId := "abc", album := "Old2", directoryId := 1 }],
    nextId := 3 }

/-- The C1 counterexample candidate: it carries both a valid internal id (1)
and a non-empty `song_id` ("abc") matching persisted row 2. -/
def c1Candidate : Song :=
  { id := 1, songId := "abc", album := "New", directoryId := 1 }

/-- Counterexample to C1 as stated: match-key selection does not prefer the
external id.  The candidate carries the non-empty `song_id` "abc" matching
persisted record 2, yet the batch is applied as an update of record 1 (the
internal-id match): the added snapshot carries id 1, not id 2, and record 2
keeps its old album. -/
theorem c1_counterexample :
    c1Candidate.songId ≠ "" ∧
    (∃ r ∈ c1DB.rows, r.songId = c1Candidate.songId ∧ r.id = 2) ∧
    (addOrUpdateSongs noFailures (some [1]) c1DB [c1Candidate]).discovered.map Song.id
      = [1] ∧
    (addOrUpdateSongs noFailures (some [1]) c1DB [c1Candidate]).db.findById 2
      = c1DB.findById 2 := by
  decide

/-- Claim C1 as amended: match-key selection prefers the internal id.  A
candidate with a valid internal id matching a persisted record is updated
in place under that id, yielding exactly one removed (old snapshot) and one
added (the candidate, carrying that same id); a candidate with a valid
internal id and no matching row is silently skipped; only a candidate
without an internal id is matched by its non-empty `song_id`, updated in
place under the persisted record's internal id (one removed, one added
carrying that id); a candidate with neither match is inserted as a new row
and its added snapshot carries the newly assigned id. -/
theorem c1_amended_match_key_selection (db : DB) (dirs : List Int) (c : Song)
    (hdir : dirs.contains c.directoryId = true) :
    (∀ old, c.id ≠ -1 → db.findById c.id = some old →
      addOrUpdateSongs noFailures (some dirs) db [c] =
        { db := db.updateRow c.id c, ok := true, discovered := [c], deleted := [old] }) ∧
    (c.id ≠ -1 → db.findById c.id = none →
      addOrUpdateSongs noFailures (some dirs) db [c] =
        { db := db, ok := true, discovered := [], deleted := [] }) ∧
    (∀ old, c.id = -1 → c.songId ≠ "" → db.findBySongId c.songId = some old →
      old.id ≠ -1 →
      addOrUpdateSongs noFailures (some dirs) db [c] =
        { db := db.updateRow old.id c, ok := true,
          discovered := [{ c with id := old.id }], deleted := [old] }) ∧
    (c.id = -1 → (c.songId = "" ∨ db.findBySongId c.songId = none) → db.nextId ≠ -1 →
      addOrUpdateSongs noFailures (some dirs) db [c] =
        { db := (db.insertRow c).1, ok := true,
          discovered := [{ c with id := db.nextId }], deleted := [] }) := by
  have hstep : ∀ st : RecState,
      addOrUpdateStep noFailures (some dirs) st c = addOrUpdateCore noFailures st c (st.ctr + 1) := by
    intro st
    have hmem : c.directoryId ∈ dirs := by simpa using hdir
    simp [addOrUpdateStep, noFailures, hmem]
  refine ⟨?_, ?_, ?_, ?_⟩
  · intro old hid hfind
    have hid' : (c.id != -1) = true := by simpa [bne_iff_ne] using hid
    simp [addOrUpdateSongs, hstep, addOrUpdateCore, hid', hfind, noFailures, Except.bind]
  · intro hid hfind
    have hid' : (c.id != -1) = true := by simpa [bne_iff_ne] using hid
    simp [addOrUpdateSongs, hstep, addOrUpdateCore, hid', hfind, noFailures, Except.bind]
  · intro old hid hsid hfind hold
    have hid' : (c.id != -1) = false := by simp [hid]
    have hsid' : (c.songId != "") = true := by simpa [bne_iff_ne] using hsid
    have hold' : (old.id != -1) = true := by simpa [bne_iff_ne] using hold
    simp [addOrUpdateSongs, hstep, addOrUpdateCore, hid', hsid', hfind, hold', noFailures, Except.bind]
  · intro hid hnomatch hnext
    have hid' : (c.id != -1) = false := by simp [hid]
    have hnext' : ((db.insertRow c).2 == -1) = false := by
      simp [DB.insertRow, hnext]
    rcases hnomatch with hs | hf
    · have hsid' : (c.songId != "") = false := by simp [hs]
      simp [addOrUpdateSongs, hstep, addOrUpdateCore, insertNewSong, hid', hsid',
        hnext', hnext, noFailures, DB.insertRow, Except.bind]
    · by_cases hs : c.songId = ""
      · have hsid' : (c.songId != "") = false := by simp [hs]
        simp [addOrUpdateSongs, hstep, addOrUpdateCore, insertNewSong, hid', hsid',
          hnext', hnext, noFailures, DB.insertRow, Except.bind]
      · have hsid' : (c.songId != "") = true := by simpa [bne_iff_ne] using hs
        simp [addOrUpdateSongs, hstep, addOrUpdateCore, insertNewSong, hid', hsid', hf,
          hnext', hnext, noFailures, DB.insertRow, Except.bind]

/-- Witness for the amended C1: the song_id-match case applied to the
concrete counterexample store with a candidate that has no internal id. -/
theorem c1_amended_match_key_selection_witness :
    addOrUpdateSongs noFailures (some [1]) c1DB
      [{ id := -1, songId := "abc", album := "New", directoryId := 1 }] =
      { db := c1DB.updateRow 2 { id := -1, songId := "abc", album := "New", directoryId := 1 },
        ok := true,
        discovered := [{ id := 2, songId := "abc", album := "New", directoryId := 1 }],
        deleted := [{ id := 2, songId := "abc", album := "Old2", directoryId := 1 }] } := by
  have h := (c1_amended_match_key_selection c1DB [1]
    { id := -1, songId := "abc", album := "New", directoryId := 1 } (by decide)).2.2.1
    { id := 2, songId := "abc", album := "Old2", directoryId := 1 }
    (by decide) (by decide) (by decide) (by decide)
  simpa using h

/-! ## Number parsing lemmas (QString::number / QString::toInt roundtrip) -/

/-- A character that behaves like a plain decimal digit for the whitespace
trimming and sign analysis of `qToInt`. -/
def digitish (c : Char) : Prop :=
  c.isDigit = true ∧ c.isWhitespace = false ∧ c ≠ '-' ∧ c ≠ '+'

theorem digitChar_spec (d : Nat) (hd : d < 10) :
    digitish (digitChar d) ∧ (digitChar d).toNat - 48 = d := by
  interval_cases d <;> exact ⟨⟨by decide, by decide, by decide, by decide⟩, by decide⟩

theorem digitish_zeroChar : digitish '0' ∧ ('0').toNat - 48 = 0 := by
  exact ⟨⟨by decide, by decide, by decide, by decide⟩, by decide⟩

theorem natDigits_ne_nil (n : Nat) : natDigits n ≠ [] := by
  rw [natDigits_eq]
  split <;> simp

theorem natDigits_digitish (n : Nat) : ∀ c ∈ natDigits n, digitish c := by
  induction n using Nat.strong_induction_on with
  | _ n ih =>
    rw [natDigits_eq]
    split
    · intro c hc
      simp only [List.mem_singleton] at hc
      subst hc
      exact (digitChar_spec n (by omega)).1
    · intro c hc
      simp only [List.mem_append, List.mem_singleton] at hc
      rcases hc with hc | hc
      · exact ih (n / 10) (Nat.div_lt_self (by omega) (by omega)) c hc
      · subst hc
        exact (digitChar_spec (n % 10) (Nat.mod_lt n (by omega))).1

theorem parseDigitsStep_digitChar (a d : Nat) (hd : d < 10) :
    parseDigitsStep (some a) (digitChar d) = some (10 * a + d) := by
  have h := digitChar_spec d hd
  simp only [parseDigitsStep, h.1.1, if_true, h.2]

theorem parse_natDigits (n : Nat) : ∀ a : Nat,
    (natDigits n).foldl parseDigitsStep (some a) =
      some (a * 10 ^ (natDigits n).length + n) := by
  induction n using Nat.strong_induction_on with
  | _ n ih =>
    intro a
    rw [natDigits_eq]
    split
    · rename_i h
      simp only [List.foldl_cons, List.foldl_nil, List.length_singleton]
      rw [parseDigitsStep_digitChar a n h]
      congr 1
      ring
    · rename_i h
      rw [List.foldl_append, ih (n / 10) (Nat.div_lt_self (by omega) (by omega)) a]
      simp only [List.foldl_cons, List.foldl_nil, List.length_append,
        List.length_singleton]
      rw [parseDigitsStep_digitChar _ _ (Nat.mod_lt n (by omega))]
      congr 1
      have hmod : 10 * (n / 10) + n % 10 = n := by omega
      calc 10 * (a * 10 ^ (natDigits (n / 10)).length + n / 10) + n % 10
          = a * (10 ^ (natDigits (n / 10)).length * 10) + (10 * (n / 10) + n % 10) := by ring
        _ = a * 10 ^ ((natDigits (n / 10)).length + 1) + n := by
            rw [hmod, pow_succ]

theorem parseDigits_zeros_lead (k : Nat) (cs : List Char) :
    parseDigits (List.replicate k '0' ++ cs) = parseDigits cs := by
  induction k with
  | zero => simp
  | succ k ih =>
    simp only [List.replicate_succ, List.cons_append, parseDigits, List.foldl_cons]
    have h0 : parseDigitsStep (some 0) '0' = some 0 := by decide
    rw [h0]
    exact ih

theorem dropWhile_eq_self_of_none {p : Char → Bool} {l : List Char}
    (h : ∀ c ∈ l, p c = false) : l.dropWhile p = l := by
  induction l with
  | nil => rfl
  | cons c cs ih =>
    rw [List.dropWhile_cons, h c (by simp)]
    simp

theorem qToInt_of_digits (cs : List Char) (v : Nat) (hne : cs ≠ [])
    (hdig : ∀ c ∈ cs, digitish c) (hparse : parseDigits cs = some v) :
    qToInt (String.mk (cs ++ [' '])) = (v : Int) := by
  have hnws : ∀ c ∈ cs, c.isWhitespace = false := fun c hc => (hdig c hc).2.1
  have hlist : (String.mk (cs ++ [' '])).toList = cs ++ [' '] := rfl
  unfold qToInt
  rw [hlist]
  rcases cs with _ | ⟨c0, cs'⟩
  · exact absurd rfl hne
  · have hc0 := hdig c0 (by simp)
    have h1 : ((c0 :: cs') ++ [' ']).dropWhile Char.isWhitespace = (c0 :: cs') ++ [' '] := by
      rw [List.cons_append, List.dropWhile_cons, hc0.2.1]
      simp
    rw [h1]
    have h2 : ((c0 :: cs') ++ [' ']).reverse = ' ' :: (c0 :: cs').reverse := by
      rw [List.reverse_append]
      rfl
    rw [h2]
    have h3 : (' ' :: (c0 :: cs').reverse).dropWhile Char.isWhitespace = (c0 :: cs').reverse := by
      rw [List.dropWhile_cons]
      have : (' ').isWhitespace = true := by decide
      rw [this]
      simp only [if_true]
      exact dropWhile_eq_self_of_none (fun c hc => hnws c (List.mem_reverse.mp hc))
    rw [h3, List.reverse_reverse]
    dsimp only
    split
    next heq => simp at heq
    next body heq =>
      exact absurd (List.cons.injEq _ _ _ _ ▸ heq).1 hc0.2.2.1
    next body heq =>
      exact absurd (List.cons.injEq _ _ _ _ ▸ heq).1 hc0.2.2.2
    next =>
      rw [hparse]

theorem qToInt_sortTextForNumber (m : Int) (hm : 0 ≤ m) :
    qToInt (sortTextForNumber m ++ " ") = m := by
  have hstr : intStr m = String.mk (natDigits m.toNat) := by
    unfold intStr
    rw [if_neg (by omega)]
  have happ : sortTextForNumber m ++ " " =
      String.mk ((List.replicate (4 - (intStr m).length) '0' ++ natDigits m.toNat) ++ [' ']) := by
    rw [sortTextForNumber, hstr]
    rfl
  rw [happ]
  have hne : (List.replicate (4 - (intStr m).length) '0' ++ natDigits m.toNat) ≠ [] := by
    simp [natDigits_ne_nil]
  have hdig : ∀ c ∈ List.replicate (4 - (intStr m).length) '0' ++ natDigits m.toNat,
      digitish c := by
    intro c hc
    rcases List.mem_append.mp hc with hc | hc
    · rw [List.eq_of_mem_replicate hc]
      exact digitish_zeroChar.1
    · exact natDigits_digitish m.toNat c hc
  have hparse : parseDigits (List.replicate (4 - (intStr m).length) '0' ++ natDigits m.toNat)
      = some m.toNat := by
    rw [parseDigits_zeros_lead]
    unfold parseDigits
    rw [parse_natDigits m.toNat 0]
    simp
  rw [qToInt_of_digits _ m.toNat hne hdig hparse]
  exact Int.toNat_of_nonneg hm

/-! ## Claim C8 -/

/-- The dimensions whose divider key goes through the first-character
normalization branch of `CollectionModel::DividerKey` (the embedded subset
of the text-like list in the source). -/
def isTextLikeGroupBy (t : GroupBy) : Bool :=
  match t with
  | GroupBy.albumArtist | GroupBy.artist | GroupBy.album | GroupBy.composer
  | GroupBy.performer | GroupBy.grouping | GroupBy.disc | GroupBy.genre => true
  | _ => false

/-- Claim C8: for text-like grouping dimensions, the divider key of a
top-level item is the first character of its sort text with a digit folded
to the single "0" bucket (displayed "0-9"), a leading space yielding no
divider key, and a decomposable character folded to the head of its
canonical decomposition; for the numeric dimensions the key buckets the
value by rounding down at a fixed granularity — the decade for years
(`sort_text.toInt() / 10 * 10`), and the raw four-zero-padded value
(granularity one) for sample rate, bit depth and bit rate; and the divider
display text is a pure function of the key and the dimension (the function
`dividerDisplayText`), mapping the zero sentinel "0000" of the year
dimensions to "Unknown". -/
theorem c8_divider_key_derivation_and_display (decomp : Char → Option Char)
    (t : GroupBy) (it : Item) (c b : Char) (cs : List Char) (y v : Int) :
    (isTextLikeGroupBy t = true → it.sortText.toList = c :: cs →
      ((c.isDigit = true → dividerKey decomp t it = "0") ∧
       (c = ' ' → dividerKey decomp t it = "") ∧
       (c.isDigit = false → c ≠ ' ' → decomp c = some b →
         dividerKey decomp t it = String.mk [b]) ∧
       (c.isDigit = false → c ≠ ' ' → decomp c = none →
         dividerKey decomp t it = String.mk [c]))) ∧
    (0 ≤ y → it.sortText = sortTextForNumber y ++ " " →
      dividerKey decomp GroupBy.year it = sortTextForNumber (y.tdiv 10 * 10)) ∧
    (0 ≤ y → it.sortText = sortTextForNumber y ++ " " →
      dividerKey decomp GroupBy.originalYear it = sortTextForNumber (y.tdiv 10 * 10)) ∧
    (it.metadata.samplerate = v → it.sortText.toList = c :: cs →
      dividerKey decomp GroupBy.samplerate it = sortTextForNumber v) ∧
    (it.metadata.bitdepth = v → it.sortText.toList = c :: cs →
      dividerKey decomp GroupBy.bitdepth it = sortTextForNumber v) ∧
    (it.metadata.bitrate = v → it.sortText.toList = c :: cs →
      dividerKey decomp GroupBy.bitrate it = sortTextForNumber v) ∧
    (isTextLikeGroupBy t = true → dividerDisplayText t "0" = "0-9") ∧
    (dividerDisplayText GroupBy.year "0000" = "Unknown") ∧
    (dividerDisplayText GroupBy.originalYear "0000" = "Unknown") := by
  have hyearlist : ∀ y' : Int, (sortTextForNumber y' ++ " ").toList ≠ [] := by
    intro y'
    have h : (sortTextForNumber y' ++ " ").toList = (sortTextForNumber y').toList ++ [' '] := rfl
    simp [h]
  refine ⟨?_, ?_, ?_, ?_, ?_, ?_, ?_, by rfl, by rfl⟩
  · intro htext hlist
    refine ⟨?_, ?_, ?_, ?_⟩
    · intro hdigit
      cases t <;> simp_all [dividerKey, isTextLikeGroupBy]
    · intro hsp
      subst hsp
      cases t <;> simp_all [dividerKey, isTextLikeGroupBy]
    · intro hdigit hsp hdec
      cases t <;> simp_all [dividerKey, isTextLikeGroupBy]
    · intro hdigit hsp hdec
      cases t <;> simp_all [dividerKey, isTextLikeGroupBy]
  · intro hy hsort
    have hq : qToInt it.sortText = y := by rw [hsort]; exact qToInt_sortTextForNumber y hy
    rcases hlist : it.sortText.toList with _ | ⟨c0, cs0⟩
    · exact absurd (hsort ▸ hlist) (hyearlist y)
    · have hdata : it.sortText.data = c0 :: cs0 := hlist
      simp [dividerKey, hdata, hq]
  · intro hy hsort
    have hq : qToInt it.sortText = y := by rw [hsort]; exact qToInt_sortTextForNumber y hy
    rcases hlist : it.sortText.toList with _ | ⟨c0, cs0⟩
    · exact absurd (hsort ▸ hlist) (hyearlist y)
    · have hdata : it.sortText.data = c0 :: cs0 := hlist
      simp [dividerKey, hdata, hq]
  · intro hv hlist
    have hdata : it.sortText.data = c :: cs := hlist
    simp [dividerKey, hdata, hv]
  · intro hv hlist
    have hdata : it.sortText.data = c :: cs := hlist
    simp [dividerKey, hdata, hv]
  · intro hv hlist
    have hdata : it.sortText.data = c :: cs := hlist
    simp [dividerKey, hdata, hv]
  · intro htext
    cases t <;> simp_all [dividerDisplayText, isTextLikeGroupBy]

/-- Witness for C8 at concrete inputs: the digit bucket for a name starting
with "2", the decade bucket for 1975, and the display texts. -/
theorem c8_divider_key_derivation_and_display_witness :
    dividerKey (fun _ => none) GroupBy.albumArtist { sortText := "2pac" } = "0" ∧
    dividerKey (fun _ => none) GroupBy.year
      { sortText := sortTextForNumber 1975 ++ " " } = sortTextForNumber 1970 ∧
    dividerDisplayText GroupBy.albumArtist "0" = "0-9" ∧
    dividerDisplayText GroupBy.year "0000" = "Unknown" := by
  have h1 := c8_divider_key_derivation_and_display (fun _ => none) GroupBy.albumArtist
    { sortText := "2pac" } '2' 'x' ['p', 'a', 'c'] 0 0
  have h2 := c8_divider_key_derivation_and_display (fun _ => none) GroupBy.year
    { sortText := sortTextForNumber 1975 ++ " " } 'x' 'x' [] 1975 0
  refine ⟨(h1.1 (by decide) (by decide)).1 (by decide), ?_, h1.2.2.2.2.2.2.1 (by decide),
    h2.2.2.2.2.2.2.2.1⟩
  have h3 := h2.2.1 (by decide) rfl
  have h4 : (1975 : Int).tdiv 10 * 10 = 1970 := by decide
  rw [h4] at h3
  exact h3

/-! ## Arena access lemmas -/

theorem item_setItem_self (st : ModelState) (i : Nat) (it : Item)
    (h : i < st.items.length) : (st.setItem i it).item i = it := by
  simp only [ModelState.setItem, ModelState.item]
  rw [List.getD_eq_getElem?_getD, List.getElem?_set_self h]
  rfl

theorem item_setItem_ne (st : ModelState) (i j : Nat) (it : Item) (h : j ≠ i) :
    (st.setItem i it).item j = st.item j := by
  simp only [ModelState.setItem, ModelState.item]
  rw [List.getD_eq_getElem?_getD, List.getElem?_set_ne (by omega),
    ← List.getD_eq_getElem?_getD]

theorem item_append_last (st : ModelState) (x : Item) :
    ({ st with items := st.items ++ [x] } : ModelState).item st.items.length = x := by
  simp only [ModelState.item]
  rw [List.getD_eq_getElem?_getD, List.getElem?_concat_length]
  rfl

theorem item_append_lt (st : ModelState) (x : Item) (j : Nat) (h : j < st.items.length) :
    ({ st with items := st.items ++ [x] } : ModelState).item j = st.item j := by
  simp only [ModelState.item]
  rw [List.getD_eq_getElem?_getD, List.getElem?_append, if_pos h,
    ← List.getD_eq_getElem?_getD]

theorem newChild_nid (st : ModelState) (typ : ItemType) (p : Nat) (lvl : Int) :
    (st.newChild typ p lvl).2 = st.items.length := rfl

theorem newChild_item_new (st : ModelState) (typ : ItemType) (p : Nat) (lvl : Int)
    (hp : p < st.items.length) :
    (st.newChild typ p lvl).1.item st.items.length =
      { typ := typ, parent := some p, containerLevel := lvl } := by
  unfold ModelState.newChild
  simp only
  rw [item_setItem_ne _ _ _ _ (by omega)]
  exact item_append_last st _

theorem newChild_item_parent (st : ModelState) (typ : ItemType) (p : Nat) (lvl : Int)
    (hp : p < st.items.length) :
    (st.newChild typ p lvl).1.item p =
      { st.item p with children := (st.item p).children ++ [st.items.length] } := by
  unfold ModelState.newChild
  simp only
  rw [item_setItem_self _ _ _ (by simp; omega)]
  rw [item_append_lt st _ p hp]

theorem newChild_item_other (st : ModelState) (typ : ItemType) (p : Nat) (lvl : Int)
    (j : Nat) (hj1 : j ≠ p) (hj2 : j ≠ st.items.length) :
    (st.newChild typ p lvl).1.item j = st.item j := by
  unfold ModelState.newChild
  simp only
  rw [item_setItem_ne _ _ _ _ hj1]
  by_cases hlt : j < st.items.length
  · exact item_append_lt st _ j hlt
  · simp only [ModelState.item]
    rw [List.getD_eq_getElem?_getD, List.getElem?_append, if_neg (by omega)]
    rw [List.getD_eq_getElem?_getD]
    have h1 : st.items.length ≤ j := by omega
    have h2 : (st.items)[j]? = none := by
      rw [List.getElem?_eq_none_iff]
      omega
    have h3 : [({ typ := typ, parent := some p, containerLevel := lvl } : Item)][j - st.items.length]? = none := by
      rw [List.getElem?_eq_none_iff]
      simp
      omega
    rw [h2, h3]

theorem newChild_maps (st : ModelState) (typ : ItemType) (p : Nat) (lvl : Int) :
    (st.newChild typ p lvl).1.containerNodes0 = st.containerNodes0 ∧
    (st.newChild typ p lvl).1.containerNodes1 = st.containerNodes1 ∧
    (st.newChild typ p lvl).1.containerNodes2 = st.containerNodes2 ∧
    (st.newChild typ p lvl).1.songNodes = st.songNodes ∧
    (st.newChild typ p lvl).1.dividerNodes = st.dividerNodes ∧
    (st.newChild typ p lvl).1.items.length = st.items.length + 1 := by
  unfold ModelState.newChild ModelState.setItem
  simp

theorem setItem_maps (st : ModelState) (i : Nat) (it : Item) :
    (st.setItem i it).containerNodes0 = st.containerNodes0 ∧
    (st.setItem i it).containerNodes1 = st.containerNodes1 ∧
    (st.setItem i it).containerNodes2 = st.containerNodes2 ∧
    (st.setItem i it).songNodes = st.songNodes ∧
    (st.setItem i it).dividerNodes = st.dividerNodes ∧
    (st.setItem i it).items.length = st.items.length := by
  unfold ModelState.setItem
  simp

/-! ## Claim C10 -/

theorem createVA_dividerNodes (st : ModelState) (parentId : Nat) :
    (createCompilationArtistNode st parentId).1.dividerNodes = st.dividerNodes := by
  simp [createCompilationArtistNode, ModelState.newChild, ModelState.setItem]

theorem createVA_sortText (st : ModelState) (parentId : Nat)
    (hp : parentId < st.items.length) :
    ((createCompilationArtistNode st parentId).1.item
      (createCompilationArtistNode st parentId).2).sortText = " various" := by
  unfold createCompilationArtistNode
  simp only [newChild_nid]
  rw [item_setItem_ne _ _ _ _ (by omega)]
  rw [item_setItem_self _ _ _ (by simp [ModelState.newChild, ModelState.setItem])]

theorem itemFromSong_dividerNodes_of_no_divider (cfg : ModelConfig) (t : GroupBy)
    (parentId : Nat) (s : Song) (level : Int) (st : ModelState) :
    (itemFromSong cfg t false parentId s level st).1.dividerNodes = st.dividerNodes := by
  cases t <;>
    simp [itemFromSong, finishItem, ModelState.newChild, ModelState.setItem]

theorem finishItem_of_empty_key (cfg : ModelConfig) (t : GroupBy) (createDivider : Bool)
    (itemId : Nat) (st : ModelState)
    (hdk : dividerKey cfg.decomp t (st.item itemId) = "") :
    finishItem cfg t createDivider itemId st = st := by
  unfold finishItem
  by_cases hc : (createDivider && cfg.showDividers) = true
  · simp [hc, hdk]
  · simp [hc]

theorem discoverLevelStep_dividerNodes (cfg : ModelConfig) (song : Song)
    (acc : ModelState × Nat × String × Bool) (lg : Nat × GroupBy)
    (h : (lg.1 == 0) = false ∨ (isArtistGroupBy lg.2 && song.isCompilation) = true) :
    (discoverLevelStep cfg song acc lg).1.dividerNodes = acc.1.dividerNodes := by
  unfold discoverLevelStep
  rcases acc with ⟨st, container, key, stopped⟩
  by_cases hstop : stopped = true
  · simp [hstop]
  · simp only [Bool.not_eq_true] at hstop
    subst hstop
    simp only [Bool.false_eq_true, if_false]
    by_cases hnone : (lg.2 == GroupBy.none) = true
    · simp [hnone]
    · simp only [hnone, Bool.false_eq_true, if_false]
      by_cases hva : (isArtistGroupBy lg.2 && song.isCompilation) = true
      · simp only [hva, if_true]
        rcases hcomp : ((st.item container).compilationArtistNode) with _ | va
        · simp [createVA_dividerNodes]
        · simp
      · rcases h with h | h
        · simp only [hva, Bool.false_eq_true, if_false]
          rcases hl : List.lookup (((if key ≠ "" then key ++ "-" else key)) ++
              containerKey lg.2 song) (st.containerNodesAt lg.1) with _ | c
          · simp only [hl]
            rcases lg with ⟨i, t⟩
            simp only at h ⊢
            have hins : ∀ (st2 : ModelState) (k : String) (n : Nat),
                (st2.insertContainerNode i k n).dividerNodes = st2.dividerNodes := by
              intro st2 k n
              rcases i with _ | _ | _ <;> simp [ModelState.insertContainerNode]
            rw [hins]
            have h0 : i ≠ 0 := by simpa using h
            have : (i == 0) = false := by simpa using h0
            rw [this]
            exact itemFromSong_dividerNodes_of_no_divider cfg t container song (Int.ofNat i) st
          · simp [hl]
        · exact absurd h hva

/-- Claim C10: the synthetic "Various artists" container never produces a
divider: its sort text is fixed to `" various"` (leading space), its
creation path touches no divider state, the divider key of an item whose
sort text starts with a space is empty for every text-like dimension, an
empty divider key creates no divider node, and a whole insertion of a
compilation record under an artist-like top-level dimension leaves the
divider map unchanged. -/
theorem c10_various_artists_never_creates_divider (cfg : ModelConfig) (st : ModelState)
    (song : Song) (parentId : Nat) (hp : parentId < st.items.length) :
    (((createCompilationArtistNode st parentId).1.item
        (createCompilationArtistNode st parentId).2).sortText = " various" ∧
      (createCompilationArtistNode st parentId).1.dividerNodes = st.dividerNodes) ∧
    (∀ (t : GroupBy) (it : Item) (cs : List Char), isTextLikeGroupBy t = true →
      it.sortText.toList = ' ' :: cs → dividerKey cfg.decomp t it = "") ∧
    (∀ (t : GroupBy) (createDivider : Bool) (itemId : Nat) (st2 : ModelState),
      dividerKey cfg.decomp t (st2.item itemId) = "" →
      finishItem cfg t createDivider itemId st2 = st2) ∧
    (isArtistGroupBy cfg.groupBy0 = true → song.isCompilation = true →
      (songsDiscoveredOne cfg st song).dividerNodes = st.dividerNodes) := by
  refine ⟨⟨createVA_sortText st parentId hp, createVA_dividerNodes st parentId⟩, ?_, ?_, ?_⟩
  · intro t it cs htext hlist
    have hdata : it.sortText.data = ' ' :: cs := hlist
    cases t <;> simp_all [dividerKey, isTextLikeGroupBy]
  · intro t createDivider itemId st2 hdk
    exact finishItem_of_empty_key cfg t createDivider itemId st2 hdk
  · intro hartist hcomp
    unfold songsDiscoveredOne
    by_cases hmatch : (!cfg.queryMatches song) = true
    · simp [hmatch]
    · simp only [hmatch, Bool.false_eq_true, if_false]
      by_cases hreg : (List.lookup song.id st.songNodes).isSome = true
      · simp [hreg]
      · simp only [hreg, Bool.false_eq_true, if_false, List.foldl_cons, List.foldl_nil]
        have e1 := discoverLevelStep_dividerNodes cfg song (st, 0, "", false)
          (0, cfg.groupBy0) (Or.inr (by simp [hartist, hcomp]))
        have e2 := discoverLevelStep_dividerNodes cfg song
          (discoverLevelStep cfg song (st, 0, "", false) (0, cfg.groupBy0))
          (1, cfg.groupBy1) (Or.inl rfl)
        have e3 := discoverLevelStep_dividerNodes cfg song
          (discoverLevelStep cfg song
            (discoverLevelStep cfg song (st, 0, "", false) (0, cfg.groupBy0))
            (1, cfg.groupBy1))
          (2, cfg.groupBy2) (Or.inl rfl)
        simp only [itemFromSong_dividerNodes_of_no_divider]
        rw [e3, e2, e1]

/-- Witness for C10: inserting the scenario-B compilation track into the
empty index leaves the divider map empty. -/
theorem c10_various_artists_never_creates_divider_witness :
    (songsDiscoveredOne { groupBy1 := GroupBy.album } {}
      { id := 1, compilationOn := true, artist := "A", album := "Z" }).dividerNodes = [] := by
  have h := (c10_various_artists_never_creates_divider { groupBy1 := GroupBy.album } {}
    { id := 1, compilationOn := true, artist := "A", album := "Z" } 0 (by decide)).2.2.2
    (by decide) (by decide)
  rw [h]

/-! ## Claim C6 -/

theorem finishItem_false (cfg : ModelConfig) (t : GroupBy) (i : Nat) (st : ModelState) :
    finishItem cfg t false i st = st := by
  simp [finishItem]

theorem newChild_length (st : ModelState) (typ : ItemType) (p : Nat) (lvl : Int) :
    (st.newChild typ p lvl).1.items.length = st.items.length + 1 := by
  simp [ModelState.newChild, ModelState.setItem]

theorem itemFromSong_false_spec (cfg : ModelConfig) (t : GroupBy) (p : Nat) (s : Song)
    (lvl : Int) (st : ModelState) (hp : p < st.items.length) :
    (itemFromSong cfg t false p s lvl st).2 = st.items.length ∧
    (itemFromSong cfg t false p s lvl st).1.items.length = st.items.length + 1 ∧
    ((itemFromSong cfg t false p s lvl st).1.item st.items.length).parent = some p ∧
    ((itemFromSong cfg t false p s lvl st).1.item st.items.length).children = [] ∧
    (itemFromSong cfg t false p s lvl st).1.item p =
      { st.item p with children := (st.item p).children ++ [st.items.length] } ∧
    (∀ j, j ≠ p → j ≠ st.items.length →
      (itemFromSong cfg t false p s lvl st).1.item j = st.item j) ∧
    (itemFromSong cfg t false p s lvl st).1.containerNodes0 = st.containerNodes0 ∧
    (itemFromSong cfg t false p s lvl st).1.containerNodes1 = st.containerNodes1 ∧
    (itemFromSong cfg t false p s lvl st).1.songNodes = st.songNodes ∧
    (itemFromSong cfg t false p s lvl st).1.dividerNodes = st.dividerNodes := by
  have hlen := newChild_length st (if t == GroupBy.none then ItemType.song else ItemType.container) p lvl
  have hnidlt : st.items.length <
      (st.newChild (if t == GroupBy.none then ItemType.song else ItemType.container) p lvl).1.items.length := by
    rw [hlen]; omega
  cases t <;>
  · simp only [itemFromSong, finishItem_false, newChild_nid]
    refine ⟨by trivial, ?_, ?_, ?_, ?_, ?_, ?_, ?_, ?_, ?_⟩
    · simp [ModelState.setItem, ModelState.newChild]
    · rw [item_setItem_self _ _ _ (by simpa using hnidlt)]
      rw [newChild_item_new _ _ _ _ hp]
    · rw [item_setItem_self _ _ _ (by simpa using hnidlt)]
      rw [newChild_item_new _ _ _ _ hp]
    · rw [item_setItem_ne _ _ _ _ (by omega)]
      rw [newChild_item_parent _ _ _ _ hp]
    · intro j hj1 hj2
      rw [item_setItem_ne _ _ _ _ (by omega)]
      rw [newChild_item_other _ _ _ _ _ hj1 hj2]
    · simp [ModelState.setItem, ModelState.newChild]
    · simp [ModelState.setItem, ModelState.newChild]
    · simp [ModelState.setItem, ModelState.newChild]
    · simp [ModelState.setItem, ModelState.newChild]


theorem createVA_nid (st : ModelState) (p : Nat) :
    (createCompilationArtistNode st p).2 = st.items.length := rfl

theorem createVA_length (st : ModelState) (p : Nat) :
    (createCompilationArtistNode st p).1.items.length = st.items.length + 1 := by
  simp [createCompilationArtistNode, ModelState.newChild, ModelState.setItem]

theorem createVA_item_new (st : ModelState) (p : Nat) (hp : p < st.items.length) :
    (createCompilationArtistNode st p).1.item st.items.length =
      { typ := ItemType.container, parent := some p,
        containerLevel := (st.item p).containerLevel + 1,
        key := (if p ≠ 0 && (st.item p).key ≠ "" then (st.item p).key else "") ++ "Various artists",
        displayText := "Various artists", sortText := " various",
        compilationArtistNode := none } := by
  unfold createCompilationArtistNode
  simp only [newChild_nid]
  rw [item_setItem_ne _ _ _ _ (by omega)]
  rw [item_setItem_self _ _ _ (by rw [newChild_length]; omega)]
  rw [newChild_item_new _ _ _ _ hp]

theorem createVA_item_parent (st : ModelState) (p : Nat) (hp : p < st.items.length) :
    (createCompilationArtistNode st p).1.item p =
      { st.item p with
        children := (st.item p).children ++ [st.items.length],
        compilationArtistNode := some st.items.length } := by
  unfold createCompilationArtistNode
  simp only [newChild_nid]
  rw [item_setItem_self _ _ _ (by simp [ModelState.setItem]; rw [newChild_length]; omega)]
  rw [item_setItem_ne _ _ _ _ (by omega)]
  rw [newChild_item_parent _ _ _ _ hp]

theorem createVA_item_other (st : ModelState) (p j : Nat) (hj1 : j ≠ p)
    (hj2 : j ≠ st.items.length) :
    (createCompilationArtistNode st p).1.item j = st.item j := by
  unfold createCompilationArtistNode
  simp only [newChild_nid]
  rw [item_setItem_ne _ _ _ _ hj1]
  rw [item_setItem_ne _ _ _ _ hj2]
  exact newChild_item_other _ _ _ _ _ hj1 hj2

theorem createVA_maps (st : ModelState) (p : Nat) :
    (createCompilationArtistNode st p).1.containerNodes0 = st.containerNodes0 ∧
    (createCompilationArtistNode st p).1.containerNodes1 = st.containerNodes1 ∧
    (createCompilationArtistNode st p).1.containerNodes2 = st.containerNodes2 ∧
    (createCompilationArtistNode st p).1.songNodes = st.songNodes ∧
    (createCompilationArtistNode st p).1.dividerNodes = st.dividerNodes := by
  simp [createCompilationArtistNode, ModelState.newChild, ModelState.setItem]

theorem insertContainerNode_items (st : ModelState) (i : Nat) (k : String) (n : Nat) :
    (st.insertContainerNode i k n).items = st.items ∧
    (st.insertContainerNode i k n).containerNodes0 =
      (if i = 0 then st.containerNodes0 ++ [(k, n)] else st.containerNodes0) ∧
    (st.insertContainerNode i k n).songNodes = st.songNodes ∧
    (st.insertContainerNode i k n).dividerNodes = st.dividerNodes := by
  rcases i with _ | _ | i <;> simp [ModelState.insertContainerNode]

theorem lookup_append_of_none {α β : Type} [BEq α] {l1 l2 : List (α × β)} {k : α}
    (h : List.lookup k l1 = none) :
    List.lookup k (l1 ++ l2) = List.lookup k l2 := by
  induction l1 with
  | nil => simp
  | cons p l ih =>
    rw [List.cons_append, List.lookup_cons]
    rw [List.lookup_cons] at h
    split at h
    · exact absurd h (by simp)
    · exact ih h

theorem songNodesUpdate_item (m : ModelState) (x : List (Int × Nat)) (j : Nat) :
    ({ m with songNodes := x } : ModelState).item j = m.item j := rfl

theorem songNodesUpdate_cn0 (m : ModelState) (x : List (Int × Nat)) :
    ({ m with songNodes := x } : ModelState).containerNodes0 = m.containerNodes0 := rfl

theorem songNodesUpdate_songNodes (m : ModelState) (x : List (Int × Nat)) :
    ({ m with songNodes := x } : ModelState).songNodes = x := rfl

set_option maxHeartbeats 1000000 in
/-- Claim C6: on insertion with grouping [AlbumArtist, Album], a
compilation record is redirected at the artist-like level 0 to the lazily
created "Various artists" container (created here, at level 0 when the root
level is the initial -1) and the track is placed beneath it (song node
under the album container, album container under the Various-artists
container), while the level-0 key map gains no container keyed by the
literal artist value - it is left entirely unchanged. -/
theorem c6_compilation_under_various_artists (cfg : ModelConfig) (st : ModelState)
    (song : Song)
    (hg0 : cfg.groupBy0 = GroupBy.albumArtist) (hg1 : cfg.groupBy1 = GroupBy.album)
    (hg2 : cfg.groupBy2 = GroupBy.none)
    (hmatch : cfg.queryMatches song = true) (hcomp : song.isCompilation = true)
    (hreg : List.lookup song.id st.songNodes = none)
    (hroot : 0 < st.items.length)
    (hva : (st.item 0).compilationArtistNode = none)
    (halb : List.lookup ("Various artists-" ++ containerKey GroupBy.album song)
      st.containerNodes1 = none) :
    (songsDiscoveredOne cfg st song).containerNodes0 = st.containerNodes0 ∧
    ((songsDiscoveredOne cfg st song).item 0).compilationArtistNode =
      some st.items.length ∧
    ((songsDiscoveredOne cfg st song).item st.items.length).displayText =
      "Various artists" ∧
    ((songsDiscoveredOne cfg st song).item st.items.length).containerLevel =
      (st.item 0).containerLevel + 1 ∧
    ((songsDiscoveredOne cfg st song).item st.items.length).parent = some 0 ∧
    List.lookup song.id (songsDiscoveredOne cfg st song).songNodes =
      some (st.items.length + 2) ∧
    ((songsDiscoveredOne cfg st song).item (st.items.length + 2)).parent =
      some (st.items.length + 1) ∧
    ((songsDiscoveredOne cfg st song).item (st.items.length + 1)).parent =
      some st.items.length := by
  -- abbreviations for the successive states of the insertion walk
  have hn1 : ¬ st.items.length = 0 := by omega
  have key2eq : ("Various artists" ++ "-") ++ containerKey GroupBy.album song =
      "Various artists-" ++ containerKey GroupBy.album song := by
    have : ("Various artists" ++ "-") = "Various artists-" := rfl
    rw [this]
  -- step 0: redirect to the lazily created Various artists container
  have hstep0 : discoverLevelStep cfg song (st, 0, "", false) (0, cfg.groupBy0) =
      ((createCompilationArtistNode st 0).1, st.items.length,
        ((createCompilationArtistNode st 0).1.item st.items.length).key, false) := by
    rw [hg0]
    simp only [discoverLevelStep, hcomp, hva,
      show isArtistGroupBy GroupBy.albumArtist = true from rfl]
    simp [createVA_nid]
  have hvaKey : ((createCompilationArtistNode st 0).1.item st.items.length).key =
      "Various artists" := by
    rw [createVA_item_new st 0 hroot]
    simp
  -- facts about the state after creating the Various artists container
  have hAmaps := createVA_maps st 0
  have hAlen := createVA_length st 0
  have hAitem0 := createVA_item_parent st 0 hroot
  have hAitemVA := createVA_item_new st 0 hroot
  -- step 1: create the album container under the Various artists node
  have hlookup1 : List.lookup ("Various artists" ++ "-" ++ containerKey GroupBy.album song)
      ((createCompilationArtistNode st 0).1.containerNodesAt 1) = none := by
    have h1 : (createCompilationArtistNode st 0).1.containerNodesAt 1 =
        st.containerNodes1 := hAmaps.2.1
    rw [h1, key2eq]
    exact halb
  have hstep1 : discoverLevelStep cfg song
      ((createCompilationArtistNode st 0).1, st.items.length, "Various artists", false)
      (1, cfg.groupBy1) =
      ((itemFromSong cfg GroupBy.album false st.items.length song 1
          (createCompilationArtistNode st 0).1).1.insertContainerNode 1
          ("Various artists" ++ "-" ++ containerKey GroupBy.album song)
          (st.items.length + 1),
        st.items.length + 1,
        "Various artists" ++ "-" ++ containerKey GroupBy.album song, false) := by
    rw [hg1]
    simp only [discoverLevelStep]
    simp only [show (GroupBy.album == GroupBy.none) = false from rfl,
      show isArtistGroupBy GroupBy.album = false from rfl]
    simp only [Bool.false_and, Bool.false_eq_true, if_false]
    simp only [show ("Various artists" ≠ "") = True by simp]
    simp only [if_true, hlookup1]
    have hFspec := itemFromSong_false_spec cfg GroupBy.album st.items.length song 1
      (createCompilationArtistNode st 0).1 (by omega)
    have hnid : (itemFromSong cfg GroupBy.album ((1 : Nat) == 0) st.items.length song
        (Int.ofNat 1) (createCompilationArtistNode st 0).1).2 = st.items.length + 1 := by
      have h10 : ((1 : Nat) == 0) = false := rfl
      rw [h10]
      rw [← hAlen]
      exact hFspec.1
    rw [hnid]
    rfl
  -- step 2: the third grouping slot is unconfigured, the walk stops
  have hstep2 : ∀ acc : ModelState × Nat × String, discoverLevelStep cfg song
      (acc.1, acc.2.1, acc.2.2, false) (2, cfg.groupBy2) =
      (acc.1, acc.2.1, acc.2.2, true) := by
    intro acc
    rw [hg2]
    simp [discoverLevelStep]
  -- the resolved walk
  have hwalk : [((0 : Nat), cfg.groupBy0), (1, cfg.groupBy1), (2, cfg.groupBy2)].foldl
      (discoverLevelStep cfg song) (st, 0, "", false) =
      ((itemFromSong cfg GroupBy.album false st.items.length song 1
          (createCompilationArtistNode st 0).1).1.insertContainerNode 1
          ("Various artists" ++ "-" ++ containerKey GroupBy.album song)
          (st.items.length + 1),
        st.items.length + 1,
        "Various artists" ++ "-" ++ containerKey GroupBy.album song, true) := by
    simp only [List.foldl_cons, List.foldl_nil]
    rw [hstep0, hvaKey, hstep1]
    exact hstep2 (_, _, _)
  -- the run of the insertion for this song
  have hrun : songsDiscoveredOne cfg st song =
      { (itemFromSong cfg GroupBy.none false (st.items.length + 1) song (-1)
          ((itemFromSong cfg GroupBy.album false st.items.length song 1
            (createCompilationArtistNode st 0).1).1.insertContainerNode 1
            ("Various artists" ++ "-" ++ containerKey GroupBy.album song)
            (st.items.length + 1))).1 with
        songNodes :=
          (itemFromSong cfg GroupBy.none false (st.items.length + 1) song (-1)
            ((itemFromSong cfg GroupBy.album false st.items.length song 1
              (createCompilationArtistNode st 0).1).1.insertContainerNode 1
              ("Various artists" ++ "-" ++ containerKey GroupBy.album song)
              (st.items.length + 1))).1.songNodes ++
          [(song.id,
            (itemFromSong cfg GroupBy.none false (st.items.length + 1) song (-1)
              ((itemFromSong cfg GroupBy.album false st.items.length song 1
                (createCompilationArtistNode st 0).1).1.insertContainerNode 1
                ("Various artists" ++ "-" ++ containerKey GroupBy.album song)
                (st.items.length + 1))).2)] } := by
    unfold songsDiscoveredOne
    rw [hwalk]
    simp [hmatch, hreg]
  -- state abbreviations
  have hA_lt : st.items.length < (createCompilationArtistNode st 0).1.items.length := by
    rw [hAlen]; omega
  have hBspec := itemFromSong_false_spec cfg GroupBy.album st.items.length song 1
    (createCompilationArtistNode st 0).1 hA_lt
  have hCitems := insertContainerNode_items
    (itemFromSong cfg GroupBy.album false st.items.length song 1
      (createCompilationArtistNode st 0).1).1 1
    ("Various artists" ++ "-" ++ containerKey GroupBy.album song) (st.items.length + 1)
  have hCitem : ∀ j, (((itemFromSong cfg GroupBy.album false st.items.length song 1
      (createCompilationArtistNode st 0).1).1.insertContainerNode 1
      ("Various artists" ++ "-" ++ containerKey GroupBy.album song)
      (st.items.length + 1)).item j) =
      ((itemFromSong cfg GroupBy.album false st.items.length song 1
        (createCompilationArtistNode st 0).1).1.item j) := by
    intro j
    unfold ModelState.item
    rw [hCitems.1]
  have hBlen : (itemFromSong cfg GroupBy.album false st.items.length song 1
      (createCompilationArtistNode st 0).1).1.items.length = st.items.length + 2 := by
    rw [hBspec.2.1, hAlen]
  have hClen : ((itemFromSong cfg GroupBy.album false st.items.length song 1
      (createCompilationArtistNode st 0).1).1.insertContainerNode 1
      ("Various artists" ++ "-" ++ containerKey GroupBy.album song)
      (st.items.length + 1)).items.length = st.items.length + 2 := by
    rw [show (((itemFromSong cfg GroupBy.album false st.items.length song 1
      (createCompilationArtistNode st 0).1).1.insertContainerNode 1
      ("Various artists" ++ "-" ++ containerKey GroupBy.album song)
      (st.items.length + 1)).items) = ((itemFromSong cfg GroupBy.album false st.items.length
      song 1 (createCompilationArtistNode st 0).1).1.items) from hCitems.1]
    exact hBlen
  have hFin_lt : st.items.length + 1 <
      ((itemFromSong cfg GroupBy.album false st.items.length song 1
        (createCompilationArtistNode st 0).1).1.insertContainerNode 1
        ("Various artists" ++ "-" ++ containerKey GroupBy.album song)
        (st.items.length + 1)).items.length := by
    rw [hClen]; omega
  have hFinSpec := itemFromSong_false_spec cfg GroupBy.none (st.items.length + 1) song (-1)
    ((itemFromSong cfg GroupBy.album false st.items.length song 1
      (createCompilationArtistNode st 0).1).1.insertContainerNode 1
      ("Various artists" ++ "-" ++ containerKey GroupBy.album song)
      (st.items.length + 1)) hFin_lt
  rw [hClen] at hFinSpec
  rw [hrun]
  simp only [songNodesUpdate_item, songNodesUpdate_cn0, songNodesUpdate_songNodes]
  refine ⟨?_, ?_, ?_, ?_, ?_, ?_, ?_, ?_⟩
  · rw [hFinSpec.2.2.2.2.2.2.1]
    rw [hCitems.2.1]
    simp only [if_neg (by omega : ¬ (1 : Nat) = 0)]
    rw [hBspec.2.2.2.2.2.2.1]
    exact hAmaps.1
  · rw [hFinSpec.2.2.2.2.2.1 0 (by omega) (by omega)]
    rw [hCitem 0]
    rw [hBspec.2.2.2.2.2.1 0 (by omega) (by rw [hAlen]; omega)]
    rw [hAitem0]
  · rw [hFinSpec.2.2.2.2.2.1 st.items.length (by omega) (by omega)]
    rw [hCitem st.items.length]
    rw [hBspec.2.2.2.2.1]
    rw [hAitemVA]
  · rw [hFinSpec.2.2.2.2.2.1 st.items.length (by omega) (by omega)]
    rw [hCitem st.items.length]
    rw [hBspec.2.2.2.2.1]
    rw [hAitemVA]
  · rw [hFinSpec.2.2.2.2.2.1 st.items.length (by omega) (by omega)]
    rw [hCitem st.items.length]
    rw [hBspec.2.2.2.2.1]
    rw [hAitemVA]
  · rw [hFinSpec.2.2.2.2.2.2.2.2.1]
    rw [hCitems.2.2.1]
    rw [hBspec.2.2.2.2.2.2.2.2.1]
    rw [hAmaps.2.2.2.1]
    rw [hFinSpec.1]
    rw [lookup_append_of_none hreg]
    simp [List.lookup]
  · exact hFinSpec.2.2.1
  · rw [hFinSpec.2.2.2.2.1]
    show (((itemFromSong cfg GroupBy.album false st.items.length song 1
      (createCompilationArtistNode st 0).1).1.insertContainerNode 1
      ("Various artists" ++ "-" ++ containerKey GroupBy.album song)
      (st.items.length + 1)).item (st.items.length + 1)).parent = some st.items.length
    rw [hCitem (st.items.length + 1)]
    have hB := hBspec.2.2.1
    rw [hAlen] at hB
    exact hB


/-- Witness for C6: scenario B on the empty index, with a track carrying
`compilation_on = true`, artist "A" and empty album artist. -/
theorem c6_compilation_under_various_artists_witness :
    (songsDiscoveredOne { groupBy1 := GroupBy.album } {}
      { id := 7, compilationOn := true, artist := "A", album := "Z" }).containerNodes0 = [] ∧
    ((songsDiscoveredOne { groupBy1 := GroupBy.album } {}
      { id := 7, compilationOn := true, artist := "A", album := "Z" }).item 0).compilationArtistNode = some 1 := by
  have h := c6_compilation_under_various_artists { groupBy1 := GroupBy.album } {}
    { id := 7, compilationOn := true, artist := "A", album := "Z" }
    rfl rfl rfl (by decide) (by decide) (by decide) (by decide) (by decide) (by decide)
  exact ⟨h.1, h.2.1⟩

/-! ## Claim C2 -/

/-- The persisted row of the C2 counterexample (identical to the incoming
candidate). -/
def c2Row : Song := { id := 1, songId := "", album := "A", directoryId := 1 }

/-- Counterexample to C2 as stated: reconciling the batch `[c2Row]` through
`AddOrUpdateSongs` against a store already containing exactly `c2Row`
re-writes and re-emits the matched candidate although its full metadata is
unchanged: the second (and every) application still yields a non-empty
added/removed delta. -/
theorem c2_counterexample :
    c2Row.isMetadataEqual c2Row = true ∧
    (addOrUpdateSongs noFailures (some [1])
      (addOrUpdateSongs noFailures (some [1]) { rows := [c2Row], nextId := 2 }
        [c2Row]).db [c2Row]).discovered ≠ [] ∧
    (addOrUpdateSongs noFailures (some [1])
      (addOrUpdateSongs noFailures (some [1]) { rows := [c2Row], nextId := 2 }
        [c2Row]).db [c2Row]).deleted ≠ [] := by
  decide

theorem isMetadataEqual_copy (s : Song) (i : Int) :
    s.isMetadataEqual { s with id := i } = true := by
  simp [Song.isMetadataEqual]

theorem buildOldSongs_eq_pairs (db : DB)
    (h : (db.availRows.map Song.songId).Nodup) :
    buildOldSongs db = db.availRows.map (fun r => (r.songId, r)) := by
  unfold buildOldSongs
  suffices hgen : ∀ (rows : List Song) (acc : List (String × Song)),
      ((acc.map Prod.fst) ++ rows.map Song.songId).Nodup →
      rows.foldl (fun m r => upsert m r.songId r (fun _ => r)) acc =
        acc ++ rows.map (fun r => (r.songId, r)) by
    have := hgen db.availRows [] (by simpa using h)
    simpa using this
  intro rows
  induction rows with
  | nil => intro acc _; simp
  | cons r rs ih =>
    intro acc hacc
    simp only [List.foldl_cons]
    have hnotin : r.songId ∉ acc.map Prod.fst := by
      simp only [List.map_cons, List.nodup_append] at hacc
      intro hmem
      exact hacc.2.2 hmem (by simp)
    have hup : upsert acc r.songId r (fun _ => r) = acc ++ [(r.songId, r)] := by
      unfold upsert
      rw [if_neg]
      intro hany
      simp only [List.any_eq_true, beq_iff_eq] at hany
      obtain ⟨p, hp, hpk⟩ := hany
      exact hnotin (by exact List.mem_map.mpr ⟨p, hp, hpk⟩)
    rw [hup, ih (acc ++ [(r.songId, r)]) (by
      simp only [List.map_append, List.map_cons] at hacc ⊢
      simp only [List.map_cons, List.append_assoc] at hacc ⊢
      simpa using hacc)]
    simp

theorem lookup_pairs_some {rows : List Song} {k : String} {r : Song} :
    (rows.map Song.songId).Nodup → r ∈ rows → r.songId = k →
    List.lookup k (rows.map (fun r => (r.songId, r))) = some r := by
  induction rows with
  | nil => intro _ hr _; cases hr
  | cons x xs ih =>
    intro hnd hr hk
    simp only [List.map_cons, List.lookup_cons]
    rcases List.mem_cons.mp hr with hr | hr
    · subst hr
      rw [hk]
      simp
    · have hxk : (k == x.songId) = false := by
        simp only [List.map_cons, List.nodup_cons] at hnd
        have hmem : r.songId ∈ xs.map Song.songId := List.mem_map.mpr ⟨r, hr, rfl⟩
        rw [← hk]
        simp only [beq_eq_false_iff_ne, ne_eq]
        intro hEq
        exact hnd.1 (hEq ▸ hmem)
      rw [hxk]
      exact ih (by simp only [List.map_cons, List.nodup_cons] at hnd; exact hnd.2) hr hk

theorem lookup_pairs_mem {rows : List Song} {k : String} {r : Song} :
    List.lookup k (rows.map (fun r => (r.songId, r))) = some r →
    r ∈ rows ∧ r.songId = k := by
  induction rows with
  | nil => intro h; simp at h
  | cons x xs ih =>
    intro h
    simp only [List.map_cons, List.lookup_cons] at h
    by_cases hk : (k == x.songId) = true
    · rw [hk] at h
      simp only [Option.some.injEq] at h
      subst h
      exact ⟨by simp, (eq_of_beq hk).symm⟩
    · rw [Bool.not_eq_true] at hk
      rw [hk] at h
      obtain ⟨hmem, hsid⟩ := ih h
      exact ⟨by simp [hmem], hsid⟩

theorem lookup_pairs_none {rows : List Song} {k : String} :
    List.lookup k (rows.map (fun r => (r.songId, r))) = none →
    ∀ r ∈ rows, r.songId ≠ k := by
  induction rows with
  | nil => intro _ r hr; cases hr
  | cons x xs ih =>
    intro h
    simp only [List.map_cons, List.lookup_cons] at h
    by_cases hk : (k == x.songId) = true
    · rw [hk] at h; simp at h
    · rw [Bool.not_eq_true] at hk
      rw [hk] at h
      intro r hr
      rcases List.mem_cons.mp hr with hr | hr
      · subst hr
        simp only [beq_eq_false_iff_ne, ne_eq] at hk
        exact fun hEq => hk hEq.symm
      · exact ih h r hr

theorem mem_availRows {db : DB} {r : Song} :
    r ∈ db.availRows ↔ r ∈ db.rows ∧ r.unavailable = false := by
  simp [DB.availRows, List.mem_filter]

/-- A surviving up-to-date image of incoming song `s` inside database `d`:
an available row carrying `s`'s `song_id` and metadata, whose rowid is
either freshly assigned (at or above `db0`'s next rowid) or inherited from
the available `db0` row holding that `song_id`. -/
def c2Witness (db0 d : DB) (s : Song) : Prop :=
  ∃ r ∈ d.rows, r.unavailable = false ∧ r.songId = s.songId ∧
    s.isMetadataEqual r = true ∧
    (db0.nextId ≤ r.id ∨ ∃ o ∈ db0.availRows, o.songId = s.songId ∧ o.id = r.id)

/-- Invariant of phase 1 of `UpdateSongsBySongID` after the songs in `done`
(a prefix of the incoming batch `ns`) have been processed against the
snapshot map taken from `db0`. -/
def c2Inv (db0 : DB) (ns done : List Song) (d : DB) : Prop :=
  0 < d.nextId ∧
  db0.nextId ≤ d.nextId ∧
  (∀ r ∈ d.rows, r.id < d.nextId) ∧
  (d.rows.map Song.id).Nodup ∧
  (d.availRows.map Song.songId).Nodup ∧
  (∀ r ∈ d.rows, r.unavailable = false → r.songId ∉ ns.map Song.songId → r ∈ db0.rows) ∧
  (∀ o ∈ db0.availRows, o.songId ∉ done.map Song.songId → o ∈ d.rows) ∧
  (∀ r ∈ d.rows, r.unavailable = false →
    r.songId ∈ db0.availRows.map Song.songId ∨ r.songId ∈ done.map Song.songId) ∧
  (∀ s ∈ done, c2Witness db0 d s)

theorem availSids_map_congr (rows : List Song) (f : Song → Song)
    (h : ∀ r ∈ rows, (f r).unavailable = r.unavailable ∧ (f r).songId = r.songId) :
    ((rows.map f).filter (fun r => !r.unavailable)).map Song.songId =
    (rows.filter (fun r => !r.unavailable)).map Song.songId := by
  induction rows with
  | nil => simp
  | cons x xs ih =>
    have hx := h x (by simp)
    have ihx := ih (fun r hr => h r (by simp [hr]))
    by_cases hu : x.unavailable = true
    · simp only [List.map_cons, List.filter_cons, hx.1, hu]
      simpa using ihx
    · have hu' : x.unavailable = false := by simpa using hu
      simp only [List.map_cons, List.filter_cons, hx.1, hu']
      simpa [hx.2] using ihx

theorem c2Inv_equal (db0 : DB) (ns done : List Song) (d : DB) (s o : Song)
    (hdone : ∀ x ∈ done, x.songId ≠ s.songId)
    (homem : o ∈ db0.availRows) (hosid : o.songId = s.songId)
    (hmeta : s.isMetadataEqual o = true)
    (hInv : c2Inv db0 ns done d) :
    c2Inv db0 ns (done ++ [s]) d := by
  obtain ⟨h1, h2, h3, h4, h5, h6, h7, h8, h9⟩ := hInv
  have honotdone : o.songId ∉ done.map Song.songId := by
    intro hm
    obtain ⟨x, hx, hxe⟩ := List.mem_map.mp hm
    exact hdone x hx (hxe.trans hosid)
  refine ⟨h1, h2, h3, h4, h5, h6, ?_, ?_, ?_⟩
  · intro o'' ho'' hnot
    exact h7 o'' ho'' (fun hm => hnot (by simp [hm]))
  · intro r hr hav
    rcases h8 r hr hav with h | h
    · exact Or.inl h
    · exact Or.inr (by simp [h])
  · intro x hx
    rcases List.mem_append.mp hx with hx | hx
    · exact h9 x hx
    · have hxs : x = s := by simpa using hx
      subst hxs
      exact ⟨o, h7 o homem honotdone, (mem_availRows.mp homem).2, hosid, hmeta,
        Or.inr ⟨o, homem, hosid, rfl⟩⟩

theorem c2Inv_update (db0 : DB) (ns done : List Song) (d : DB) (s o : Song)
    (hdb0ids : (db0.rows.map Song.id).Nodup)
    (hdb0lt : ∀ r ∈ db0.rows, r.id < db0.nextId)
    (hsns : s ∈ ns)
    (hdone : ∀ x ∈ done, x.songId ≠ s.songId)
    (hs_avail : s.unavailable = false)
    (homem : o ∈ db0.availRows) (hosid : o.songId = s.songId)
    (hInv : c2Inv db0 ns done d) :
    c2Inv db0 ns (done ++ [s]) (d.updateRow o.id s) := by
  obtain ⟨h1, h2, h3, h4, h5, h6, h7, h8, h9⟩ := hInv
  have horow : o ∈ db0.rows := (mem_availRows.mp homem).1
  have hoavail : o.unavailable = false := (mem_availRows.mp homem).2
  have honotdone : o.songId ∉ done.map Song.songId := by
    intro hm
    obtain ⟨x, hx, hxe⟩ := List.mem_map.mp hm
    exact hdone x hx (hxe.trans hosid)
  have hoin : o ∈ d.rows := h7 o homem honotdone
  have hrows : (d.updateRow o.id s).rows =
      d.rows.map (fun r => if r.id == o.id then { s with id := r.id } else r) := rfl
  have hnext : (d.updateRow o.id s).nextId = d.nextId := rfl
  set f : Song → Song := fun r => if r.id == o.id then { s with id := r.id } else r with hfdef
  have hf_id : ∀ r : Song, (f r).id = r.id := by
    intro r
    by_cases h : r.id = o.id <;> simp [hfdef, h]
  have hf_untouched : ∀ r : Song, r.id ≠ o.id → f r = r := by
    intro r h
    simp [hfdef, h]
  have hf_o_only : ∀ r ∈ d.rows, r.id = o.id → r = o := by
    intro r hr hid
    exact List.inj_on_of_nodup_map h4 hr hoin (by simpa using hid)
  have hf_o : f o = { s with id := o.id } := by simp [hfdef]
  have hfr_as : ∀ r ∈ d.rows, (f r).unavailable = r.unavailable ∧ (f r).songId = r.songId := by
    intro r hr
    by_cases hid : r.id = o.id
    · have hro : r = o := hf_o_only r hr hid
      subst hro
      rw [hf_o]
      exact ⟨by simpa [hs_avail] using hoavail.symm, by simpa using hosid.symm⟩
    · rw [hf_untouched r hid]
      exact ⟨rfl, rfl⟩
  refine ⟨?_, ?_, ?_, ?_, ?_, ?_, ?_, ?_, ?_⟩
  · rw [hnext]; exact h1
  · rw [hnext]; exact h2
  · rw [hrows, hnext]
    intro r' hr'
    obtain ⟨r, hr, hfr⟩ := List.mem_map.mp hr'
    rw [← hfr, hf_id]
    exact h3 r hr
  · rw [hrows, List.map_map]
    have : d.rows.map (Song.id ∘ f) = d.rows.map Song.id :=
      List.map_congr_left (fun r _ => hf_id r)
    rw [this]
    exact h4
  · show (((d.updateRow o.id s).rows.filter (fun r => !r.unavailable)).map Song.songId).Nodup
    rw [hrows, availSids_map_congr d.rows f hfr_as]
    exact h5
  · rw [hrows]
    intro r' hr' hav hnot
    obtain ⟨r, hr, hfr⟩ := List.mem_map.mp hr'
    by_cases hid : r.id = o.id
    · have hro : r = o := hf_o_only r hr hid
      subst hro
      rw [hf_o] at hfr
      exfalso
      apply hnot
      rw [← hfr]
      exact List.mem_map.mpr ⟨s, hsns, rfl⟩
    · rw [hf_untouched r hid] at hfr
      subst hfr
      exact h6 r hr hav hnot
  · rw [hrows]
    intro o'' ho'' hnot
    have hnot' : o''.songId ∉ done.map Song.songId := fun hm => hnot (by simp [hm])
    have ho''in : o'' ∈ d.rows := h7 o'' ho'' hnot'
    have hid : o''.id ≠ o.id := by
      intro hEq
      have : o'' = o := List.inj_on_of_nodup_map hdb0ids
        ((mem_availRows.mp ho'').1) horow (by simpa using hEq)
      apply hnot
      rw [this, hosid]
      simp
    have : f o'' = o'' := hf_untouched o'' hid
    rw [← this]
    exact List.mem_map.mpr ⟨o'', ho''in, rfl⟩
  · rw [hrows]
    intro r' hr' hav
    obtain ⟨r, hr, hfr⟩ := List.mem_map.mp hr'
    by_cases hid : r.id = o.id
    · have hro : r = o := hf_o_only r hr hid
      subst hro
      rw [hf_o] at hfr
      refine Or.inr ?_
      rw [← hfr]
      simp
    · rw [hf_untouched r hid] at hfr
      subst hfr
      rcases h8 r hr hav with h | h
      · exact Or.inl h
      · exact Or.inr (by simp [h])
  · intro x hx
    rcases List.mem_append.mp hx with hx | hx
    · obtain ⟨r, hrmem, hravail, hrsid, hrmeta, hprov⟩ := h9 x hx
      have hid : r.id ≠ o.id := by
        rcases hprov with hge | ⟨ox, hoxmem, hoxsid, hoxid⟩
        · have := hdb0lt o horow
          omega
        · intro hEq
          have hoxo : ox = o := by
            apply List.inj_on_of_nodup_map hdb0ids (mem_availRows.mp hoxmem).1 horow
            simp [hoxid, hEq]
          exact hdone x hx (by rw [← hoxsid, hoxo, hosid])
      refine ⟨r, ?_, hravail, hrsid, hrmeta, hprov⟩
      show r ∈ (d.updateRow o.id s).rows
      rw [hrows, ← hf_untouched r hid]
      exact List.mem_map.mpr ⟨r, hrmem, rfl⟩
    · have hxs : x = s := by simpa using hx
      rw [hxs]
      refine ⟨{ s with id := o.id }, ?_, hs_avail, rfl, isMetadataEqual_copy s o.id,
        Or.inr ⟨o, homem, hosid, rfl⟩⟩
      show { s with id := o.id } ∈ (d.updateRow o.id s).rows
      rw [hrows, ← hf_o]
      exact List.mem_map.mpr ⟨o, hoin, rfl⟩

theorem c2Inv_insert (db0 : DB) (ns done : List Song) (d : DB) (s : Song)
    (hsns : s ∈ ns)
    (hdone : ∀ x ∈ done, x.songId ≠ s.songId)
    (hs_avail : s.unavailable = false)
    (hnone : ∀ r ∈ db0.availRows, r.songId ≠ s.songId)
    (hInv : c2Inv db0 ns done d) :
    c2Inv db0 ns (done ++ [s]) (d.insertRow s).1 := by
  obtain ⟨h1, h2, h3, h4, h5, h6, h7, h8, h9⟩ := hInv
  have hrows : (d.insertRow s).1.rows = d.rows ++ [{ s with id := d.nextId }] := rfl
  have hnext : (d.insertRow s).1.nextId = d.nextId + 1 := rfl
  have hsid_new : ({ s with id := d.nextId } : Song).songId = s.songId := rfl
  have hfresh : s.songId ∉ d.availRows.map Song.songId := by
    intro hm
    obtain ⟨r, hr, hre⟩ := List.mem_map.mp hm
    have hrr := mem_availRows.mp hr
    rcases h8 r hrr.1 hrr.2 with h | h
    · obtain ⟨o'', ho'', ho''e⟩ := List.mem_map.mp h
      exact hnone o'' ho'' (ho''e.trans hre)
    · obtain ⟨x, hx, hxe⟩ := List.mem_map.mp h
      exact hdone x hx (hxe.trans hre)
  refine ⟨?_, ?_, ?_, ?_, ?_, ?_, ?_, ?_, ?_⟩
  · rw [hnext]; omega
  · rw [hnext]; omega
  · rw [hrows, hnext]
    intro r hr
    rcases List.mem_append.mp hr with hr | hr
    · have := h3 r hr; omega
    · have hre : r = { s with id := d.nextId } := by simpa using hr
      rw [hre]
      show d.nextId < d.nextId + 1
      omega
  · rw [hrows, List.map_append]
    rw [List.nodup_append]
    refine ⟨h4, by simp, ?_⟩
    intro a ha
    have : a < d.nextId := by
      obtain ⟨r, hr, hre⟩ := List.mem_map.mp ha
      rw [← hre]; exact h3 r hr
    simp only [List.map_cons, List.map_nil, List.mem_singleton]
    show a ≠ ({ s with id := d.nextId } : Song).id
    intro hEq
    rw [hEq] at this
    exact absurd this (by simp)
  · show ((((d.insertRow s).1.rows).filter (fun r => !r.unavailable)).map Song.songId).Nodup
    rw [hrows, List.filter_append]
    have : ([({ s with id := d.nextId } : Song)].filter (fun r => !r.unavailable)) =
        [{ s with id := d.nextId }] := by
      simp [List.filter_cons]
      exact hs_avail
    rw [this, List.map_append, List.nodup_append]
    refine ⟨h5, by simp, ?_⟩
    intro a ha
    simp only [List.map_cons, List.map_nil, List.mem_singleton]
    intro hEq
    rw [hEq] at ha
    exact hfresh (by exact ha)
  · rw [hrows]
    intro r hr hav hnot
    rcases List.mem_append.mp hr with hr | hr
    · exact h6 r hr hav hnot
    · have hre : r = { s with id := d.nextId } := by simpa using hr
      exfalso
      apply hnot
      rw [hre, hsid_new]
      exact List.mem_map.mpr ⟨s, hsns, rfl⟩
  · rw [hrows]
    intro o'' ho'' hnot
    have hnot' : o''.songId ∉ done.map Song.songId := fun hm => hnot (by simp [hm])
    exact List.mem_append.mpr (Or.inl (h7 o'' ho'' hnot'))
  · rw [hrows]
    intro r hr hav
    rcases List.mem_append.mp hr with hr | hr
    · rcases h8 r hr hav with h | h
      · exact Or.inl h
      · exact Or.inr (by simp [h])
    · have hre : r = { s with id := d.nextId } := by simpa using hr
      refine Or.inr ?_
      rw [hre, hsid_new]
      simp
  · intro x hx
    rcases List.mem_append.mp hx with hx | hx
    · obtain ⟨r, hrmem, hravail, hrsid, hrmeta, hprov⟩ := h9 x hx
      refine ⟨r, ?_, hravail, hrsid, hrmeta, hprov⟩
      show r ∈ (d.insertRow s).1.rows
      rw [hrows]
      exact List.mem_append.mpr (Or.inl hrmem)
    · have hxs : x = s := by simpa using hx
      rw [hxs]
      refine ⟨{ s with id := d.nextId }, ?_, hs_avail, rfl, isMetadataEqual_copy s d.nextId,
        Or.inl (by show db0.nextId ≤ d.nextId; exact h2)⟩
      show { s with id := d.nextId } ∈ (d.insertRow s).1.rows
      rw [hrows]
      simp

theorem c2_step (db0 : DB) (ns done : List Song) (st : RecState) (s : Song)
    (hdb0ids : (db0.rows.map Song.id).Nodup)
    (hdb0sids : (db0.availRows.map Song.songId).Nodup)
    (hdb0lt : ∀ r ∈ db0.rows, r.id < db0.nextId)
    (hsns : s ∈ ns)
    (hdone : ∀ x ∈ done, x.songId ≠ s.songId)
    (hs_avail : s.unavailable = false)
    (hInv : c2Inv db0 ns done st.db) :
    ∃ st2 : RecState, updateBySongIdStep noFailures (buildOldSongs db0) st s = Except.ok st2 ∧
      c2Inv db0 ns (done ++ [s]) st2.db := by
  have hbo : buildOldSongs db0 = db0.availRows.map (fun r => (r.songId, r)) :=
    buildOldSongs_eq_pairs db0 hdb0sids
  unfold updateBySongIdStep
  rw [hbo]
  cases hlk : List.lookup s.songId (db0.availRows.map (fun r => (r.songId, r))) with
  | some o =>
    obtain ⟨homem, hosid⟩ := lookup_pairs_mem hlk
    by_cases hmeta : s.isMetadataEqual o = true
    · exact ⟨st, by simp [hmeta], c2Inv_equal db0 ns done st.db s o hdone homem hosid hmeta hInv⟩
    · have hmeta' : s.isMetadataEqual o = false := by simpa using hmeta
      refine ⟨{ db := st.db.updateRow o.id s, ctr := st.ctr + 2,
                deleted := st.deleted ++ [o], added := st.added ++ [{ s with id := o.id }] },
        by simp [hmeta', noFailures], ?_⟩
      exact c2Inv_update db0 ns done st.db s o hdb0ids hdb0lt hsns hdone hs_avail homem hosid hInv
  | none =>
    have hnone := lookup_pairs_none hlk
    have h1 : 0 < st.db.nextId := hInv.1
    have hne : ((st.db.insertRow s).2 == -1) = false := by
      show (st.db.nextId == -1) = false
      simp only [beq_eq_false_iff_ne, ne_eq]
      omega
    refine ⟨{ db := (st.db.insertRow s).1, ctr := st.ctr + 2, deleted := st.deleted,
              added := st.added ++ [{ s with id := (st.db.insertRow s).2 }] },
      by simp [noFailures, hne], ?_⟩
    exact c2Inv_insert db0 ns done st.db s hsns hdone hs_avail hnone hInv

theorem c2_phase1 (db0 : DB) (ns : List Song)
    (hdb0ids : (db0.rows.map Song.id).Nodup)
    (hdb0sids : (db0.availRows.map Song.songId).Nodup)
    (hdb0lt : ∀ r ∈ db0.rows, r.id < db0.nextId)
    (hns : (ns.map Song.songId).Nodup)
    (hnsavail : ∀ s ∈ ns, s.unavailable = false) :
    ∀ (todo done : List Song) (st : RecState), ns = done ++ todo →
      c2Inv db0 ns done st.db →
      ∃ st2, todo.foldl (fun acc s => acc.bind
          (fun st => updateBySongIdStep noFailures (buildOldSongs db0) st s))
          (Except.ok st) = Except.ok st2 ∧ c2Inv db0 ns (done ++ todo) st2.db := by
  intro todo
  induction todo with
  | nil =>
    intro done st hsplit hInv
    exact ⟨st, rfl, by simpa using hInv⟩
  | cons s rest ih =>
    intro done st hsplit hInv
    have hsns : s ∈ ns := by rw [hsplit]; simp
    have hdone : ∀ x ∈ done, x.songId ≠ s.songId := by
      have hnd : ((done ++ s :: rest).map Song.songId).Nodup := by rw [← hsplit]; exact hns
      rw [List.map_append, List.nodup_append] at hnd
      intro x hx hEq
      exact hnd.2.2 (List.mem_map.mpr ⟨x, hx, rfl⟩) (by rw [hEq]; simp)
    obtain ⟨st2, hstep, hInv2⟩ := c2_step db0 ns done st s hdb0ids hdb0sids hdb0lt hsns hdone
      (hnsavail s hsns) hInv
    rw [foldl_bind_cons, hstep]
    obtain ⟨st3, hfold, hInv3⟩ := ih (done ++ [s]) st2 (by rw [hsplit]; simp) hInv2
    refine ⟨st3, hfold, ?_⟩
    rw [List.append_cons]
    exact hInv3

/-- Invariant of phase 2 of `UpdateSongsBySongID` while the old rows in
`etodo` are still to be examined: every incoming song keeps a surviving
image, and every available row whose `song_id` is not incoming is an
original row whose deletion is still pending. -/
def c2Inv2 (db0 : DB) (ns : List Song) (etodo : List Song) (d : DB) : Prop :=
  (d.availRows.map Song.songId).Nodup ∧
  (∀ s ∈ ns, c2Witness db0 d s) ∧
  (∀ r ∈ d.rows, r.unavailable = false → r.songId ∉ ns.map Song.songId →
     r ∈ db0.rows ∧ ∃ o ∈ etodo, o.songId = r.songId)

theorem c2_step2 (db0 : DB) (ns : List Song) (etodo : List Song) (st : RecState) (o : Song)
    (hdb0ids : (db0.rows.map Song.id).Nodup)
    (hdb0sids : (db0.availRows.map Song.songId).Nodup)
    (hdb0lt : ∀ r ∈ db0.rows, r.id < db0.nextId)
    (homem : o ∈ db0.availRows)
    (hInv : c2Inv2 db0 ns (o :: etodo) st.db) :
    ∃ st2, deleteGoneStep noFailures ns st o = Except.ok st2 ∧
      c2Inv2 db0 ns etodo st2.db := by
  obtain ⟨h5, h9, h6⟩ := hInv
  have horow : o ∈ db0.rows := (mem_availRows.mp homem).1
  unfold deleteGoneStep
  cases hany : ns.any (fun s => s.songId == o.songId) with
  | true =>
    refine ⟨st, by simp, h5, h9, ?_⟩
    have hmem : o.songId ∈ ns.map Song.songId := by
      obtain ⟨s, hs, hse⟩ := List.any_eq_true.mp hany
      exact List.mem_map.mpr ⟨s, hs, eq_of_beq hse⟩
    intro r hr hav hnot
    obtain ⟨hdb0r, o', ho', hsid⟩ := h6 r hr hav hnot
    rcases List.mem_cons.mp ho' with ho' | ho'
    · exfalso
      apply hnot
      rw [← hsid, ho']
      exact hmem
    · exact ⟨hdb0r, o', ho', hsid⟩
  | false =>
    have hnotany : o.songId ∉ ns.map Song.songId := by
      intro hm
      obtain ⟨s, hs, hse⟩ := List.mem_map.mp hm
      rw [List.any_eq_false] at hany
      exact hany s hs (by simpa using hse)
    refine ⟨{ db := st.db.deleteRow o.id, ctr := st.ctr + 2,
              deleted := st.deleted ++ [o], added := st.added }, by simp [noFailures], ?_, ?_, ?_⟩
    · show (((st.db.rows.filter (fun r => !(r.id == o.id))).filter
        (fun r => !r.unavailable)).map Song.songId).Nodup
      refine List.Nodup.sublist (List.Sublist.map _ (List.Sublist.filter _ ?_)) h5
      exact List.filter_sublist _
    · intro s hs
      obtain ⟨r, hrmem, hravail, hrsid, hrmeta, hprov⟩ := h9 s hs
      have hid : r.id ≠ o.id := by
        rcases hprov with hge | ⟨ox, hoxmem, hoxsid, hoxid⟩
        · have := hdb0lt o horow
          omega
        · intro hEq
          have hoxo : ox = o := by
            apply List.inj_on_of_nodup_map hdb0ids (mem_availRows.mp hoxmem).1 horow
            simp [hoxid, hEq]
          apply hnotany
          rw [← hoxo, hoxsid]
          exact List.mem_map.mpr ⟨s, hs, rfl⟩
      refine ⟨r, ?_, hravail, hrsid, hrmeta, hprov⟩
      show r ∈ (st.db.deleteRow o.id).rows
      exact List.mem_filter.mpr ⟨hrmem, by simp [hid]⟩
    · intro r hr hav hnot
      have hr' : r ∈ st.db.rows ∧ r.id ≠ o.id := by
        have := List.mem_filter.mp hr
        exact ⟨this.1, by simpa using this.2⟩
      obtain ⟨hdb0r, o', ho', hsid⟩ := h6 r hr'.1 hav hnot
      rcases List.mem_cons.mp ho' with ho' | ho'
      · exfalso
        have hravail : r ∈ db0.availRows := mem_availRows.mpr ⟨hdb0r, hav⟩
        have hro : r = o := by
          apply List.inj_on_of_nodup_map hdb0sids hravail homem
          rw [ho'] at hsid
          exact hsid.symm
        exact hr'.2 (by rw [hro])
      · exact ⟨hdb0r, o', ho', hsid⟩

theorem c2_phase2 (db0 : DB) (ns : List Song)
    (hdb0ids : (db0.rows.map Song.id).Nodup)
    (hdb0sids : (db0.availRows.map Song.songId).Nodup)
    (hdb0lt : ∀ r ∈ db0.rows, r.id < db0.nextId) :
    ∀ (etodo : List Song) (st : RecState),
      (∀ o ∈ etodo, o ∈ db0.availRows) →
      c2Inv2 db0 ns etodo st.db →
      ∃ st2, etodo.foldl (fun acc o => acc.bind (fun st => deleteGoneStep noFailures ns st o))
          (Except.ok st) = Except.ok st2 ∧ c2Inv2 db0 ns [] st2.db := by
  intro etodo
  induction etodo with
  | nil =>
    intro st _ hInv
    exact ⟨st, rfl, hInv⟩
  | cons o rest ih =>
    intro st hmem hInv
    obtain ⟨st2, hstep, hInv2⟩ := c2_step2 db0 ns rest st o hdb0ids hdb0sids hdb0lt
      (hmem o (by simp)) hInv
    rw [foldl_bind_cons, hstep]
    exact ih st2 (fun o' ho' => hmem o' (by simp [ho'])) hInv2

theorem c2_run2_phase1 (oldSongs : List (String × Song)) :
    ∀ (todo : List Song) (st : RecState),
      (∀ s ∈ todo, ∃ o, List.lookup s.songId oldSongs = some o ∧ s.isMetadataEqual o = true) →
      todo.foldl (fun acc s => acc.bind (fun st => updateBySongIdStep noFailures oldSongs st s))
        (Except.ok st) = Except.ok st := by
  intro todo
  induction todo with
  | nil => intro st _; rfl
  | cons s rest ih =>
    intro st h
    obtain ⟨o, hlk, hmeta⟩ := h s (by simp)
    rw [foldl_bind_cons]
    have hstep : updateBySongIdStep noFailures oldSongs st s = Except.ok st := by
      unfold updateBySongIdStep
      rw [hlk]
      simp [hmeta]
    rw [hstep]
    exact ih st (fun s' hs' => h s' (by simp [hs']))

theorem c2_run2_phase2 (ns : List Song) :
    ∀ (etodo : List Song) (st : RecState),
      (∀ o ∈ etodo, ns.any (fun s => s.songId == o.songId) = true) →
      etodo.foldl (fun acc o => acc.bind (fun st => deleteGoneStep noFailures ns st o))
        (Except.ok st) = Except.ok st := by
  intro etodo
  induction etodo with
  | nil => intro st _; rfl
  | cons o rest ih =>
    intro st h
    rw [foldl_bind_cons]
    have hstep : deleteGoneStep noFailures ns st o = Except.ok st := by
      unfold deleteGoneStep
      rw [h o (by simp)]
      simp
    rw [hstep]
    exact ih st (fun o' ho' => h o' (by simp [ho']))

theorem updateSongsBySongID_noFail_eq (db : DB) (ns : List Song) :
    updateSongsBySongID noFailures db ns =
      match (ns.foldl (fun acc s => acc.bind
            (fun st => updateBySongIdStep noFailures (buildOldSongs db) st s))
            (Except.ok { db := db, ctr := 1 })).bind
          (fun st1 => ((buildOldSongs db).map Prod.snd).foldl
            (fun acc oldSong => acc.bind (fun st => deleteGoneStep noFailures ns st oldSong))
            (Except.ok st1)) with
      | Except.ok st => { db := st.db, ok := true, discovered := st.added, deleted := st.deleted }
      | Except.error _ => { db := db, ok := false } := rfl

/-- C2 (amended): the `song_id`-keyed reconciliation `UpdateSongsBySongID`
is idempotent on unchanged metadata: starting from a well-formed store
(positive next rowid bounding all rowids, duplicate-free rowids and
duplicate-free `song_id`s among available rows) and a batch of available
candidates with duplicate-free `song_id`s, the first call succeeds, and a
second call with no other mutation in between succeeds, performs no net
change, and yields an empty added/removed delta; moreover a matched
candidate whose full metadata equals the persisted record causes no row
write at all (the step returns its state unchanged).  `AddOrUpdateSongs`,
by contrast, rewrites matched candidates unconditionally (see the C2
counterexample). -/
theorem c2_amended_update_by_song_id_idempotent (db : DB) (ns : List Song)
    (hnext : 0 < db.nextId)
    (hlt : ∀ r ∈ db.rows, r.id < db.nextId)
    (hids : (db.rows.map Song.id).Nodup)
    (hsids : (db.availRows.map Song.songId).Nodup)
    (hns : (ns.map Song.songId).Nodup)
    (hnsavail : ∀ s ∈ ns, s.unavailable = false) :
    (updateSongsBySongID noFailures db ns).ok = true ∧
    (updateSongsBySongID noFailures (updateSongsBySongID noFailures db ns).db ns).ok = true ∧
    (updateSongsBySongID noFailures (updateSongsBySongID noFailures db ns).db ns).discovered
      = [] ∧
    (updateSongsBySongID noFailures (updateSongsBySongID noFailures db ns).db ns).deleted = [] ∧
    (updateSongsBySongID noFailures (updateSongsBySongID noFailures db ns).db ns).db =
      (updateSongsBySongID noFailures db ns).db ∧
    (∀ (oldSongs : List (String × Song)) (st : RecState) (s o : Song),
      List.lookup s.songId oldSongs = some o → s.isMetadataEqual o = true →
      updateBySongIdStep noFailures oldSongs st s = Except.ok st) := by
  have hInv0 : c2Inv db ns [] ({ db := db, ctr := 1 } : RecState).db := by
    refine ⟨hnext, le_refl _, hlt, hids, hsids, fun r hr _ _ => hr, ?_, ?_, ?_⟩
    · intro o ho _
      exact (mem_availRows.mp ho).1
    · intro r hr hav
      exact Or.inl (List.mem_map.mpr ⟨r, mem_availRows.mpr ⟨hr, hav⟩, rfl⟩)
    · intro s hs
      exact absurd hs (List.not_mem_nil s)
  obtain ⟨st1, hfold1, hInv1'⟩ :=
    c2_phase1 db ns hids hsids hlt hns hnsavail ns [] _ (by simp) hInv0
  have hInv1 : c2Inv db ns ns st1.db := by simpa using hInv1'
  have hInv20 : c2Inv2 db ns db.availRows st1.db := by
    obtain ⟨i1, i2, i3, i4, i5, i6, i7, i8, i9⟩ := hInv1
    refine ⟨i5, i9, ?_⟩
    intro r hr hav hnot
    have hdb0r := i6 r hr hav hnot
    exact ⟨hdb0r, r, mem_availRows.mpr ⟨hdb0r, hav⟩, rfl⟩
  obtain ⟨st2, hfold2, hInv2⟩ :=
    c2_phase2 db ns hids hsids hlt db.availRows st1 (fun o ho => ho) hInv20
  have hbo : buildOldSongs db = db.availRows.map (fun r => (r.songId, r)) :=
    buildOldSongs_eq_pairs db hsids
  have hsnd : (buildOldSongs db).map Prod.snd = db.availRows := by
    rw [hbo, List.map_map]
    have hcomp : (Prod.snd ∘ fun r : Song => (r.songId, r)) = id := rfl
    rw [hcomp, List.map_id]
  have hrun1 : updateSongsBySongID noFailures db ns =
      { db := st2.db, ok := true, discovered := st2.added, deleted := st2.deleted } := by
    rw [updateSongsBySongID_noFail_eq, hfold1]
    have hb : (Except.ok st1).bind (fun st1 => ((buildOldSongs db).map Prod.snd).foldl
        (fun acc oldSong => acc.bind (fun st => deleteGoneStep noFailures ns st oldSong))
        (Except.ok st1)) = ((buildOldSongs db).map Prod.snd).foldl
        (fun acc oldSong => acc.bind (fun st => deleteGoneStep noFailures ns st oldSong))
        (Except.ok st1) := rfl
    rw [hb, hsnd, hfold2]
  obtain ⟨k5, k9, k6⟩ := hInv2
  have hbo1 : buildOldSongs st2.db = st2.db.availRows.map (fun r => (r.songId, r)) :=
    buildOldSongs_eq_pairs st2.db k5
  have hsnd1 : (buildOldSongs st2.db).map Prod.snd = st2.db.availRows := by
    rw [hbo1, List.map_map]
    have hcomp : (Prod.snd ∘ fun r : Song => (r.songId, r)) = id := rfl
    rw [hcomp, List.map_id]
  have hid1 : ∀ s ∈ ns, ∃ o, List.lookup s.songId (buildOldSongs st2.db) = some o ∧
      s.isMetadataEqual o = true := by
    intro s hs
    obtain ⟨r, hrmem, hravail, hrsid, hrmeta, _⟩ := k9 s hs
    refine ⟨r, ?_, hrmeta⟩
    rw [hbo1]
    exact lookup_pairs_some k5 (mem_availRows.mpr ⟨hrmem, hravail⟩) hrsid
  have hid2 : ∀ o ∈ st2.db.availRows, ns.any (fun s => s.songId == o.songId) = true := by
    intro o ho
    cases hany : ns.any (fun s => s.songId == o.songId) with
    | true => rfl
    | false =>
      exfalso
      have hnot : o.songId ∉ ns.map Song.songId := by
        intro hm
        obtain ⟨s, hs, hse⟩ := List.mem_map.mp hm
        rw [List.any_eq_false] at hany
        exact hany s hs (by simpa using hse)
      obtain ⟨_, o', ho', _⟩ := k6 o (mem_availRows.mp ho).1 (mem_availRows.mp ho).2 hnot
      exact absurd ho' (List.not_mem_nil o')
  have hp1 : ns.foldl (fun acc s => acc.bind
      (fun st => updateBySongIdStep noFailures (buildOldSongs st2.db) st s))
      (Except.ok ({ db := st2.db, ctr := 1 } : RecState)) =
      Except.ok ({ db := st2.db, ctr := 1 } : RecState) :=
    c2_run2_phase1 (buildOldSongs st2.db) ns _ hid1
  have hp2 : st2.db.availRows.foldl (fun acc o => acc.bind
      (fun st => deleteGoneStep noFailures ns st o))
      (Except.ok ({ db := st2.db, ctr := 1 } : RecState)) =
      Except.ok ({ db := st2.db, ctr := 1 } : RecState) :=
    c2_run2_phase2 ns st2.db.availRows _ hid2
  have hrun2 : updateSongsBySongID noFailures st2.db ns =
      { db := st2.db, ok := true, discovered := [], deleted := [] } := by
    rw [updateSongsBySongID_noFail_eq, hp1]
    have hb : (Except.ok ({ db := st2.db, ctr := 1 } : RecState)).bind
        (fun st1 => ((buildOldSongs st2.db).map Prod.snd).foldl
        (fun acc oldSong => acc.bind (fun st => deleteGoneStep noFailures ns st oldSong))
        (Except.ok st1)) = ((buildOldSongs st2.db).map Prod.snd).foldl
        (fun acc oldSong => acc.bind (fun st => deleteGoneStep noFailures ns st oldSong))
        (Except.ok ({ db := st2.db, ctr := 1 } : RecState)) := rfl
    rw [hb, hsnd1, hp2]
  have hdb1 : (updateSongsBySongID noFailures db ns).db = st2.db := by rw [hrun1]
  refine ⟨by rw [hrun1], ?_, ?_, ?_, ?_, ?_⟩
  · rw [hdb1, hrun2]
  · rw [hdb1, hrun2]
  · rw [hdb1, hrun2]
  · rw [hdb1, hrun2]
  · intro oldSongs st s o hlk hmeta
    unfold updateBySongIdStep
    rw [hlk]
    simp [hmeta]

theorem c2_amended_update_by_song_id_idempotent_witness :
    (updateSongsBySongID noFailures { rows := [c2Row], nextId := 2 } [c2Row]).ok = true ∧
    (updateSongsBySongID noFailures
      (updateSongsBySongID noFailures { rows := [c2Row], nextId := 2 } [c2Row]).db
      [c2Row]).discovered = [] :=
  ⟨(c2_amended_update_by_song_id_idempotent { rows := [c2Row], nextId := 2 } [c2Row]
      (by decide) (by decide) (by decide) (by decide) (by decide) (by decide)).1,
   (c2_amended_update_by_song_id_idempotent { rows := [c2Row], nextId := 2 } [c2Row]
      (by decide) (by decide) (by decide) (by decide) (by decide) (by decide)).2.2.1⟩

/-! ## Claim C4 -/

/-- Counterexample row: first member of the multi-artist album "X" inside a
single CUE sheet. -/
def c4s1 : Song :=
  { id := 1, url := "/d/f.cue", album := "X", albumartist := "a1", directoryId := 1 }

/-- Counterexample row: second member of album "X", different effective
artist. -/
def c4s2 : Song :=
  { id := 2, url := "/d/f.cue", album := "X", albumartist := "a2", directoryId := 1 }

/-- Counterexample row: sole member of album "Y" — one distinct effective
artist — but sharing the url of album "X" (one CUE sheet carrying two
albums). -/
def c4s3 : Song :=
  { id := 3, url := "/d/f.cue", album := "Y", albumartist := "a1", directoryId := 1 }

/-- Counterexample to C4 as stated: the classifier groups by
(directory, album) but writes by url, so the single-artist group "Y" whose
only member shares the url of the multi-artist group "X" ends up with
`compilation_detected = true`, and a second consecutive run still produces
a non-empty delta. -/
theorem c4_counterexample :
    (∃ r ∈ (compilationsNeedUpdating { rows := [c4s1, c4s2, c4s3], nextId := 4 }).1.rows,
      r.id = 3 ∧ r.compilationDetected = true) ∧
    (compilationsNeedUpdating
      (compilationsNeedUpdating { rows := [c4s1, c4s2, c4s3], nextId := 4 }).1).2.1 ≠ [] := by
  decide

theorem lookup_append_some {α β : Type} [BEq α] {l1 l2 : List (α × β)} {k : α} {v : β}
    (h : List.lookup k l1 = some v) :
    List.lookup k (l1 ++ l2) = some v := by
  induction l1 with
  | nil => simp at h
  | cons p l ih =>
    rw [List.cons_append, List.lookup_cons]
    rw [List.lookup_cons] at h
    split at h
    · exact h
    · exact ih h

theorem lookup_none_of_any_false {α : Type} {m : List (String × α)} {k : String}
    (h : m.any (fun p => p.1 == k) = false) :
    List.lookup k m = none := by
  induction m with
  | nil => rfl
  | cons p l ih =>
    rw [List.any_cons, Bool.or_eq_false_iff] at h
    rw [List.lookup_cons]
    have hk : (k == p.1) = false := by
      have := h.1
      simp only [beq_eq_false_iff_ne, ne_eq] at this ⊢
      exact fun hEq => this hEq.symm
    rw [hk]
    exact ih h.2

theorem any_true_of_lookup_some {α : Type} {m : List (String × α)} {k : String} {v : α}
    (h : List.lookup k m = some v) :
    m.any (fun p => p.1 == k) = true := by
  induction m with
  | nil => simp at h
  | cons p l ih =>
    rw [List.any_cons]
    rw [List.lookup_cons] at h
    by_cases hk : (k == p.1) = true
    · have : (p.1 == k) = true := by
        simp only [beq_iff_eq] at hk ⊢
        exact hk.symm
      rw [this]
      rfl
    · rw [Bool.not_eq_true] at hk
      rw [hk] at h
      rw [ih h]
      simp

theorem lookup_map_upsert_same {α : Type} {m : List (String × α)} {k : String} {i : α}
    (f : α → α) (h : List.lookup k m = some i) :
    List.lookup k (m.map (fun p => if p.1 == k then (p.1, f p.2) else p)) = some (f i) := by
  induction m with
  | nil => simp at h
  | cons p l ih =>
    rw [List.lookup_cons] at h
    rw [List.map_cons]
    by_cases hk : (k == p.1) = true
    · rw [hk] at h
      have hpk : (p.1 == k) = true := by
        simp only [beq_iff_eq] at hk ⊢
        exact hk.symm
      rw [if_pos hpk, List.lookup_cons, hk]
      simp only [Option.some.injEq] at h ⊢
      rw [h]
    · rw [Bool.not_eq_true] at hk
      rw [hk] at h
      by_cases hpk : (p.1 == k) = true
      · exact absurd (eq_of_beq hpk).symm (by simpa using hk)
      · rw [Bool.not_eq_true] at hpk
        rw [if_neg (by simp [hpk]), List.lookup_cons, hk]
        exact ih h

theorem lookup_none_all {α : Type} {m : List (String × α)} {k : String}
    (h : List.lookup k m = none) : ∀ p ∈ m, p.1 ≠ k := by
  induction m with
  | nil => intro p hp; cases hp
  | cons q l ih =>
    rw [List.lookup_cons] at h
    intro p hp
    rcases List.mem_cons.mp hp with hp | hp
    · subst hp
      intro hEq
      rw [hEq] at h
      simp at h
    · by_cases hk : (k == q.1) = true
      · rw [hk] at h; simp at h
      · rw [Bool.not_eq_true] at hk
        rw [hk] at h
        exact ih h p hp

theorem lookup_upsert_same {α : Type} (m : List (String × α)) (k : String) (dflt : α)
    (f : α → α) :
    List.lookup k (upsert m k dflt f) = some (f (((List.lookup k m)).getD dflt)) := by
  unfold upsert
  cases hlk : List.lookup k m with
  | some i =>
    rw [if_pos (any_true_of_lookup_some hlk)]
    rw [lookup_map_upsert_same f hlk]
    rfl
  | none =>
    have hany : m.any (fun p => p.1 == k) = false := by
      cases hany : m.any (fun p => p.1 == k) with
      | true =>
        exfalso
        obtain ⟨p, hp, hpk⟩ := List.any_eq_true.mp hany
        exact lookup_none_all hlk p hp (eq_of_beq hpk)
      | false => rfl
    rw [if_neg (by rw [hany]; exact Bool.false_ne_true)]
    rw [lookup_append_of_none hlk, List.lookup_cons]
    simp

theorem lookup_upsert_other {α : Type} (m : List (String × α)) (k k' : String) (dflt : α)
    (f : α → α) (hne : k ≠ k') :
    List.lookup k (upsert m k' dflt f) = List.lookup k m := by
  unfold upsert
  by_cases hany : m.any (fun p => p.1 == k') = true
  · rw [if_pos hany]
    clear hany
    induction m with
    | nil => rfl
    | cons p l ih =>
      rw [List.map_cons, List.lookup_cons, List.lookup_cons]
      by_cases hpk : (p.1 == k') = true
      · rw [if_pos hpk]
        have hkp : (k == p.1) = false := by
          simp only [beq_eq_false_iff_ne, ne_eq]
          intro hEq
          exact hne (hEq ▸ eq_of_beq hpk)
        dsimp only
        rw [hkp]
        exact ih
      · rw [Bool.not_eq_true] at hpk
        rw [if_neg (by simp [hpk])]
        by_cases hkp : (k == p.1) = true
        · rw [hkp]
        · rw [Bool.not_eq_true] at hkp
          rw [hkp]
          exact ih
  · rw [if_neg hany]
    cases hlk : List.lookup k m with
    | some v => exact lookup_append_some hlk
    | none =>
      rw [lookup_append_of_none hlk, List.lookup_cons]
      have : (k == k') = false := by simpa using hne
      rw [this]
      rfl

theorem upsert_keys_nodup {α : Type} {m : List (String × α)} (k : String) (dflt : α)
    (f : α → α) (h : (m.map Prod.fst).Nodup) :
    ((upsert m k dflt f).map Prod.fst).Nodup := by
  unfold upsert
  by_cases hany : m.any (fun p => p.1 == k) = true
  · rw [if_pos hany]
    have hsame : (m.map (fun p => if (p.1 == k) = true then (p.1, f p.2) else p)).map Prod.fst
        = m.map Prod.fst := by
      rw [List.map_map]
      refine List.map_congr_left ?_
      intro p _
      by_cases hpk : p.1 = k
      · simp [hpk]
      · simp [hpk]
    rw [hsame]
    exact h
  · rw [if_neg hany]
    rw [List.map_append, List.nodup_append]
    refine ⟨h, by simp, ?_⟩
    intro a ha
    simp only [List.map_cons, List.map_nil, List.mem_singleton]
    intro hEq
    rw [Bool.not_eq_true] at hany
    have hnone : List.lookup k m = none := lookup_none_of_any_false hany
    obtain ⟨p, hp, hpe⟩ := List.mem_map.mp ha
    exact lookup_none_all hnone p hp (hpe.trans hEq)

theorem mem_lookup_of_nodup_keys {α : Type} {l : List (String × α)} {k : String} {v : α}
    (hnd : (l.map Prod.fst).Nodup) (hm : (k, v) ∈ l) :
    List.lookup k l = some v := by
  induction l with
  | nil => cases hm
  | cons p rest ih =>
    rw [List.lookup_cons]
    rcases List.mem_cons.mp hm with hm | hm
    · rw [← hm]
      simp
    · have hpk : (k == p.1) = false := by
        simp only [List.map_cons, List.nodup_cons] at hnd
        simp only [beq_eq_false_iff_ne, ne_eq]
        intro hEq
        exact hnd.1 (hEq ▸ List.mem_map.mpr ⟨(k, v), hm, rfl⟩)
      rw [hpk]
      exact ih (by simp only [List.map_cons, List.nodup_cons] at hnd; exact hnd.2) hm

/-- The rows of `rows` that the classifier files under group key `k`:
available selection is applied by the caller; here only the non-empty album
and the (directory, album) key matter. -/
def groupMembers (rows : List Song) (k : String) : List Song :=
  rows.filter (fun r => !(r.album == "") && (r.groupKey == k))

/-- Folding a member list into a group aggregate starting from `i`. -/
def contAgg (i : CompilationInfo) (l : List Song) : CompilationInfo :=
  l.foldl (fun i r => infoAdd i r.effectiveAlbumartist r.url r.compilationDetected) i

/-- One row of the first pass of `CompilationsNeedUpdating`. -/
def buildStep (m : List (String × CompilationInfo)) (r : Song) :
    List (String × CompilationInfo) :=
  if r.album = "" then m
  else upsert m r.groupKey {} (fun i => infoAdd i r.effectiveAlbumartist r.url r.compilationDetected)

theorem buildCompilationInfo_eq_foldl (rows : List Song) :
    buildCompilationInfo rows = rows.foldl buildStep [] := rfl

theorem build_lookup : ∀ (rows : List Song) (m : List (String × CompilationInfo)) (k : String),
    List.lookup k (rows.foldl buildStep m) =
      match List.lookup k m with
      | some i => some (contAgg i (groupMembers rows k))
      | none =>
        match groupMembers rows k with
        | [] => none
        | _ :: _ => some (contAgg {} (groupMembers rows k)) := by
  intro rows
  induction rows with
  | nil =>
    intro m k
    rw [List.foldl_nil]
    cases hlk : List.lookup k m with
    | some i => rfl
    | none => rfl
  | cons r rest ih =>
    intro m k
    rw [List.foldl_cons]
    by_cases halb : r.album = ""
    · have hstep : buildStep m r = m := by simp [buildStep, halb]
      rw [hstep, ih m k]
      have hgm : groupMembers (r :: rest) k = groupMembers rest k := by
        simp [groupMembers, List.filter_cons, halb]
      rw [hgm]
    · by_cases hkey : r.groupKey = k
      · have hstep : buildStep m r = upsert m k {}
            (fun i => infoAdd i r.effectiveAlbumartist r.url r.compilationDetected) := by
          rw [buildStep, if_neg halb, hkey]
        rw [hstep, ih _ k]
        have hgm : groupMembers (r :: rest) k = r :: groupMembers rest k := by
          simp [groupMembers, List.filter_cons, halb, hkey]
        rw [hgm, lookup_upsert_same]
        cases hlk : List.lookup k m with
        | some i => rfl
        | none => rfl
      · have hstep : buildStep m r = upsert m r.groupKey {}
            (fun i => infoAdd i r.effectiveAlbumartist r.url r.compilationDetected) := by
          rw [buildStep, if_neg halb]
        rw [hstep, ih _ k]
        have hgm : groupMembers (r :: rest) k = groupMembers rest k := by
          simp [groupMembers, List.filter_cons, halb, hkey]
        rw [hgm, lookup_upsert_other _ _ _ _ _ (fun hEq => hkey hEq.symm)]

theorem build_keys_nodup : ∀ (rows : List Song) (m : List (String × CompilationInfo)),
    (m.map Prod.fst).Nodup → (((rows.foldl buildStep m)).map Prod.fst).Nodup := by
  intro rows
  induction rows with
  | nil => intro m h; exact h
  | cons r rest ih =>
    intro m h
    rw [List.foldl_cons]
    refine ih _ ?_
    unfold buildStep
    by_cases halb : r.album = ""
    · rw [if_pos halb]; exact h
    · rw [if_neg halb]
      exact upsert_keys_nodup _ _ _ h

theorem contAgg_urls : ∀ (l : List Song) (i : CompilationInfo),
    (contAgg i l).urls = i.urls ++ l.map Song.url := by
  intro l
  induction l with
  | nil => intro i; simp [contAgg]
  | cons r rest ih =>
    intro i
    show (contAgg (infoAdd i r.effectiveAlbumartist r.url r.compilationDetected) rest).urls = _
    rw [ih]
    simp [infoAdd]

theorem contAgg_has : ∀ (l : List Song) (i : CompilationInfo),
    (contAgg i l).hasCompilationDetected =
      i.hasCompilationDetected + (l.filter (fun r => r.compilationDetected)).length := by
  intro l
  induction l with
  | nil => intro i; simp [contAgg]
  | cons r rest ih =>
    intro i
    show (contAgg (infoAdd i r.effectiveAlbumartist r.url r.compilationDetected) rest).hasCompilationDetected = _
    rw [ih]
    cases hcd : r.compilationDetected with
    | true => simp [infoAdd, hcd, List.filter_cons]; omega
    | false => simp [infoAdd, hcd, List.filter_cons]

theorem contAgg_hasNot : ∀ (l : List Song) (i : CompilationInfo),
    (contAgg i l).hasNotCompilationDetected =
      i.hasNotCompilationDetected + (l.filter (fun r => !r.compilationDetected)).length := by
  intro l
  induction l with
  | nil => intro i; simp [contAgg]
  | cons r rest ih =>
    intro i
    show (contAgg (infoAdd i r.effectiveAlbumartist r.url r.compilationDetected) rest).hasNotCompilationDetected = _
    rw [ih]
    cases hcd : r.compilationDetected with
    | true => simp [infoAdd, hcd, List.filter_cons]
    | false => simp [infoAdd, hcd, List.filter_cons]; omega

theorem contAgg_artists_mem : ∀ (l : List Song) (i : CompilationInfo) (a : String),
    a ∈ (contAgg i l).artists ↔ a ∈ i.artists ∨ ∃ r ∈ l, r.effectiveAlbumartist = a := by
  intro l
  induction l with
  | nil => intro i a; simp [contAgg]
  | cons r rest ih =>
    intro i a
    show a ∈ (contAgg (infoAdd i r.effectiveAlbumartist r.url r.compilationDetected) rest).artists ↔ _
    rw [ih]
    unfold infoAdd
    by_cases hc : i.artists.contains r.effectiveAlbumartist = true
    · rw [if_pos hc]
      constructor
      · rintro (h | h)
        · exact Or.inl h
        · exact Or.inr (by obtain ⟨x, hx, he⟩ := h; exact ⟨x, by simp [hx], he⟩)
      · rintro (h | ⟨x, hx, he⟩)
        · exact Or.inl h
        · rcases List.mem_cons.mp hx with hx | hx
          · subst hx
            refine Or.inl ?_
            rw [← he]
            simpa using hc
          · exact Or.inr ⟨x, hx, he⟩
    · rw [if_neg hc]
      constructor
      · rintro (h | h)
        · rcases List.mem_append.mp h with h | h
          · exact Or.inl h
          · have : a = r.effectiveAlbumartist := by simpa using h
            exact Or.inr ⟨r, by simp, this.symm⟩
        · obtain ⟨x, hx, he⟩ := h
          exact Or.inr ⟨x, by simp [hx], he⟩
      · rintro (h | ⟨x, hx, he⟩)
        · exact Or.inl (List.mem_append.mpr (Or.inl h))
        · rcases List.mem_cons.mp hx with hx | hx
          · subst hx
            exact Or.inl (List.mem_append.mpr (Or.inr (by simp [he])))
          · exact Or.inr ⟨x, hx, he⟩

theorem contAgg_artists_nodup : ∀ (l : List Song) (i : CompilationInfo),
    i.artists.Nodup → (contAgg i l).artists.Nodup := by
  intro l
  induction l with
  | nil => intro i h; exact h
  | cons r rest ih =>
    intro i h
    show (contAgg (infoAdd i r.effectiveAlbumartist r.url r.compilationDetected) rest).artists.Nodup
    refine ih _ ?_
    unfold infoAdd
    by_cases hc : i.artists.contains r.effectiveAlbumartist = true
    · rw [if_pos hc]; exact h
    · rw [if_neg hc]
      rw [List.nodup_append]
      refine ⟨h, by simp, ?_⟩
      intro a ha
      simp only [List.mem_singleton]
      intro hEq
      subst hEq
      exact hc (by simpa using ha)

theorem nodup_one_lt_length {α : Type} {l : List α} {a b : α}
    (ha : a ∈ l) (hb : b ∈ l) (hne : a ≠ b) : 1 < l.length := by
  cases l with
  | nil => cases ha
  | cons x xs =>
    cases xs with
    | nil =>
      have ha' : a = x := by simpa using ha
      have hb' : b = x := by simpa using hb
      exact absurd (ha'.trans hb'.symm) hne
    | cons y ys => simp

theorem one_lt_length_nodup_two {α : Type} {l : List α} (hnd : l.Nodup)
    (hlen : 1 < l.length) : ∃ a ∈ l, ∃ b ∈ l, a ≠ b := by
  cases l with
  | nil => simp at hlen
  | cons x xs =>
    cases xs with
    | nil => simp at hlen
    | cons y ys =>
      refine ⟨x, by simp, y, by simp, ?_⟩
      simp only [List.nodup_cons] at hnd
      intro hEq
      exact hnd.1 (hEq ▸ List.mem_cons_self y ys)

theorem insertByAlbum_perm (r : Song) : ∀ (l : List Song),
    (insertByAlbum r l).Perm (r :: l) := by
  intro l
  induction l with
  | nil => exact List.Perm.refl _
  | cons x xs ih =>
    unfold insertByAlbum
    by_cases h : compare r.album x.album ≠ Ordering.lt
    · rw [if_pos h]
      exact (List.Perm.cons x ih).trans (List.Perm.swap r x xs)
    · rw [if_neg h]

theorem sortByAlbum_perm_gen : ∀ (rows acc : List Song),
    (rows.foldl (fun acc r => insertByAlbum r acc) acc).Perm (rows ++ acc) := by
  intro rows
  induction rows with
  | nil => intro acc; exact List.Perm.refl _
  | cons r rest ih =>
    intro acc
    rw [List.foldl_cons]
    exact ((ih (insertByAlbum r acc)).trans
      ((insertByAlbum_perm r acc).append_left rest)).trans List.perm_middle

theorem sortByAlbum_perm (rows : List Song) : (sortByAlbum rows).Perm rows := by
  have := sortByAlbum_perm_gen rows []
  simpa [sortByAlbum] using this

/-- The effect of one per-url UPDATE of the classifier on one row. -/
def applyUpd (r : Song) (uv : String × Bool) : Song :=
  if r.url == uv.1 && !r.unavailable then
    { r with compilationDetected := uv.2,
             compilationEffective := (r.compilation || uv.2 || r.compilationOn) && !r.compilationOff }
  else r

/-- The combined effect of the classifier's UPDATE sequence on one row. -/
def applyUpds (us : List (String × Bool)) (r : Song) : Song :=
  us.foldl applyUpd r

theorem updateCompilationsRows_eq_map (db : DB) (uv : String × Bool) :
    updateCompilationsRows db uv.1 uv.2 =
      { db with rows := db.rows.map (fun r => applyUpd r uv) } := rfl

theorem classifier_fold_db : ∀ (us : List (String × Bool)) (db : DB)
    (ds as : List Song),
    (us.foldl classifierStep (db, ds, as)).1 =
      { db with rows := db.rows.map (applyUpds us) } := by
  intro us
  induction us with
  | nil =>
    intro db ds as
    show db = { db with rows := db.rows.map (applyUpds []) }
    have h : db.rows.map (applyUpds []) = db.rows := List.map_id' db.rows
    rw [h]
  | cons uv rest ih =>
    intro db ds as
    rw [List.foldl_cons]
    show (rest.foldl classifierStep (updateCompilationsRows db uv.1 uv.2, _, _)).1 = _
    rw [ih]
    rw [updateCompilationsRows_eq_map]
    show ({ db with rows := (db.rows.map (fun r => applyUpd r uv)).map (applyUpds rest) } : DB) = _
    rw [List.map_map]
    rfl

theorem applyUpd_pres (r : Song) (uv : String × Bool) :
    (applyUpd r uv).url = r.url ∧ (applyUpd r uv).album = r.album ∧
    (applyUpd r uv).unavailable = r.unavailable ∧
    (applyUpd r uv).effectiveAlbumartist = r.effectiveAlbumartist ∧
    (applyUpd r uv).id = r.id := by
  unfold applyUpd
  by_cases h : (r.url == uv.1 && !r.unavailable) = true
  · rw [if_pos h]
    exact ⟨rfl, rfl, rfl, rfl, rfl⟩
  · rw [if_neg h]
    exact ⟨rfl, rfl, rfl, rfl, rfl⟩

theorem applyUpds_pres : ∀ (us : List (String × Bool)) (r : Song),
    (applyUpds us r).url = r.url ∧ (applyUpds us r).album = r.album ∧
    (applyUpds us r).unavailable = r.unavailable ∧
    (applyUpds us r).effectiveAlbumartist = r.effectiveAlbumartist ∧
    (applyUpds us r).id = r.id := by
  intro us
  induction us with
  | nil => intro r; exact ⟨rfl, rfl, rfl, rfl, rfl⟩
  | cons uv rest ih =>
    intro r
    show (applyUpds rest (applyUpd r uv)).url = r.url ∧ _
    obtain ⟨h1, h2, h3, h4, h5⟩ := ih (applyUpd r uv)
    obtain ⟨g1, g2, g3, g4, g5⟩ := applyUpd_pres r uv
    exact ⟨h1.trans g1, h2.trans g2, h3.trans g3, h4.trans g4, h5.trans g5⟩

theorem applyUpds_groupKey (us : List (String × Bool)) (r : Song) :
    (applyUpds us r).groupKey = r.groupKey := by
  obtain ⟨h1, h2, _, _, _⟩ := applyUpds_pres us r
  unfold Song.groupKey
  rw [h1, h2]

theorem applyUpds_unavail : ∀ (us : List (String × Bool)) (r : Song),
    r.unavailable = true → applyUpds us r = r := by
  intro us
  induction us with
  | nil => intro r _; rfl
  | cons uv rest ih =>
    intro r h
    show applyUpds rest (applyUpd r uv) = r
    have : applyUpd r uv = r := by
      unfold applyUpd
      rw [if_neg]
      rw [h]
      simp
    rw [this]
    exact ih r h

theorem applyUpds_nomatch : ∀ (us : List (String × Bool)) (r : Song),
    (∀ p ∈ us, p.1 ≠ r.url) → applyUpds us r = r := by
  intro us
  induction us with
  | nil => intro r _; rfl
  | cons uv rest ih =>
    intro r h
    show applyUpds rest (applyUpd r uv) = r
    have : applyUpd r uv = r := by
      unfold applyUpd
      rw [if_neg]
      have : (r.url == uv.1) = false := by
        simp only [beq_eq_false_iff_ne, ne_eq]
        exact fun hEq => h uv (by simp) hEq.symm
      rw [this]
      simp
    rw [this]
    exact ih r (fun p hp => h p (by simp [hp]))

theorem applyUpds_cd : ∀ (us : List (String × Bool)) (r : Song) (v : Bool),
    r.unavailable = false →
    (∀ p ∈ us, p.1 = r.url → p.2 = v) →
    (r.compilationDetected = v ∨ ∃ p ∈ us, p.1 = r.url) →
    (applyUpds us r).compilationDetected = v := by
  intro us
  induction us with
  | nil =>
    intro r v _ _ h
    rcases h with h | ⟨p, hp, _⟩
    · exact h
    · cases hp
  | cons uv rest ih =>
    intro r v hav hall h
    show (applyUpds rest (applyUpd r uv)).compilationDetected = v
    by_cases hm : uv.1 = r.url
    · have hv : uv.2 = v := hall uv (by simp) hm
      have hstep : applyUpd r uv =
          { r with compilationDetected := uv.2,
                   compilationEffective := (r.compilation || uv.2 || r.compilationOn) && !r.compilationOff } := by
        unfold applyUpd
        rw [if_pos]
        rw [hm, hav]
        simp
      rw [hstep]
      refine ih _ v hav ?_ ?_
      · intro p hp hpe
        exact hall p (by simp [hp]) hpe
      · refine Or.inl ?_
        show uv.2 = v
        exact hv
    · have hstep : applyUpd r uv = r := by
        unfold applyUpd
        rw [if_neg]
        have : (r.url == uv.1) = false := by
          simp only [beq_eq_false_iff_ne, ne_eq]
          exact fun hEq => hm hEq.symm
        rw [this]
        simp
      rw [hstep]
      refine ih r v hav (fun p hp hpe => hall p (by simp [hp]) hpe) ?_
      rcases h with h | ⟨p, hp, hpe⟩
      · exact Or.inl h
      · rcases List.mem_cons.mp hp with hp | hp
        · exact absurd (hp ▸ hpe) hm
        · exact Or.inr ⟨p, hp, hpe⟩

theorem classifierUpdates_cons (q : String × CompilationInfo)
    (rest : List (String × CompilationInfo)) :
    classifierUpdates (q :: rest) =
      (if q.2.artists.length > 1 then
        if q.2.hasNotCompilationDetected > 0 then q.2.urls.map (fun u => (u, true)) else []
      else
        if q.2.hasCompilationDetected > 0 then q.2.urls.map (fun u => (u, false)) else []) ++
      classifierUpdates rest := by
  unfold classifierUpdates
  rw [List.flatMap_cons]

theorem mem_classifierUpdates {infos : List (String × CompilationInfo)} {u : String}
    {v : Bool} :
    (u, v) ∈ classifierUpdates infos ↔ ∃ q ∈ infos, u ∈ q.2.urls ∧
      ((1 < q.2.artists.length ∧ 0 < q.2.hasNotCompilationDetected ∧ v = true) ∨
       (¬ 1 < q.2.artists.length ∧ 0 < q.2.hasCompilationDetected ∧ v = false)) := by
  unfold classifierUpdates
  rw [List.mem_flatMap]
  constructor
  · rintro ⟨q, hq, hmem⟩
    refine ⟨q, hq, ?_⟩
    by_cases h1 : q.2.artists.length > 1
    · rw [if_pos h1] at hmem
      by_cases h2 : q.2.hasNotCompilationDetected > 0
      · rw [if_pos h2] at hmem
        obtain ⟨u', hu', he⟩ := List.mem_map.mp hmem
        cases he
        exact ⟨hu', Or.inl ⟨h1, h2, rfl⟩⟩
      · rw [if_neg h2] at hmem
        cases hmem
    · rw [if_neg h1] at hmem
      by_cases h2 : q.2.hasCompilationDetected > 0
      · rw [if_pos h2] at hmem
        obtain ⟨u', hu', he⟩ := List.mem_map.mp hmem
        cases he
        exact ⟨hu', Or.inr ⟨h1, h2, rfl⟩⟩
      · rw [if_neg h2] at hmem
        cases hmem
  · rintro ⟨q, hq, hu, hcase⟩
    refine ⟨q, hq, ?_⟩
    rcases hcase with ⟨h1, h2, hv⟩ | ⟨h1, h2, hv⟩
    · rw [if_pos h1, if_pos h2]
      subst hv
      exact List.mem_map.mpr ⟨u, hu, rfl⟩
    · rw [if_neg h1, if_pos h2]
      subst hv
      exact List.mem_map.mpr ⟨u, hu, rfl⟩

theorem classifierUpdates_eq_nil : ∀ (infos : List (String × CompilationInfo)),
    (∀ q ∈ infos, (1 < q.2.artists.length → q.2.hasNotCompilationDetected = 0) ∧
        (¬ 1 < q.2.artists.length → q.2.hasCompilationDetected = 0)) →
    classifierUpdates infos = [] := by
  intro infos
  induction infos with
  | nil => intro _; rfl
  | cons q rest ih =>
    intro h
    rw [classifierUpdates_cons]
    have hq := h q (by simp)
    have hbranch : (if q.2.artists.length > 1 then
        if q.2.hasNotCompilationDetected > 0 then q.2.urls.map (fun u => (u, true)) else []
      else
        if q.2.hasCompilationDetected > 0 then q.2.urls.map (fun u => (u, false)) else []) = [] := by
      by_cases h1 : q.2.artists.length > 1
      · rw [if_pos h1, if_neg]
        rw [hq.1 h1]
        simp
      · rw [if_neg h1, if_neg]
        rw [hq.2 h1]
        simp
    rw [hbranch, List.nil_append]
    exact ih (fun q' hq' => h q' (by simp [hq']))

theorem lookup_mem {α : Type} : ∀ {l : List (String × α)} {k : String} {v : α},
    List.lookup k l = some v → (k, v) ∈ l := by
  intro l
  induction l with
  | nil => intro k v h; simp at h
  | cons p rest ih =>
    intro k v h
    rw [List.lookup_cons] at h
    by_cases hk : (k == p.1) = true
    · rw [hk] at h
      simp only [Option.some.injEq] at h
      have : p = (k, v) := by
        cases p
        simp only [Prod.mk.injEq]
        exact ⟨(eq_of_beq hk).symm, h⟩
      rw [← this]
      simp
    · rw [Bool.not_eq_true] at hk
      rw [hk] at h
      exact List.mem_cons.mpr (Or.inr (ih h))

theorem mem_groupMembers {rows : List Song} {k : String} {r : Song} :
    r ∈ groupMembers rows k ↔ r ∈ rows ∧ r.album ≠ "" ∧ r.groupKey = k := by
  simp [groupMembers, List.mem_filter, and_assoc]

theorem infos_entry_spec {rows : List Song} {q : String × CompilationInfo}
    (hq : q ∈ buildCompilationInfo rows) :
    q.2 = contAgg {} (groupMembers rows q.1) ∧ groupMembers rows q.1 ≠ [] := by
  have hnd : ((buildCompilationInfo rows).map Prod.fst).Nodup := by
    rw [buildCompilationInfo_eq_foldl]
    exact build_keys_nodup rows [] (by simp)
  have hlk : List.lookup q.1 (buildCompilationInfo rows) = some q.2 :=
    mem_lookup_of_nodup_keys hnd (by cases q; exact hq)
  rw [buildCompilationInfo_eq_foldl, build_lookup rows [] q.1] at hlk
  cases hm : groupMembers rows q.1 with
  | nil =>
    rw [hm] at hlk
    simp at hlk
  | cons x xs =>
    rw [hm] at hlk
    simp only [List.lookup_nil, Option.some.injEq] at hlk
    exact ⟨hlk.symm, by simp⟩

theorem infos_entry_exists {rows : List Song} {k : String}
    (h : groupMembers rows k ≠ []) :
    (k, contAgg {} (groupMembers rows k)) ∈ buildCompilationInfo rows := by
  refine lookup_mem ?_
  rw [buildCompilationInfo_eq_foldl, build_lookup rows [] k]
  cases hm : groupMembers rows k with
  | nil => exact absurd hm h
  | cons x xs =>
    rw [List.lookup_nil, ← hm]
    rw [hm]

theorem contAgg_hasNot_zero {l : List Song} :
    (contAgg {} l).hasNotCompilationDetected = 0 ↔
      ∀ r ∈ l, r.compilationDetected = true := by
  rw [contAgg_hasNot]
  simp only [Nat.zero_add, List.length_eq_zero, List.filter_eq_nil_iff]
  constructor
  · intro h r hr
    have := h r hr
    simpa using this
  · intro h r hr
    simp [h r hr]

theorem contAgg_has_zero {l : List Song} :
    (contAgg {} l).hasCompilationDetected = 0 ↔
      ∀ r ∈ l, r.compilationDetected = false := by
  rw [contAgg_has]
  simp only [Nat.zero_add, List.length_eq_zero, List.filter_eq_nil_iff]
  constructor
  · intro h r hr
    have := h r hr
    simpa using this
  · intro h r hr
    simp [h r hr]

theorem multi_iff {rows : List Song} {k : String} :
    1 < (contAgg {} (groupMembers rows k)).artists.length ↔
      ∃ r1 ∈ groupMembers rows k, ∃ r2 ∈ groupMembers rows k,
        r1.effectiveAlbumartist ≠ r2.effectiveAlbumartist := by
  constructor
  · intro h
    obtain ⟨a, ha, b, hb, hab⟩ :=
      one_lt_length_nodup_two (contAgg_artists_nodup _ {} (by simp)) h
    obtain ⟨r1, hr1, he1⟩ : ∃ r ∈ groupMembers rows k, r.effectiveAlbumartist = a := by
      rcases (contAgg_artists_mem _ {} a).mp ha with h | h
      · simp at h
      · exact h
    obtain ⟨r2, hr2, he2⟩ : ∃ r ∈ groupMembers rows k, r.effectiveAlbumartist = b := by
      rcases (contAgg_artists_mem _ {} b).mp hb with h | h
      · simp at h
      · exact h
    exact ⟨r1, hr1, r2, hr2, by rw [he1, he2]; exact hab⟩
  · rintro ⟨r1, hr1, r2, hr2, hne⟩
    refine nodup_one_lt_length (a := r1.effectiveAlbumartist) (b := r2.effectiveAlbumartist)
      ?_ ?_ hne
    · exact (contAgg_artists_mem _ {} _).mpr (Or.inr ⟨r1, hr1, rfl⟩)
    · exact (contAgg_artists_mem _ {} _).mpr (Or.inr ⟨r2, hr2, rfl⟩)

/-- The selected-and-sorted row list of one classifier pass. -/
def c4Rows (db : DB) : List Song := sortByAlbum db.availRows

/-- The full per-url UPDATE sequence of one classifier pass. -/
def c4Updates (db : DB) : List (String × Bool) :=
  classifierUpdates (buildCompilationInfo (c4Rows db))

/-- A store where the grouping key (directory, album) is a function of the
url: available rows sharing one url agree on the album.  A CUE sheet
carrying two albums violates this (see the C4 counterexample). -/
def urlCoherent (db : DB) : Prop :=
  ∀ r1 ∈ db.rows, ∀ r2 ∈ db.rows, r1.unavailable = false → r2.unavailable = false →
    r1.url = r2.url → r1.album = r2.album

theorem compilationsNeedUpdating_db (db : DB) :
    (compilationsNeedUpdating db).1 =
      { db with rows := db.rows.map (applyUpds (c4Updates db)) } := by
  show ((c4Updates db).foldl classifierStep (db, [], [])).1 = _
  exact classifier_fold_db _ db [] []

theorem c4_match_value {db : DB} (hcoh : urlCoherent db) {r : Song} {v' : Bool}
    (hr : r ∈ db.availRows) (halb : r.album ≠ "")
    (hm : (r.url, v') ∈ c4Updates db) :
    (1 < (contAgg {} (groupMembers (c4Rows db) r.groupKey)).artists.length ∧
     0 < (contAgg {} (groupMembers (c4Rows db) r.groupKey)).hasNotCompilationDetected ∧
     v' = true) ∨
    (¬ 1 < (contAgg {} (groupMembers (c4Rows db) r.groupKey)).artists.length ∧
     0 < (contAgg {} (groupMembers (c4Rows db) r.groupKey)).hasCompilationDetected ∧
     v' = false) := by
  obtain ⟨q, hq, hurl, hbranch⟩ := mem_classifierUpdates.mp hm
  obtain ⟨hq2, hne⟩ := infos_entry_spec hq
  rw [hq2, contAgg_urls] at hurl
  rw [show (({} : CompilationInfo)).urls = [] from rfl, List.nil_append] at hurl
  obtain ⟨r', hr', hur⟩ := List.mem_map.mp hurl
  obtain ⟨hr'rows, halb', hkey'⟩ := mem_groupMembers.mp hr'
  have hr'avail : r' ∈ db.availRows := ((sortByAlbum_perm db.availRows).mem_iff).mp hr'rows
  have hkey : q.1 = r.groupKey := by
    rw [← hkey']
    have hra := mem_availRows.mp hr'avail
    have hrb := mem_availRows.mp hr
    have halbeq : r'.album = r.album := hcoh r' hra.1 r hrb.1 hra.2 hrb.2 hur
    unfold Song.groupKey
    rw [hur, halbeq]
  rw [hq2, hkey] at hbranch
  exact hbranch

theorem c4_match_exists {db : DB} {r : Song} {v : Bool}
    (hr : r ∈ db.availRows) (halb : r.album ≠ "")
    (hcase : (1 < (contAgg {} (groupMembers (c4Rows db) r.groupKey)).artists.length ∧
        0 < (contAgg {} (groupMembers (c4Rows db) r.groupKey)).hasNotCompilationDetected ∧
        v = true) ∨
      (¬ 1 < (contAgg {} (groupMembers (c4Rows db) r.groupKey)).artists.length ∧
        0 < (contAgg {} (groupMembers (c4Rows db) r.groupKey)).hasCompilationDetected ∧
        v = false)) :
    (r.url, v) ∈ c4Updates db := by
  have hmem : r ∈ groupMembers (c4Rows db) r.groupKey :=
    mem_groupMembers.mpr ⟨((sortByAlbum_perm db.availRows).mem_iff).mpr hr, halb, rfl⟩
  refine mem_classifierUpdates.mpr
    ⟨(r.groupKey, contAgg {} (groupMembers (c4Rows db) r.groupKey)),
     infos_entry_exists (List.ne_nil_of_mem hmem), ?_, hcase⟩
  show r.url ∈ (contAgg {} (groupMembers (c4Rows db) r.groupKey)).urls
  rw [contAgg_urls, show (({} : CompilationInfo)).urls = [] from rfl, List.nil_append]
  exact List.mem_map.mpr ⟨r, hmem, rfl⟩

theorem c4_post {db : DB} (hcoh : urlCoherent db) {r : Song}
    (hr : r ∈ db.availRows) (halb : r.album ≠ "") :
    (applyUpds (c4Updates db) r).compilationDetected = true ↔
      1 < (contAgg {} (groupMembers (c4Rows db) r.groupKey)).artists.length := by
  have hav : r.unavailable = false := (mem_availRows.mp hr).2
  have hmem : r ∈ groupMembers (c4Rows db) r.groupKey :=
    mem_groupMembers.mpr ⟨((sortByAlbum_perm db.availRows).mem_iff).mpr hr, halb, rfl⟩
  by_cases hm : 1 < (contAgg {} (groupMembers (c4Rows db) r.groupKey)).artists.length
  · refine iff_of_true ?_ hm
    by_cases hn : 0 < (contAgg {} (groupMembers (c4Rows db) r.groupKey)).hasNotCompilationDetected
    · refine applyUpds_cd _ r true hav ?_
        (Or.inr ⟨(r.url, true), c4_match_exists hr halb (Or.inl ⟨hm, hn, rfl⟩), rfl⟩)
      intro p hp hpe
      have hp' : (r.url, p.2) ∈ c4Updates db := by
        rw [← hpe]
        exact hp
      rcases c4_match_value hcoh hr halb hp' with ⟨_, _, hv⟩ | ⟨hnm, _, _⟩
      · exact hv
      · exact absurd hm hnm
    · have hrcd : r.compilationDetected = true := by
        have h0 : (contAgg {} (groupMembers (c4Rows db) r.groupKey)).hasNotCompilationDetected
            = 0 := by omega
        exact (contAgg_hasNot_zero.mp h0) r hmem
      refine applyUpds_cd _ r true hav ?_ (Or.inl hrcd)
      intro p hp hpe
      have hp' : (r.url, p.2) ∈ c4Updates db := by
        rw [← hpe]
        exact hp
      rcases c4_match_value hcoh hr halb hp' with ⟨_, hn', _⟩ | ⟨hnm, _, _⟩
      · exact absurd hn' hn
      · exact absurd hm hnm
  · have hcd : (applyUpds (c4Updates db) r).compilationDetected = false := by
      by_cases hn : 0 < (contAgg {} (groupMembers (c4Rows db) r.groupKey)).hasCompilationDetected
      · refine applyUpds_cd _ r false hav ?_
          (Or.inr ⟨(r.url, false), c4_match_exists hr halb (Or.inr ⟨hm, hn, rfl⟩), rfl⟩)
        intro p hp hpe
        have hp' : (r.url, p.2) ∈ c4Updates db := by
          rw [← hpe]
          exact hp
        rcases c4_match_value hcoh hr halb hp' with ⟨hm', _, _⟩ | ⟨_, _, hv⟩
        · exact absurd hm' hm
        · exact hv
      · have hrcd : r.compilationDetected = false := by
          have h0 : (contAgg {} (groupMembers (c4Rows db) r.groupKey)).hasCompilationDetected
              = 0 := by omega
          exact (contAgg_has_zero.mp h0) r hmem
        refine applyUpds_cd _ r false hav ?_ (Or.inl hrcd)
        intro p hp hpe
        have hp' : (r.url, p.2) ∈ c4Updates db := by
          rw [← hpe]
          exact hp
        rcases c4_match_value hcoh hr halb hp' with ⟨hm', _, _⟩ | ⟨_, hn', _⟩
        · exact absurd hm' hm
        · exact absurd hn' hn
    rw [hcd]
    exact iff_of_false Bool.false_ne_true hm

theorem c4_nop {db : DB}
    (h : ∀ r ∈ db.availRows, r.album ≠ "" →
      (r.compilationDetected = true ↔
        1 < (contAgg {} (groupMembers (c4Rows db) r.groupKey)).artists.length)) :
    compilationsNeedUpdating db = (db, [], []) := by
  have hus : c4Updates db = [] := by
    refine classifierUpdates_eq_nil _ ?_
    intro q hq
    obtain ⟨hq2, hne⟩ := infos_entry_spec hq
    constructor
    · intro h1
      rw [hq2] at h1 ⊢
      refine contAgg_hasNot_zero.mpr ?_
      intro r hrm
      obtain ⟨hrrows, halb, hkey⟩ := mem_groupMembers.mp hrm
      have hravail := (sortByAlbum_perm db.availRows).mem_iff.mp hrrows
      refine (h r hravail halb).mpr ?_
      rw [hkey]
      exact h1
    · intro h1
      rw [hq2] at h1 ⊢
      refine contAgg_has_zero.mpr ?_
      intro r hrm
      obtain ⟨hrrows, halb, hkey⟩ := mem_groupMembers.mp hrm
      have hravail := (sortByAlbum_perm db.availRows).mem_iff.mp hrrows
      cases hcd : r.compilationDetected with
      | false => rfl
      | true =>
        exfalso
        apply h1
        have hmult := (h r hravail halb).mp hcd
        rw [hkey] at hmult
        exact hmult
  show ((c4Updates db).foldl classifierStep (db, [], [])) = (db, [], [])
  rw [hus]
  rfl

theorem filter_map_comm {f : Song → Song} {p : Song → Bool}
    (hp : ∀ r, p (f r) = p r) : ∀ (l : List Song),
    (l.map f).filter p = (l.filter p).map f := by
  intro l
  induction l with
  | nil => rfl
  | cons r rest ih =>
    rw [List.map_cons, List.filter_cons, List.filter_cons, hp r]
    cases hpr : p r with
    | true => rw [if_pos rfl, if_pos rfl, List.map_cons, ih]
    | false => rw [if_neg (by simp), if_neg (by simp)]; exact ih

/-- The classifier's decision data for group key `k`, read off the store:
does the group of available non-empty-album rows filed under `k` contain
two members with different effective album artists? -/
def multiArtistGroup (db : DB) (k : String) : Prop :=
  ∃ r1 ∈ groupMembers db.availRows k, ∃ r2 ∈ groupMembers db.availRows k,
    r1.effectiveAlbumartist ≠ r2.effectiveAlbumartist

theorem multi_bridge (db : DB) (k : String) :
    1 < (contAgg {} (groupMembers (c4Rows db) k)).artists.length ↔
      multiArtistGroup db k := by
  rw [multi_iff]
  have hperm : (groupMembers (c4Rows db) k).Perm (groupMembers db.availRows k) :=
    (sortByAlbum_perm db.availRows).filter _
  unfold multiArtistGroup
  constructor
  · rintro ⟨r1, h1, r2, h2, hne⟩
    exact ⟨r1, hperm.mem_iff.mp h1, r2, hperm.mem_iff.mp h2, hne⟩
  · rintro ⟨r1, h1, r2, h2, hne⟩
    exact ⟨r1, hperm.mem_iff.mpr h1, r2, hperm.mem_iff.mpr h2, hne⟩

theorem multiArtistGroup_map (db : DB) (F : Song → Song)
    (hpres : ∀ r : Song, (F r).url = r.url ∧ (F r).album = r.album ∧
      (F r).unavailable = r.unavailable ∧
      (F r).effectiveAlbumartist = r.effectiveAlbumartist) (k : String) :
    multiArtistGroup { db with rows := db.rows.map F } k ↔ multiArtistGroup db k := by
  have hkeyF : ∀ r : Song, (F r).groupKey = r.groupKey := by
    intro r
    unfold Song.groupKey
    rw [(hpres r).1, (hpres r).2.1]
  have hav : ({ db with rows := db.rows.map F } : DB).availRows = db.availRows.map F := by
    show (db.rows.map F).filter _ = (db.rows.filter _).map F
    exact filter_map_comm (fun r => by rw [(hpres r).2.2.1]) _
  have hgm : groupMembers (db.availRows.map F) k = (groupMembers db.availRows k).map F :=
    filter_map_comm (fun r => by rw [(hpres r).2.1, hkeyF r]) _
  unfold multiArtistGroup
  rw [hav, hgm]
  constructor
  · rintro ⟨r1, h1, r2, h2, hne⟩
    obtain ⟨s1, hs1, he1⟩ := List.mem_map.mp h1
    obtain ⟨s2, hs2, he2⟩ := List.mem_map.mp h2
    refine ⟨s1, hs1, s2, hs2, ?_⟩
    intro hEq
    apply hne
    rw [← he1, ← he2, (hpres s1).2.2.2, (hpres s2).2.2.2]
    exact hEq
  · rintro ⟨r1, h1, r2, h2, hne⟩
    refine ⟨F r1, List.mem_map.mpr ⟨r1, h1, rfl⟩, F r2, List.mem_map.mpr ⟨r2, h2, rfl⟩, ?_⟩
    rw [(hpres r1).2.2.2, (hpres r2).2.2.2]
    exact hne

set_option maxHeartbeats 1000000 in
/-- C4 (amended): on a store where available rows sharing a url agree on
the album (so the per-url UPDATE cannot cross group boundaries), one
classifier pass leaves every available row with a non-empty album carrying
`compilation_detected = true` exactly when its (directory, album) group
holds more than one distinct effective album artist; a second consecutive
run changes nothing and emits an empty delta; and a store already in the
correct state is returned unchanged with an empty delta.  Without the
url-coherence hypothesis the claim fails (see the C4 counterexample, where
one CUE-sheet url hosts two albums). -/
theorem c4_amended_classifier (db : DB) (hcoh : urlCoherent db) :
    (∀ r ∈ (compilationsNeedUpdating db).1.availRows, r.album ≠ "" →
      (r.compilationDetected = true ↔ multiArtistGroup db r.groupKey)) ∧
    compilationsNeedUpdating (compilationsNeedUpdating db).1 =
      ((compilationsNeedUpdating db).1, [], []) ∧
    ((∀ r ∈ db.availRows, r.album ≠ "" →
        (r.compilationDetected = true ↔ multiArtistGroup db r.groupKey)) →
      compilationsNeedUpdating db = (db, [], [])) := by
  have hpres : ∀ r : Song, ((applyUpds (c4Updates db) r).url = r.url ∧
      (applyUpds (c4Updates db) r).album = r.album ∧
      (applyUpds (c4Updates db) r).unavailable = r.unavailable ∧
      (applyUpds (c4Updates db) r).effectiveAlbumartist = r.effectiveAlbumartist) := by
    intro r
    obtain ⟨h1, h2, h3, h4, _⟩ := applyUpds_pres (c4Updates db) r
    exact ⟨h1, h2, h3, h4⟩
  have hdb' := compilationsNeedUpdating_db db
  have hav : (compilationsNeedUpdating db).1.availRows =
      db.availRows.map (applyUpds (c4Updates db)) := by
    rw [hdb']
    show (db.rows.map _).filter _ = (db.rows.filter _).map _
    exact filter_map_comm (fun r => by rw [(hpres r).2.2.1]) _
  have hpost1 : ∀ r ∈ (compilationsNeedUpdating db).1.availRows, r.album ≠ "" →
      (r.compilationDetected = true ↔ multiArtistGroup db r.groupKey) := by
    intro r' hr' halb'
    rw [hav] at hr'
    obtain ⟨r, hr, he⟩ := List.mem_map.mp hr'
    have halb : r.album ≠ "" := by
      rw [← (hpres r).2.1, he]
      exact halb'
    rw [← he, applyUpds_groupKey _ r]
    exact (c4_post hcoh hr halb).trans (multi_bridge db r.groupKey)
  refine ⟨hpost1, ?_, ?_⟩
  · refine c4_nop ?_
    intro r' hr' halb'
    have h1 := hpost1 r' hr' halb'
    rw [multi_bridge (compilationsNeedUpdating db).1 r'.groupKey, hdb',
      multiArtistGroup_map db (applyUpds (c4Updates db)) hpres r'.groupKey]
    exact h1
  · intro hcorrect
    refine c4_nop ?_
    intro r hr halb
    rw [multi_bridge db r.groupKey]
    exact hcorrect r hr halb

theorem c4_amended_classifier_witness :
    compilationsNeedUpdating
        (compilationsNeedUpdating { rows := [c4s1, c4s2], nextId := 3 }).1 =
      ((compilationsNeedUpdating { rows := [c4s1, c4s2], nextId := 3 }).1, [], []) :=
  (c4_amended_classifier { rows := [c4s1, c4s2], nextId := 3 }
    (by unfold urlCoherent; decide)).2.1

/-! ## Claim C7 -/

/-- The single record of the C7 counterexample (Year grouping). -/
def c7ys : Song := { id := 1, year := 1975, title := "t", url := "/u" }

/-- Counterexample to C7 as stated: under Year grouping the container's
sort text is prefixed with its divider key at creation ("1970 1975 "), so
when the container is pruned `DividerKey` re-reads `sort_text.toInt()`,
which fails on the embedded space and yields the "0000" bucket; the
recorded key misses the registered divider and the divider survives even
though no top-level container remains at all — refuting "deleted exactly
when no surviving top-level Container maps to the same divider key". -/
theorem c7_counterexample :
    (songsDeleted { groupBy0 := GroupBy.year }
      (songsDiscovered { groupBy0 := GroupBy.year } {} [c7ys]) [c7ys]).containerNodes0 = [] ∧
    (songsDeleted { groupBy0 := GroupBy.year }
      (songsDiscovered { groupBy0 := GroupBy.year } {} [c7ys]) [c7ys]).dividerNodes ≠ [] := by
  decide

theorem filter_ne_head {sns : List (Int × Nat)} {i : Int} {n : Nat}
    (h : i ∉ sns.map Prod.fst) :
    ((i, n) :: sns).filter (fun q => !(q.1 == i)) = sns := by
  rw [List.filter_cons]
  rw [if_neg (by simp)]
  refine List.filter_eq_self.mpr ?_
  intro q hq
  simp only [Bool.not_eq_eq_eq_not, Bool.not_true, beq_eq_false_iff_ne, ne_eq]
  intro hEq
  exact h (List.mem_map.mpr ⟨q, hq, hEq⟩)

theorem removeSongNode_found (st : ModelState) (parents : List Nat) (s : Song) (nid : Nat)
    (hlk : List.lookup s.id st.songNodes = some nid) :
    removeSongNode (st, parents) s =
      ({ detach st nid with
          songNodes := (detach st nid).songNodes.filter (fun q => !(q.1 == s.id)) },
        if (st.item nid).parent.getD 0 ≠ 0 &&
            !(parents.contains ((st.item nid).parent.getD 0)) then
          parents ++ [(st.item nid).parent.getD 0]
        else parents) := by
  simp only [removeSongNode, hlk]

theorem c7_remove_fold (c : Nat) (cont0 : Item) :
    ∀ (sns1 : List (Int × Nat)) (songs : List Song) (sns2 : List (Int × Nat))
      (st : ModelState) (parents : List Nat),
      songs.map Song.id = sns1.map Prod.fst →
      st.songNodes = sns1 ++ sns2 →
      (((sns1 ++ sns2).map Prod.fst)).Nodup →
      st.item c = { cont0 with children := (sns1 ++ sns2).map Prod.snd } →
      c < st.items.length → c ≠ 0 →
      (∀ p ∈ sns1 ++ sns2, (st.item p.2).parent = some c ∧ p.2 ≠ c) →
      (parents = [] ∨ parents = [c]) →
      (songs.foldl removeSongNode (st, parents)).1.songNodes = sns2 ∧
      (songs.foldl removeSongNode (st, parents)).1.item c =
        { cont0 with children := sns2.map Prod.snd } ∧
      (∀ j, j ≠ c → (songs.foldl removeSongNode (st, parents)).1.item j = st.item j) ∧
      (songs.foldl removeSongNode (st, parents)).1.containerNodes0 = st.containerNodes0 ∧
      (songs.foldl removeSongNode (st, parents)).1.containerNodes1 = st.containerNodes1 ∧
      (songs.foldl removeSongNode (st, parents)).1.containerNodes2 = st.containerNodes2 ∧
      (songs.foldl removeSongNode (st, parents)).1.dividerNodes = st.dividerNodes ∧
      (songs.foldl removeSongNode (st, parents)).1.items.length = st.items.length ∧
      (songs.foldl removeSongNode (st, parents)).2 =
        (if sns1 = [] then parents else [c]) := by
  intro sns1
  induction sns1 with
  | nil =>
    intro songs sns2 st parents hid hsn hnd hitem hc hc0 hpar hp
    have hsongs : songs = [] := by
      cases songs with
      | nil => rfl
      | cons s ss => simp at hid
    subst hsongs
    exact ⟨by simpa using hsn, by simpa using hitem, fun j _ => rfl, rfl, rfl, rfl, rfl, rfl,
      by simp⟩
  | cons hd rest ih =>
    intro songs sns2 st parents hid hsn hnd hitem hc hc0 hpar hp
    cases songs with
    | nil => simp at hid
    | cons s ss =>
      simp only [List.map_cons, List.cons.injEq] at hid
      obtain ⟨hsid, hssid⟩ := hid
      rw [List.foldl_cons]
      have hlk : List.lookup s.id st.songNodes = some hd.2 := by
        rw [hsn, hsid]
        cases hd with
        | mk i n => simp [List.lookup_cons]
      have hnp : (st.item hd.2).parent = some c ∧ hd.2 ≠ c :=
        hpar hd (by simp)
      have hgetd : (st.item hd.2).parent.getD 0 = c := by
        rw [hnp.1]
        rfl
      have hdet : detach st hd.2 =
          st.setItem c { cont0 with children := (rest ++ sns2).map Prod.snd } := by
        unfold detach
        rw [hnp.1]
        dsimp only
        rw [hitem]
        have herase : ((hd :: (rest ++ sns2)).map Prod.snd).erase hd.2
            = (rest ++ sns2).map Prod.snd := by
          rw [List.map_cons, List.erase_cons_head]
        show st.setItem c { cont0 with
          children := ((hd :: (rest ++ sns2)).map Prod.snd).erase hd.2 } = _
        rw [herase]
      have hfilter : st.songNodes.filter (fun q => !(q.1 == s.id)) = rest ++ sns2 := by
        rw [hsn, hsid]
        have hnd2 : ((hd :: (rest ++ sns2)).map Prod.fst).Nodup := hnd
        rw [List.map_cons] at hnd2
        have hnotin : hd.1 ∉ (rest ++ sns2).map Prod.fst := (List.nodup_cons.mp hnd2).1
        cases hd with
        | mk i n => exact filter_ne_head hnotin
      have hparents2 :
          (if (st.item hd.2).parent.getD 0 ≠ 0 &&
              !(parents.contains ((st.item hd.2).parent.getD 0)) then
            parents ++ [(st.item hd.2).parent.getD 0]
          else parents) = [c] := by
        rw [hgetd]
        rcases hp with hp | hp
        · subst hp
          rw [if_pos (by simp [hc0])]
          rfl
        · subst hp
          rw [if_neg (by simp)]
      have hstep : removeSongNode (st, parents) s =
          ({ st.setItem c { cont0 with children := (rest ++ sns2).map Prod.snd } with
              songNodes := rest ++ sns2 }, [c]) := by
        rw [removeSongNode_found st parents s hd.2 hlk, hparents2, hdet]
        have : (st.setItem c
            { cont0 with children := (rest ++ sns2).map Prod.snd }).songNodes.filter
              (fun q => !(q.1 == s.id)) = rest ++ sns2 := by
          show st.songNodes.filter (fun q => !(q.1 == s.id)) = rest ++ sns2
          exact hfilter
        rw [this]
      rw [hstep]
      have hres := ih ss sns2
        ({ st.setItem c { cont0 with children := (rest ++ sns2).map Prod.snd } with
            songNodes := rest ++ sns2 }) [c] hssid rfl
        (by
          have hnd2 : ((hd :: (rest ++ sns2)).map Prod.fst).Nodup := hnd
          rw [List.map_cons] at hnd2
          exact (List.nodup_cons.mp hnd2).2)
        (by
          show (st.setItem c { cont0 with children := (rest ++ sns2).map Prod.snd }).item c = _
          exact item_setItem_self _ _ _ hc)
        (by
          show c < (st.setItem c { cont0 with
            children := (rest ++ sns2).map Prod.snd }).items.length
          simpa [ModelState.setItem] using hc)
        hc0
        (by
          intro p hpm
          have hporig := hpar p (by simp [hpm])
          constructor
          · show ((st.setItem c { cont0 with
              children := (rest ++ sns2).map Prod.snd }).item p.2).parent = some c
            rw [item_setItem_ne _ _ _ _ hporig.2]
            exact hporig.1
          · exact hporig.2)
        (Or.inr rfl)
      obtain ⟨r1, r2, r3, r4, r5, r6, r7, r8, r9⟩ := hres
      refine ⟨r1, r2, ?_, r4, r5, r6, r7, ?_, ?_⟩
      · intro j hj
        rw [r3 j hj]
        show (st.setItem c { cont0 with children := (rest ++ sns2).map Prod.snd }).item j
          = st.item j
        exact item_setItem_ne _ _ _ _ hj
      · rw [r8]
        show (st.setItem c { cont0 with
          children := (rest ++ sns2).map Prod.snd }).items.length = st.items.length
        simp [ModelState.setItem]
      · rw [r9]
        simp

theorem pruneLoop_nil (cfg : ModelConfig) (fuel : Nat) (st : ModelState)
    (dks : List String) :
    pruneLoop cfg (fuel + 1) st [] dks = (st, dks) := rfl

theorem pruneLoop_skip (cfg : ModelConfig) (fuel : Nat) (st : ModelState) (c : Nat)
    (h : (st.item c).children.length ≠ 0) :
    pruneLoop cfg (fuel + 1 + 1) st [c] [] = (st, []) := by
  unfold pruneLoop
  rw [if_pos h]
  exact pruneLoop_nil cfg fuel st []

theorem pruneLoop_last (cfg : ModelConfig) (st1 : ModelState) (c : Nat) (cont0 : Item)
    (fuel : Nat)
    (hitem : st1.item c = { cont0 with children := [] })
    (hcp : cont0.parent = some 0)
    (hlvl : cont0.containerLevel = 0)
    (hva : ((st1.item 0).compilationArtistNode == some c) = false) :
    pruneLoop cfg (fuel + 1 + 1) st1 [c] [] =
      (detach (st1.removeContainerNode 0 cont0.key) c,
       [dividerKey cfg.decomp cfg.groupBy0 cont0]) := by
  unfold pruneLoop
  rw [if_neg (by rw [hitem]; simp)]
  rw [hitem]
  dsimp only
  rw [hcp, hlvl]
  dsimp only [Option.getD]
  have hic : isCompilationArtistNodeB st1 c = false := by
    unfold isCompilationArtistNodeB
    rw [hitem]
    dsimp only
    rw [hcp]
    dsimp only [Option.getD]
    exact hva
  rw [if_neg (by rw [hic]; exact Bool.false_ne_true)]
  rw [if_neg (by decide)]
  rw [if_pos (by decide)]
  rw [if_neg (by exact Bool.false_ne_true)]
  have hdkc : dividerKey cfg.decomp cfg.groupBy0
      ({ typ := cont0.typ, key := cont0.key, displayText := cont0.displayText,
         sortText := cont0.sortText, containerLevel := 0, parent := some 0, children := [],
         compilationArtistNode := cont0.compilationArtistNode,
         metadata := cont0.metadata } : Item) =
      dividerKey cfg.decomp cfg.groupBy0 cont0 := by
    unfold dividerKey
    rfl
  rw [hdkc, List.nil_append]
  exact pruneLoop_nil cfg fuel _ _

theorem dividerSweep_last (cfg : ModelConfig) (st3 : ModelState) (dk : String) (d : Nat)
    (hdn : st3.dividerNodes = [(dk, d)])
    (hcn0 : st3.containerNodes0 = [])
    (hdp : (st3.item d).parent = some 0) :
    (dividerSweep cfg st3 [dk]).dividerNodes = [] ∧
    (dividerSweep cfg st3 [dk]).containerNodes0 = [] ∧
    (dividerSweep cfg st3 [dk]).songNodes = st3.songNodes ∧
    (dividerSweep cfg st3 [dk]).containerNodes1 = st3.containerNodes1 ∧
    (dividerSweep cfg st3 [dk]).containerNodes2 = st3.containerNodes2 := by
  unfold dividerSweep
  simp only [List.foldl_cons, List.foldl_nil]
  rw [hdn]
  have hlk : List.lookup dk [(dk, d)] = some d := by simp
  rw [hlk]
  dsimp only
  rw [show st3.containerNodesAt 0 = st3.containerNodes0 from rfl, hcn0]
  rw [if_neg (by exact Bool.false_ne_true)]
  have hdet : detach st3 d = st3.setItem 0 { st3.item 0 with
      children := (st3.item 0).children.erase d } := by
    unfold detach
    rw [hdp]
  rw [hdet]
  refine ⟨?_, ?_, ?_, ?_, ?_⟩
  · show st3.dividerNodes.filter (fun q => !(q.1 == dk)) = []
    rw [hdn]
    simp
  · exact hcn0
  · rfl
  · rfl
  · rfl

theorem songsDeleted_eq (cfg : ModelConfig) (st : ModelState) (songs : List Song) :
    songsDeleted cfg st songs =
      dividerSweep cfg
        (pruneLoop cfg ((songs.foldl removeSongNode (st, [])).1.items.length +
            (songs.foldl removeSongNode (st, [])).2.length + 1)
          (songs.foldl removeSongNode (st, [])).1
          (songs.foldl removeSongNode (st, [])).2 []).1
        (pruneLoop cfg ((songs.foldl removeSongNode (st, [])).1.items.length +
            (songs.foldl removeSongNode (st, [])).2.length + 1)
          (songs.foldl removeSongNode (st, [])).1
          (songs.foldl removeSongNode (st, [])).2 []).2 := rfl

set_option maxHeartbeats 1000000 in
/-- C7 (amended): Scenario C under an artist-like text grouping
(`album_artist` at level 0), stated over any index state of that shape:
one registered top-level container holding exactly the registered song
nodes as children, with its divider registered under the key its sort text
recomputes to.  Removing a batch that leaves at least one registered
record keeps the container (with the surviving children), its key-map
entry and its divider; removing a batch covering every registered record
detaches the container, erases its key-map entry, and deletes the divider.
The claim's blanket "a Divider is deleted exactly when no surviving
top-level Container maps to the same divider key" is refuted separately:
under Year grouping the divider-prefixed sort text no longer parses as a
number at deletion time, so the recorded key misses the divider map and a
stale divider survives (see the C7 counterexample). -/
theorem c7_amended_scenario_removal (cfg : ModelConfig) (st : ModelState) (c d : Nat)
    (cont0 : Item) (dk : String) (sns1 sns2 : List (Int × Nat)) (songs : List Song)
    (hid : songs.map Song.id = sns1.map Prod.fst)
    (hsn : st.songNodes = sns1 ++ sns2)
    (hnd : ((sns1 ++ sns2).map Prod.fst).Nodup)
    (hitem : st.item c = { cont0 with children := (sns1 ++ sns2).map Prod.snd })
    (hc : c < st.items.length) (hc0 : c ≠ 0)
    (hpar : ∀ p ∈ sns1 ++ sns2, (st.item p.2).parent = some c ∧ p.2 ≠ c)
    (hcn0 : st.containerNodes0 = [(cont0.key, c)])
    (hdn : st.dividerNodes = [(dk, d)])
    (hcp : cont0.parent = some 0)
    (hlvl : cont0.containerLevel = 0)
    (hdk : dividerKey cfg.decomp cfg.groupBy0 cont0 = dk)
    (hva : ((st.item 0).compilationArtistNode == some c) = false)
    (hd0 : d ≠ 0) (hdc : d ≠ c)
    (hdp : (st.item d).parent = some 0) :
    (sns2 ≠ [] →
      (songsDeleted cfg st songs).containerNodes0 = [(cont0.key, c)] ∧
      (songsDeleted cfg st songs).dividerNodes = [(dk, d)] ∧
      (songsDeleted cfg st songs).item c = { cont0 with children := sns2.map Prod.snd } ∧
      (songsDeleted cfg st songs).songNodes = sns2) ∧
    (sns2 = [] → sns1 ≠ [] →
      (songsDeleted cfg st songs).containerNodes0 = [] ∧
      (songsDeleted cfg st songs).dividerNodes = [] ∧
      (songsDeleted cfg st songs).songNodes = []) := by
  obtain ⟨r1, r2, r3, r4, r5, r6, r7, r8, r9⟩ :=
    c7_remove_fold c cont0 sns1 songs sns2 st [] hid hsn hnd hitem hc hc0 hpar (Or.inl rfl)
  constructor
  · intro hne
    by_cases hs1 : sns1 = []
    · have hsongs : songs = [] := by
        cases songs with
        | nil => rfl
        | cons a as => rw [hs1] at hid; simp at hid
      subst hsongs
      have hsd : songsDeleted cfg st [] = st := by
        rw [songsDeleted_eq]
        simp only [List.foldl_nil]
        rw [pruneLoop_nil]
        rfl
      rw [hsd]
      rw [hs1] at hitem hsn
      exact ⟨hcn0, hdn, by simpa using hitem, by simpa using hsn⟩
    · have hp2 : (songs.foldl removeSongNode (st, [])).2 = [c] := by
        rw [r9, if_neg hs1]
      have hch : ((songs.foldl removeSongNode (st, [])).1.item c).children.length ≠ 0 := by
        rw [r2]
        show (sns2.map Prod.snd).length ≠ 0
        simpa using hne
      rw [songsDeleted_eq, hp2, show ([c] : List Nat).length = 1 from rfl,
        pruneLoop_skip cfg (songs.foldl removeSongNode (st, [])).1.items.length
          (songs.foldl removeSongNode (st, [])).1 c hch]
      refine ⟨?_, ?_, ?_, ?_⟩
      · show (songs.foldl removeSongNode (st, [])).1.containerNodes0 = [(cont0.key, c)]
        rw [r4, hcn0]
      · show (songs.foldl removeSongNode (st, [])).1.dividerNodes = [(dk, d)]
        rw [r7, hdn]
      · show (songs.foldl removeSongNode (st, [])).1.item c = _
        exact r2
      · show (songs.foldl removeSongNode (st, [])).1.songNodes = sns2
        exact r1
  · intro hs2 hs1
    subst hs2
    have hp2 : (songs.foldl removeSongNode (st, [])).2 = [c] := by
      rw [r9, if_neg hs1]
    have r2x : (songs.foldl removeSongNode (st, [])).1.item c =
        { cont0 with children := ([] : List Nat) } := r2
    have hvax : (((songs.foldl removeSongNode (st, [])).1.item 0).compilationArtistNode
        == some c) = false := by
      rw [r3 0 (Ne.symm hc0)]
      exact hva
    rw [songsDeleted_eq, hp2, show ([c] : List Nat).length = 1 from rfl,
      pruneLoop_last cfg (songs.foldl removeSongNode (st, [])).1 c cont0
        (songs.foldl removeSongNode (st, [])).1.items.length r2x hcp hlvl hvax, hdk]
    have hparc : (((songs.foldl removeSongNode (st, [])).1.removeContainerNode 0
        cont0.key).item c).parent = some 0 := by
      show (((songs.foldl removeSongNode (st, [])).1).item c).parent = some 0
      rw [r2x]
      exact hcp
    have hdet3 : detach ((songs.foldl removeSongNode (st, [])).1.removeContainerNode 0
        cont0.key) c =
        ((songs.foldl removeSongNode (st, [])).1.removeContainerNode 0 cont0.key).setItem 0
          { ((songs.foldl removeSongNode (st, [])).1.removeContainerNode 0 cont0.key).item 0
            with children := (((songs.foldl removeSongNode (st, [])).1.removeContainerNode 0
              cont0.key).item 0).children.erase c } := by
      unfold detach
      rw [hparc]
    have hdn3 : (detach ((songs.foldl removeSongNode (st, [])).1.removeContainerNode 0
        cont0.key) c).dividerNodes = [(dk, d)] := by
      rw [hdet3]
      show (songs.foldl removeSongNode (st, [])).1.dividerNodes = [(dk, d)]
      rw [r7, hdn]
    have hcn03 : (detach ((songs.foldl removeSongNode (st, [])).1.removeContainerNode 0
        cont0.key) c).containerNodes0 = [] := by
      rw [hdet3]
      show ((songs.foldl removeSongNode (st, [])).1.containerNodes0).filter
        (fun p => !(p.1 == cont0.key)) = []
      rw [r4, hcn0]
      simp
    have hdp3 : ((detach ((songs.foldl removeSongNode (st, [])).1.removeContainerNode 0
        cont0.key) c).item d).parent = some 0 := by
      rw [hdet3, item_setItem_ne _ _ _ _ hd0]
      show ((songs.foldl removeSongNode (st, [])).1.item d).parent = some 0
      rw [r3 d hdc]
      exact hdp
    obtain ⟨w1, w2, w3, _, _⟩ := dividerSweep_last cfg
      (detach ((songs.foldl removeSongNode (st, [])).1.removeContainerNode 0 cont0.key) c)
      dk d hdn3 hcn03 hdp3
    refine ⟨?_, ?_, ?_⟩
    · exact w2
    · exact w1
    · rw [w3, hdet3]
      show (songs.foldl removeSongNode (st, [])).1.songNodes = []
      exact r1

/-- Concrete scenario container for the C7 witness. -/
def c7cont : Item :=
  { typ := ItemType.container, key := "A", displayText := "A", sortText := "a a",
    containerLevel := 0, parent := some 0, children := [3, 4] }

/-- Concrete two-record scenario state for the C7 witness: one registered
album-artist container (node 1) with its divider (node 2) and two song
nodes. -/
def c7wState : ModelState :=
  { items := [{ typ := ItemType.root, children := [1, 2] }, c7cont,
      { typ := ItemType.divider, key := "a", displayText := "A", sortText := "a  ",
        parent := some 0 },
      { typ := ItemType.song, parent := some 1 },
      { typ := ItemType.song, parent := some 1 }],
    containerNodes0 := [("A", 1)],
    songNodes := [(5, 3), (7, 4)],
    dividerNodes := [("a", 2)] }

theorem c7_amended_scenario_removal_witness :
    (songsDeleted { groupBy0 := GroupBy.albumArtist } c7wState
      [{ id := 5 }, { id := 7 }]).containerNodes0 = [] ∧
    (songsDeleted { groupBy0 := GroupBy.albumArtist } c7wState
      [{ id := 5 }, { id := 7 }]).dividerNodes = [] ∧
    (songsDeleted { groupBy0 := GroupBy.albumArtist } c7wState
      [{ id := 5 }, { id := 7 }]).songNodes = [] :=
  (c7_amended_scenario_removal { groupBy0 := GroupBy.albumArtist } c7wState 1 2 c7cont "a"
    [(5, 3), (7, 4)] [] [{ id := 5 }, { id := 7 }]
    (by decide) (by decide) (by decide) (by decide) (by decide) (by decide) (by decide)
    (by decide) (by decide) (by decide) (by decide) (by decide) (by decide) (by decide)
    (by decide) (by decide)).2 rfl (by decide)
